import Mathlib

/-!
The learningMachine library: registry, wire wrapper, LSSVM learner and scale
transformer.

A shallow embedding of the learningMachine library of the iCub sources
(`FactoryT.h`, `PortableT.h`, `IFixedSizeLearner.cpp`, `LSSVMLearner.cpp`,
`ScaleTransformer.cpp`).

Conventions of the embedding.

* Objects owned through a raw pointer (`T*` in the registry map, `T* wrapped`
  in the wrapper) are owned exclusively, so they are embedded as values; a
  null pointer is `none`.
* A member function that mutates `this` or a reference argument returns the
  new state next to its result.
* `throw std::runtime_error(..)` and a failing `assert` are embedded as
  `Except.error` with one constructor of `Exn` per site.
* `double` is a type parameter `R` (a linearly ordered field with a floor),
  so every statement holds for exact reals and for rationals; rounding is
  not modelled.
* `int`, `unsigned int` and `size_t` are `Int` and `Nat`. Where a size
  changes between `int` and `unsigned int` on its way into or out of a bottle,
  a configuration or `deleteAll(int)`, the conversion wraps around at 32 bits
  (`unsignedToInt`, `intToUnsigned`); the counts of stored samples and the
  loop counters are taken to fit their machine type.
-/

namespace iCub.learningmachine

/-! ## Failures -/

/-- The failures of the library: the `std::runtime_error` throw sites and the
failing assertions, one constructor each. -/
inductive Exn where
  /-- Thrown by `FactoryT::registerPrototype`: empty key. -/
  | emptyKey
  /-- Thrown by `FactoryT::registerPrototype`: key already registered. -/
  | duplicateKey (name : String)
  /-- Thrown by `FactoryT::create`: no prototype under the key. -/
  | unknownKey (key : String)
  /-- Thrown by `PortableT::getWrapped`: no wrapped object. -/
  | noWrapped
  /-- A member is called through a null pointer. -/
  | nullDereference
  /-- Thrown by `IFixedSizeLearner::validateDomainSizes`: input size. -/
  | inputDimension
  /-- Thrown by `IFixedSizeLearner::validateDomainSizes`: output size. -/
  | outputDimension
  /-- A failing `assert` (sizes of the operands of a vector or matrix
  operation, or of the two arguments of the kernel). -/
  | assertion
  /-- A container is resized to a negative count. -/
  | badLength
  /-- An element is read past the end of a vector or of a container. -/
  | outOfBounds
  /-- Thrown by `ScaleTransformer::getAt` and `ScaleTransformer::setAt`: the
  index is not the index of a scaler. -/
  | scalerIndex
  deriving DecidableEq, Repr

/-! ## The prototype interface and the registry (`FactoryT.h`) -/

/-- What `FactoryT<K, T>` uses of its element class `T`: the virtual
`getName()` and `clone()`. -/
class Prototype (T : Type) where
  /-- The name under which the object registers. -/
  getName : T → String
  /-- A new object copied from this one. -/
  clone : T → T

/-- The registry `FactoryT<std::string, T>`: its `std::map<K, T*> map`, as an
association list with one entry per key. The prototypes are owned by the
registry. -/
structure FactoryT (T : Type) where
  /-- The key to prototype mapping. -/
  map : List (String × T)

namespace FactoryT

variable {T : Type}

/-- The registry as constructed: an empty map. -/
def empty : FactoryT T := ⟨[]⟩

/-- The prototype `map.find(key)->second`, `none` at `map.end()`. -/
def find (f : FactoryT T) (key : String) : Option T :=
  f.map.lookup key

/-- The number `map.count(key)` of entries under a key: 0 or 1. -/
def count (f : FactoryT T) (key : String) : Nat :=
  if (f.find key).isSome then 1 else 0

/-- The assignment `map[key] = value`: replaces the entry of the key or adds one. -/
def assign (f : FactoryT T) (key : String) (value : T) : FactoryT T :=
  ⟨(key, value) :: f.map.filter (fun e => e.1 != key)⟩

/-- `FactoryT::registerPrototype(T* prototype)`; the argument is a non-null
object (the leading `assert`). Returns the outcome and the registry after
the call. -/
def registerPrototype [Prototype T] (f : FactoryT T) (prototype : T) :
    Except Exn Unit × FactoryT T :=
  if Prototype.getName prototype = "" then
    (.error .emptyKey, f)
  else if f.count (Prototype.getName prototype) > 0 then
    (.error (.duplicateKey (Prototype.getName prototype)), f)
  else
    (.ok (), f.assign (Prototype.getName prototype) prototype)

/-- `FactoryT::create(const K& key)`. Returns the created object, or the
failure, and the registry after the call. -/
def create [Prototype T] (f : FactoryT T) (key : String) : Except Exn T × FactoryT T :=
  if f.count key = 0 then
    (.error (.unknownKey key), f)
  else
    match f.find key with
    | some prototype => (.ok (Prototype.clone prototype), f)
    | none => (.error .nullDereference, f)

end FactoryT

/-! ## Values, bottles, vectors and matrices (the YARP types the library uses) -/

/-- A `yarp::os::Value`, as far as the library stores and reads one. -/
inductive Value (R : Type) where
  /-- The null value, which `pop` gives on an empty bottle. -/
  | null
  /-- An `int`. -/
  | int (i : Int)
  /-- A `double`. -/
  | double (d : R)
  /-- A string. -/
  | string (s : String)
  deriving DecidableEq, Repr

namespace Value

variable {R : Type} [LinearOrderedField R] [FloorRing R]

/-- `Value::asInt()`: the integer, a double truncated towards zero, else 0. -/
def asInt : Value R → Int
  | .int i => i
  | .double d => if 0 ≤ d then ⌊d⌋ else ⌈d⌉
  | _ => 0

/-- `Value::asDouble()`: the double, an integer converted, else 0. -/
def asDouble : Value R → R
  | .int i => (i : R)
  | .double d => d
  | _ => 0

/-- `Value::asString()`: the string, else the empty string. -/
def asString : Value R → String
  | .string s => s
  | _ => ""

end Value

/-- A `yarp::os::Bottle`: a sequence of values. The list holds the value added
last first, so `add` is a cons and `pop`, which removes the value added last,
takes the head. -/
structure Bottle (R : Type) where
  /-- The values, the one added last first. -/
  items : List (Value R)
  deriving DecidableEq, Repr

namespace Bottle

variable {R : Type}

/-- The bottle as constructed: no value. -/
def empty : Bottle R := ⟨[]⟩

/-- `Bottle::addInt`. -/
def addInt (bot : Bottle R) (x : Int) : Bottle R := ⟨.int x :: bot.items⟩

/-- `Bottle::addDouble`. -/
def addDouble (bot : Bottle R) (x : R) : Bottle R := ⟨.double x :: bot.items⟩

/-- `Bottle::addString`. -/
def addString (bot : Bottle R) (s : String) : Bottle R := ⟨.string s :: bot.items⟩

/-- `Bottle::pop`: removes and returns the value added last; the null value
on an empty bottle. -/
def pop (bot : Bottle R) : Value R × Bottle R :=
  match bot.items with
  | [] => (.null, bot)
  | v :: rest => (v, ⟨rest⟩)

/-- `Bottle::get(index)`: the value at a position counted from the value
added first; the null value past the end. -/
def get (bot : Bottle R) (index : Nat) : Value R :=
  bot.items.reverse.getD index .null

end Bottle

/-- A `yarp::sig::Vector`: its components. -/
abbrev Vector (R : Type) := List R

/-- The vector `zeros(n)` of `yarp::math`. -/
def zeros {R : Type} [Zero R] (n : Nat) : Vector R := List.replicate n 0

/-- A `yarp::sig::Matrix`: `rows * cols` components stored row by row. -/
structure Matrix (R : Type) where
  /-- The number of rows. -/
  rows : Nat
  /-- The number of columns. -/
  cols : Nat
  /-- The components, row by row. -/
  data : List R
  /-- The storage holds exactly the components. -/
  size_eq : data.length = rows * cols
  deriving DecidableEq

namespace Matrix

variable {R : Type}

/-- The matrix with the given components: `M(r, c) = f r c`. -/
def ofFn (rows cols : Nat) (f : Nat → Nat → R) : Matrix R :=
  ⟨rows, cols, (List.range (rows * cols)).map (fun k => f (k / cols) (k % cols)), by simp⟩

/-- The matrix `Matrix()` as constructed: no row and no column. -/
def empty : Matrix R := ⟨0, 0, [], rfl⟩

/-- The component `M(r, c)`; no bounds are checked by the library, and the
embedding gives 0 outside the matrix. -/
def get [Zero R] (M : Matrix R) (r c : Nat) : R :=
  if r < M.rows ∧ c < M.cols then M.data.getD (r * M.cols + c) 0 else 0

/-- `Matrix::transposed()`. -/
def transposed [Zero R] (M : Matrix R) : Matrix R :=
  ofFn M.cols M.rows (fun r c => M.get c r)

/-- `Matrix::getRow(r)`. -/
def getRow [Zero R] (M : Matrix R) (r : Nat) : Vector R :=
  (List.range M.cols).map (fun c => M.get r c)

/-- `Matrix::getCol(c)`. -/
def getCol [Zero R] (M : Matrix R) (c : Nat) : Vector R :=
  (List.range M.rows).map (fun r => M.get r c)

/-- The rows `0 .. n-1` of a matrix, `M.submatrix(0, n-1, 0, M.cols()-1)`. -/
def topRows [Zero R] (M : Matrix R) (n : Nat) : Matrix R :=
  ofFn n M.cols (fun r c => M.get r c)

/-- The product `M * v` of `yarp::math`; the library asserts that the sizes agree. -/
def mulVec [Semiring R] (M : Matrix R) (v : Vector R) : Except Exn (Vector R) :=
  if M.cols = v.length then
    .ok ((List.range M.rows).map (fun r =>
      ((List.range M.cols).map (fun c => M.get r c * v.getD c 0)).foldl (· + ·) 0))
  else .error .assertion

/-- The product `A * B` of `yarp::math`; the library asserts that the sizes agree. -/
def mul [Semiring R] (A B : Matrix R) : Except Exn (Matrix R) :=
  if A.cols = B.rows then
    .ok (ofFn A.rows B.cols (fun r c =>
      ((List.range A.cols).map (fun k => A.get r k * B.get k c)).foldl (· + ·) 0))
  else .error .assertion

end Matrix

/-- The sum `a + b` of two vectors in `yarp::math`; the library asserts that
the sizes agree. -/
def Vector.add {R : Type} [Add R] (a b : Vector R) : Except Exn (Vector R) :=
  if a.length = b.length then .ok (List.zipWith (· + ·) a b) else .error .assertion

/-! ## The wire wrapper (`PortableT.h`) -/

/-- The tag `BOTTLE_TAG_LIST` of the YARP wire format. -/
def BOTTLE_TAG_LIST : Int := 256

/-- The operations of a `yarp::os::ConnectionWriter` of state `W` that
`PortableT::write` uses, and `Bottle::write` on such a connection. -/
structure WriterOps (R W : Type) where
  /-- `ConnectionWriter::appendInt`. -/
  appendInt : W → Int → W
  /-- `ConnectionWriter::convertTextMode`. -/
  convertTextMode : W → W
  /-- `Bottle::write(connection)`. -/
  writeBottle : Bottle R → W → Bool × W

/-- The operations of a `yarp::os::ConnectionReader` of state `C` that
`PortableT::read` uses, and `Bottle::read` on such a connection. -/
structure ReaderOps (R C : Type) where
  /-- `ConnectionReader::isValid`. -/
  isValid : C → Bool
  /-- `ConnectionReader::convertTextMode`. -/
  convertTextMode : C → C
  /-- `ConnectionReader::expectInt`. -/
  expectInt : C → Int × C
  /-- `Bottle::read(connection)` on a new bottle: the outcome, the bottle read
  and the connection. -/
  readBottle : C → Bool × Bottle R × C

/-- The virtual `write(ConnectionWriter&)` of a wrapped class. -/
class Writable (T W : Type) where
  /-- Writes the object on the connection. -/
  write : T → W → Bool × W

/-- The virtual `read(ConnectionReader&)` of a wrapped class. -/
class Readable (T C : Type) where
  /-- Reads the object from the connection. -/
  read : T → C → Bool × T × C

/-- The wrapper `PortableT<T>`: its pointer `T* wrapped`, `none` when null. -/
structure PortableT (T : Type) where
  /-- The wrapped object. -/
  wrapped : Option T
  deriving DecidableEq, Repr

namespace PortableT

variable {T : Type}

/-- `PortableT::hasWrapped()`. -/
def hasWrapped (p : PortableT T) : Bool := p.wrapped.isSome

/-- `PortableT::getWrapped()`. -/
def getWrapped (p : PortableT T) : Except Exn T :=
  if !p.hasWrapped then .error .noWrapped
  else match p.wrapped with
    | some w => .ok w
    | none => .error .nullDereference

/-- The step `if(wipe && this->hasWrapped()) { delete this->wrapped; this->wrapped = 0; }`
that opens both `setWrapped` overloads. -/
def wipeWrapped (p : PortableT T) (wipe : Bool) : PortableT T :=
  if wipe && p.hasWrapped then ⟨none⟩ else p

/-- `PortableT::setWrapped(T* w, bool wipe)`. -/
def setWrapped (p : PortableT T) (w : Option T) (wipe : Bool) : PortableT T :=
  { p.wipeWrapped wipe with wrapped := w }

/-- `PortableT::setWrapped(std::string name, bool wipe)`, on the registry
`FactoryT<std::string, T>::instance()`. Returns the outcome and the wrapper
after the call. -/
def setWrappedName [Prototype T] (factory : FactoryT T) (p : PortableT T) (name : String)
    (wipe : Bool) : Except Exn Unit × PortableT T :=
  match (factory.create name).1 with
  | .ok w => (.ok (), { p.wipeWrapped wipe with wrapped := some w })
  | .error e => (.error e, p.wipeWrapped wipe)

/-- `PortableT::write(ConnectionWriter& connection)`. Returns the result and
the connection after the call. -/
def write {R W : Type} (ops : WriterOps R W) [Prototype T] [Writable T W]
    (p : PortableT T) (connection : W) : Bool × W :=
  match p.wrapped with
  | none => (false, connection)
  | some w =>
    let c1 := ops.appendInt connection BOTTLE_TAG_LIST
    let c2 := ops.appendInt c1 2
    let nameBottle : Bottle R := Bottle.empty.addString (Prototype.getName w)
    let c3 := (ops.writeBottle nameBottle c2).2
    let c4 := (Writable.write w c3).2
    (true, ops.convertTextMode c4)

/-- `PortableT::read(ConnectionReader& connection)`, on the registry
`FactoryT<std::string, T>::instance()`. Returns the result, or the exception
that leaves the call, the wrapper and the connection after the call. -/
def read {R C : Type} [LinearOrderedField R] [FloorRing R] (ops : ReaderOps R C)
    [Prototype T] [Readable T C] (factory : FactoryT T) (p : PortableT T) (connection : C) :
    Except Exn Bool × PortableT T × C :=
  if !ops.isValid connection then (.ok false, p, connection)
  else
    let c1 := ops.convertTextMode connection
    let (header, c2) := ops.expectInt c1
    let (len, c3) := ops.expectInt c2
    if header ≠ BOTTLE_TAG_LIST ∨ len ≠ 2 then (.ok false, p, c3)
    else
      let (_, nameBottle, c4) := ops.readBottle c3
      let name := (nameBottle.get 0).asString
      match p.setWrappedName factory name true with
      | (.error e, p1) => (.error e, p1, c4)
      | (.ok (), p1) =>
        match p1.wrapped with
        | none => (.ok false, p1, c4)
        | some w =>
          let (ok, w1, c5) := Readable.read w c4
          (.ok ok, ⟨some w1⟩, c5)

end PortableT

/-! ## Bottle serialization of numbers, vectors and matrices -/

section Serialization

variable {R : Type} [LinearOrderedField R] [FloorRing R]

/-- Pops `n` doubles, the components `n-1` down to `0` of a vector, and
returns the vector: the loop `for(i = n - 1; i >= 0; i--) v(i) = bot.pop().asDouble()`. -/
def popDoubles : Nat → Bottle R → Vector R × Bottle R
  | 0, bot => ([], bot)
  | n + 1, bot =>
    let (x, b1) := bot.pop
    let (v, b2) := popDoubles n b1
    (v ++ [x.asDouble], b2)

/-- Pops `n` vectors of `size` components each, the vectors `n-1` down to `0`:
the loops of `LSSVMLearner::readBottle` over `outputs` and over `inputs`. -/
def popVectors : Nat → Nat → Bottle R → List (Vector R) × Bottle R
  | 0, _, bot => ([], bot)
  | n + 1, size, bot =>
    let (v, b1) := popDoubles size bot
    let (vs, b2) := popVectors n size b1
    (vs ++ [v], b2)

omit [FloorRing R] in
/-- Popping `n` doubles gives `n` components. -/
theorem popDoubles_length (n : Nat) (bot : Bottle R) : (popDoubles n bot).1.length = n := by
  induction n generalizing bot with
  | zero => rfl
  | succ n ih => simp [popDoubles, ih]

/-- Modelled from the spec: `operator<<(Bottle&, const Vector&)` of
`Serialization.h`, which is not among the sources; the stack order the spec
gives for the sample vectors: the components in order, then their count. -/
def writeVector (bot : Bottle R) (v : Vector R) : Bottle R :=
  (v.foldl Bottle.addDouble bot).addInt v.length

/-- Modelled from the spec: `operator>>(Bottle&, Vector&)` of
`Serialization.h`, which is not among the sources; the exact mirror of
`writeVector`: the count is popped, then the components in reverse. -/
def readVector (bot : Bottle R) : Except Exn (Vector R × Bottle R) :=
  let (len, b1) := bot.pop
  if len.asInt < 0 then .error .badLength
  else .ok (popDoubles len.asInt.toNat b1)

/-- Modelled from the spec: `operator<<(Bottle&, const Matrix&)` of
`Serialization.h`, which is not among the sources: the components row by
row, then the number of rows, then the number of columns. -/
def writeMatrix (bot : Bottle R) (M : Matrix R) : Bottle R :=
  ((M.data.foldl Bottle.addDouble bot).addInt M.rows).addInt M.cols

/-- Modelled from the spec: `operator>>(Bottle&, Matrix&)` of
`Serialization.h`, which is not among the sources; the exact mirror of
`writeMatrix`: the columns and the rows are popped, then the components in
reverse. -/
def readMatrix (bot : Bottle R) : Except Exn (Matrix R × Bottle R) :=
  let (cols, b1) := bot.pop
  let (rows, b2) := b1.pop
  if rows.asInt < 0 ∨ cols.asInt < 0 then .error .badLength
  else
    .ok (⟨rows.asInt.toNat, cols.asInt.toNat,
          (popDoubles (rows.asInt.toNat * cols.asInt.toNat) b2).1, popDoubles_length _ _⟩,
         (popDoubles (rows.asInt.toNat * cols.asInt.toNat) b2).2)

/-- Adds the components `v(0) .. v(size-1)` of a vector to a bottle, the inner
loop of `LSSVMLearner::writeBottle`; reading a component past the end of the
vector fails. -/
def writeComponents (size : Nat) (v : Vector R) (bot : Bottle R) : Except Exn (Bottle R) :=
  (List.range size).foldlM
    (fun b d => match v[d]? with
      | some x => .ok (b.addDouble x)
      | none => .error .outOfBounds) bot

/-- Adds `size` components of every vector of a list, the outer loop of
`LSSVMLearner::writeBottle` over `inputs` and over `outputs`. -/
def writeVectors (size : Nat) (vs : List (Vector R)) (bot : Bottle R) : Except Exn (Bottle R) :=
  vs.foldlM (fun b v => writeComponents size v b) bot

end Serialization

/-! ## Conversions between `int` and `unsigned int` -/

/-- The conversion of an `unsigned int` to `int`, as where a size is passed to
`Bottle::addInt(int)` or to `deleteAll(int)`: 32 bits in two's complement, so a
value from 2^31 = 2147483648 on becomes the negative number that is
2^32 = 4294967296 less. A number of 2^32 or more is no `unsigned int` and is
left as it is. -/
def unsignedToInt (n : Nat) : Int :=
  if 2147483648 ≤ n ∧ n < 4294967296 then (n : Int) - 4294967296 else (n : Int)

/-- The conversion of an `int` to `unsigned int`, as where `asInt()` is passed
to `setDomainSize(unsigned int)`: a negative value is taken modulo
2^32 = 4294967296, so `-1` becomes 4294967295. -/
def intToUnsigned (i : Int) : Nat :=
  if i < 0 then (i % 4294967296).toNat else i.toNat

/-! ## The fixed-size learner base (`IFixedSizeLearner.cpp`) -/

/-- The state of the base class `IMachineLearner`: the name of the machine. -/
structure IMachineLearner where
  /-- The name, set by `setName` and read by `getName`. -/
  name : String
  deriving DecidableEq, Repr

/-- The state of `IFixedSizeLearner`: the two sizes, on top of the base class. -/
structure IFixedSizeLearner extends IMachineLearner where
  /-- The size of an input vector. -/
  domainSize : Nat
  /-- The size of an output vector. -/
  codomainSize : Nat
  deriving DecidableEq, Repr

namespace IFixedSizeLearner

variable {R : Type}

/-- `IFixedSizeLearner::setDomainSize`. -/
def setDomainSize (l : IFixedSizeLearner) (size : Nat) : IFixedSizeLearner :=
  { l with domainSize := size }

/-- `IFixedSizeLearner::setCoDomainSize`. -/
def setCoDomainSize (l : IFixedSizeLearner) (size : Nat) : IFixedSizeLearner :=
  { l with codomainSize := size }

/-- `IFixedSizeLearner::checkDomainSize`. -/
def checkDomainSize (l : IFixedSizeLearner) (input : Vector R) : Bool :=
  input.length == l.domainSize

/-- `IFixedSizeLearner::checkCoDomainSize`. -/
def checkCoDomainSize (l : IFixedSizeLearner) (output : Vector R) : Bool :=
  output.length == l.codomainSize

/-- `IFixedSizeLearner::validateDomainSizes`. -/
def validateDomainSizes (l : IFixedSizeLearner) (input output : Vector R) : Except Exn Unit :=
  if !l.checkDomainSize input then .error .inputDimension
  else if !l.checkCoDomainSize output then .error .outputDimension
  else .ok ()

/-- `IFixedSizeLearner::feedSample`. -/
def feedSample (l : IFixedSizeLearner) (input output : Vector R) : Except Exn Unit :=
  l.validateDomainSizes input output

/-- `IFixedSizeLearner::writeBottle`: `addInt(int)` takes each unsigned size
as an `int`. -/
def writeBottle (l : IFixedSizeLearner) (bot : Bottle R) : Bottle R :=
  (bot.addInt (unsignedToInt l.domainSize)).addInt (unsignedToInt l.codomainSize)

/-- `IFixedSizeLearner::readBottle`: each popped `int` is passed to a setter
that takes an `unsigned int`. -/
def readBottle [LinearOrderedField R] [FloorRing R] (l : IFixedSizeLearner) (bot : Bottle R) :
    IFixedSizeLearner × Bottle R :=
  let (cod, b1) := bot.pop
  let l1 := l.setCoDomainSize (intToUnsigned cod.asInt)
  let (dom, b2) := b1.pop
  (l1.setDomainSize (intToUnsigned dom.asInt), b2)

/-- `IFixedSizeLearner::getInfo`, after the text `machineInfo` that
`IMachineLearner::getInfo` gives. -/
def getInfo (l : IFixedSizeLearner) (machineInfo : String) : String :=
  machineInfo ++ "Domain size: " ++ toString l.domainSize ++ "\n"
    ++ "Codomain size: " ++ toString l.codomainSize ++ "\n"

end IFixedSizeLearner

/-! ## The LSSVM learner (`LSSVMLearner.cpp`) -/

/-- The numerical routines that the learner calls and that are not part of
the library. -/
structure Numerics (R : Type) where
  /-- The exponential `std::exp`. -/
  exp : R → R
  /-- The matrix inverse `yarp::math::luinv`. -/
  luinv : Matrix R → Matrix R

/-- The kernel `RBFKernel`: its parameter gamma. -/
structure RBFKernel (R : Type) where
  /-- The width parameter of the kernel. -/
  gamma : R
  deriving DecidableEq, Repr

/-- `RBFKernel::evaluate`. -/
def RBFKernel.evaluate {R : Type} [Ring R] (kernel : RBFKernel R) (exp : R → R)
    (v1 v2 : Vector R) : Except Exn R :=
  if v1.length ≠ v2.length then .error .assertion
  else
    let result := (List.zipWith (fun a b => (a - b) * (a - b)) v1 v2).foldl (· + ·) 0
    .ok (exp (result * (-1 * kernel.gamma)))

/-- The value `Prediction` that `predict` returns: the predicted vector. -/
structure Prediction (R : Type) where
  /-- The predicted output. -/
  prediction : Vector R
  deriving DecidableEq, Repr

/-- The state of an `LSSVMLearner`. -/
structure LSSVMLearner (R : Type) extends IFixedSizeLearner where
  /-- The stored inputs. -/
  inputs : List (Vector R)
  /-- The stored outputs. -/
  outputs : List (Vector R)
  /-- The dual coefficients. -/
  alphas : Matrix R
  /-- The bias. -/
  bias : Vector R
  /-- The leave-one-out error of every output. -/
  LOO : Vector R
  /-- The regularization parameter. -/
  C : R
  /-- The kernel. -/
  kernel : RBFKernel R
  deriving DecidableEq

/-- The text routines that `getInfo` calls and that are not among the sources. -/
structure InfoFormat (R : Type) where
  /-- The text `IMachineLearner::getInfo()` of a machine of the given name. -/
  machineInfo : String → String
  /-- The text that `operator<<` prints for a double. -/
  showDouble : R → String
  /-- The text `RBFKernel::getInfo()` of a kernel of the given gamma. -/
  kernelInfo : R → String
  /-- The text `yarp::sig::Vector::toString()`. -/
  vectorToString : Vector R → String

namespace LSSVMLearner

variable {R : Type} [LinearOrderedField R] [FloorRing R]

/-- The constructor `LSSVMLearner(dom, cod, c)`; `gamma` is the parameter of
the kernel `RBFKernel()` that the constructor creates. -/
def init (dom cod : Nat) (c gamma : R) : LSSVMLearner R :=
  { name := "LSSVM", domainSize := dom, codomainSize := cod,
    inputs := [], outputs := [], alphas := Matrix.empty, bias := [], LOO := [],
    C := c, kernel := ⟨gamma⟩ }

/-- `LSSVMLearner::clone`, through the copy constructor: every field is copied. -/
def clone (L : LSSVMLearner R) : LSSVMLearner R := L

/-- `LSSVMLearner::setDomainSize`. -/
def setDomainSize (L : LSSVMLearner R) (size : Nat) : LSSVMLearner R :=
  { L with toIFixedSizeLearner := L.toIFixedSizeLearner.setDomainSize size }

/-- `LSSVMLearner::setCoDomainSize`. -/
def setCoDomainSize (L : LSSVMLearner R) (size : Nat) : LSSVMLearner R :=
  { L with toIFixedSizeLearner := L.toIFixedSizeLearner.setCoDomainSize size }

/-- `LSSVMLearner::feedSample`. Returns the outcome and the learner after the call. -/
def feedSample (L : LSSVMLearner R) (input output : Vector R) :
    Except Exn Unit × LSSVMLearner R :=
  match L.toIFixedSizeLearner.feedSample input output with
  | .error e => (.error e, L)
  | .ok () => (.ok (), { L with inputs := L.inputs ++ [input], outputs := L.outputs ++ [output] })

/-- The kernel values `evaluate(inputs[r], inputs[c])` for `c <= r < n`, in the
order in which the first loop nest of `train` computes them. -/
def kernelValues (nm : Numerics R) (L : LSSVMLearner R) : Except Exn (List (List R)) :=
  (List.range L.inputs.length).mapM (fun r =>
    (List.range (r + 1)).mapM (fun c =>
      L.kernel.evaluate nm.exp (L.inputs.getD r []) (L.inputs.getD c [])))

/-- The matrix `K` that `train` fills from the kernel values: the symmetric
kernel block with `1 / C` added on its diagonal, a last row and a last column
of ones, and a zero corner. -/
def kernelMatrix (L : LSSVMLearner R) (values : List (List R)) : Matrix R :=
  let n := L.inputs.length
  Matrix.ofFn (n + 1) (n + 1) (fun r c =>
    if r < n ∧ c < n then
      let k := (values.getD (max r c) []).getD (min r c) 0
      if r = c then k + 1 / L.C else k
    else if r = n ∧ c = n then 0
    else 1)

/-- The rows `outputs[r](c)`, `c < codomainSize`, that `train` copies into `Y`;
reading a component past the end of an output fails. -/
def outputRows (L : LSSVMLearner R) : Except Exn (List (List R)) :=
  L.outputs.mapM (fun o =>
    (List.range L.codomainSize).mapM (fun c =>
      match o[c]? with
      | some y => .ok y
      | none => .error .outOfBounds))

/-- The leave-one-out errors that `train` computes from the dual coefficients
and the diagonal of the inverse. The division is that of the field, which
gives 0 for a divisor `Kinv(j, j) = 0`, where the division of `double` gives a
NaN or an infinity: the value of this function is that of the source only
when no divisor is 0. -/
def looOf (codomainSize : Nat) (alphas Kinv : Matrix R) : Vector R :=
  (List.range codomainSize).map (fun i =>
    let alphas_i := alphas.getCol i
    ((List.range alphas_i.length).foldl
      (fun loo j =>
        let err := alphas_i.getD j 0 / Kinv.get j j
        loo + err * err) 0) / (alphas_i.length : R))

/-- `LSSVMLearner::train`. Returns the learner after the call, or the failure. -/
def train (nm : Numerics R) (L : LSSVMLearner R) : Except Exn (LSSVMLearner R) :=
  if L.inputs.length ≠ L.outputs.length then .error .assertion
  else if L.inputs.length = 0 then .ok L
  else do
    let values ← L.kernelValues nm
    let K := L.kernelMatrix values
    let Kinv := nm.luinv K
    let rowsY ← L.outputRows
    let Y := Matrix.ofFn (L.outputs.length + 1) L.codomainSize (fun r c =>
      if r < L.outputs.length then (rowsY.getD r []).getD c 0 else 0)
    let result ← Matrix.mul Kinv Y
    let alphas := result.topRows (result.rows - 1)
    let bias := result.getRow (result.rows - 1)
    .ok { L with alphas := alphas, bias := bias, LOO := looOf L.codomainSize alphas Kinv }

/-- `LSSVMLearner::predict`. The result of `checkDomainSize` is not used by
the source. -/
def predict (nm : Numerics R) (L : LSSVMLearner R) (input : Vector R) :
    Except Exn (Prediction R) :=
  let _checked := L.toIFixedSizeLearner.checkDomainSize input
  if L.inputs.length = 0 then .ok ⟨zeros L.codomainSize⟩
  else do
    let k ← L.inputs.mapM (fun x => L.kernel.evaluate nm.exp x input)
    let product ← L.alphas.transposed.mulVec k
    let sum ← Vector.add product L.bias
    .ok ⟨sum⟩

/-- `LSSVMLearner::reset`. -/
def reset (L : LSSVMLearner R) : LSSVMLearner R :=
  { L with inputs := [], outputs := [], alphas := Matrix.empty, LOO := [], bias := [] }

/-- `LSSVMLearner::getInfo`. -/
def getInfo (fmt : InfoFormat R) (L : LSSVMLearner R) : String :=
  L.toIFixedSizeLearner.getInfo (fmt.machineInfo L.name)
    ++ "C: " ++ fmt.showDouble L.C ++ " | "
    ++ "Collected Samples: " ++ toString L.inputs.length ++ " | "
    ++ "Training Samples: " ++ toString L.alphas.rows ++ " | "
    ++ "Kernel: " ++ fmt.kernelInfo L.kernel.gamma ++ "\n"
    ++ "LOO: " ++ fmt.vectorToString L.LOO ++ "\n"

/-- `LSSVMLearner::writeBottle`. Returns the bottle after the call, or the
failure of reading a sample component that is not there. -/
def writeBottle (L : LSSVMLearner R) (bot : Bottle R) : Except Exn (Bottle R) := do
  let b1 := writeMatrix (writeVector ((bot.addDouble L.kernel.gamma).addDouble L.C) L.bias) L.alphas
  let b2 ← writeVectors L.domainSize L.inputs b1
  let b3 := b2.addInt L.inputs.length
  let b4 ← writeVectors L.codomainSize L.outputs b3
  let b5 := b4.addInt L.outputs.length
  .ok (L.toIFixedSizeLearner.writeBottle b5)

/-- `LSSVMLearner::readBottle`. Returns the learner and the bottle after the
call, or the failure of a negative count. -/
def readBottle (L : LSSVMLearner R) (bot : Bottle R) :
    Except Exn (LSSVMLearner R × Bottle R) := do
  let (base, b1) := L.toIFixedSizeLearner.readBottle bot
  let (no, b2) := b1.pop
  if no.asInt < 0 then .error .badLength
  else
    let (outputs, b3) := popVectors no.asInt.toNat base.codomainSize b2
    let (ni, b4) := b3.pop
    if ni.asInt < 0 then .error .badLength
    else
      let (inputs, b5) := popVectors ni.asInt.toNat base.domainSize b4
      let (alphas, b6) ← readMatrix b5
      let (bias, b7) ← readVector b6
      let (c, b8) := b7.pop
      let (gamma, b9) := b8.pop
      .ok ({ L with toIFixedSizeLearner := base, outputs := outputs, inputs := inputs,
                    alphas := alphas, bias := bias, C := c.asDouble,
                    kernel := ⟨gamma.asDouble⟩ }, b9)

end LSSVMLearner

/-- An `LSSVMLearner` as an element of the registry of machines: `getName()`
of `IMachineLearner` and `clone()`. -/
instance {R : Type} : Prototype (LSSVMLearner R) where
  getName := fun L => L.name
  clone := LSSVMLearner.clone

/-! ## Configurations (`yarp::os::Searchable`) and `configure` of the learner -/

/-- What a configuration holds under a key: a plain value or a list of plain
values (`Value::isList`, `Value::asList`). -/
inductive Entry (R : Type) where
  /-- A plain value; the null value when the key is absent. -/
  | value (v : Value R)
  /-- A list. -/
  | list (b : Bottle R)
  deriving DecidableEq, Repr

namespace Value

variable {R : Type}

/-- `Value::isInt()`. -/
def isInt : Value R → Bool
  | .int _ => true
  | _ => false

/-- `Value::isDouble()`. -/
def isDouble : Value R → Bool
  | .double _ => true
  | _ => false

/-- `Value::isString()`. -/
def isString : Value R → Bool
  | .string _ => true
  | _ => false

end Value

namespace Entry

variable {R : Type}

/-- `Value::isInt()` of an entry. -/
def isInt : Entry R → Bool
  | .value v => v.isInt
  | .list _ => false

/-- `Value::isDouble()` of an entry. -/
def isDouble : Entry R → Bool
  | .value v => v.isDouble
  | .list _ => false

/-- `Value::isList()` of an entry. -/
def isList : Entry R → Bool
  | .value _ => false
  | .list _ => true

/-- `Value::asInt()` of an entry; 0 for a list. -/
def asInt [LinearOrderedField R] [FloorRing R] : Entry R → Int
  | .value v => v.asInt
  | .list _ => 0

/-- `Value::asDouble()` of an entry; 0 for a list. -/
def asDouble [LinearOrderedField R] [FloorRing R] : Entry R → R
  | .value v => v.asDouble
  | .list _ => 0

end Entry

/-- A `yarp::os::Searchable`, as `configure` reads one. -/
structure Searchable (R : Type) where
  /-- `find(key)`. -/
  find : String → Entry R
  /-- `findGroup(key)`: the group, its key first; `none` for the null bottle. -/
  findGroup : String → Option (Bottle R)

namespace Bottle

variable {R : Type}

/-- `Bottle::size()`. -/
def size (bot : Bottle R) : Nat := bot.items.length

/-- `Bottle::tail()`: the bottle without the value added first. -/
def tail (bot : Bottle R) : Bottle R := ⟨bot.items.dropLast⟩

end Bottle

/-- `IFixedSizeLearner::configure`: the `int` of `asInt()` is passed to a
setter that takes an `unsigned int`. Returns the flag and the learner after the
call. -/
def IFixedSizeLearner.configure {R : Type} [LinearOrderedField R] [FloorRing R]
    (l : IFixedSizeLearner) (config : Searchable R) : Bool × IFixedSizeLearner :=
  let r1 : Bool × IFixedSizeLearner :=
    if (config.find "dom").isInt then
      (true, l.setDomainSize (intToUnsigned (config.find "dom").asInt))
    else (false, l)
  if (config.find "cod").isInt then
    (true, r1.2.setCoDomainSize (intToUnsigned (config.find "cod").asInt))
  else r1

namespace LSSVMLearner

variable {R : Type} [LinearOrderedField R] [FloorRing R]

/-- `LSSVMLearner::setC`. -/
def setC (L : LSSVMLearner R) (C : R) : LSSVMLearner R := { L with C := C }

/-- `LSSVMLearner::configure`; `kernelConfigure` is `RBFKernel::configure`,
which returns its flag and the kernel after the call. Returns the flag and the
learner after the call. -/
def configure (kernelConfigure : RBFKernel R → Searchable R → Bool × RBFKernel R)
    (L : LSSVMLearner R) (config : Searchable R) : Bool × LSSVMLearner R :=
  let base := L.toIFixedSizeLearner.configure config
  let L1 : LSSVMLearner R := { L with toIFixedSizeLearner := base.2 }
  let r : Bool × LSSVMLearner R :=
    if (config.find "c").isDouble || (config.find "c").isInt then
      if (config.find "c").asDouble > 0 then (true, L1.setC (config.find "c").asDouble)
      else (base.1, L1)
    else (base.1, L1)
  let k := kernelConfigure r.2.kernel config
  (r.1 || k.1, { r.2 with kernel := k.2 })

end LSSVMLearner

/-! ## Copies of the wire wrapper (`PortableT.h`) -/

namespace PortableT

variable {T : Type}

/-- The copy constructor `PortableT(const PortableT<T>& other)`: the new wrapper. -/
def copy [Prototype T] (other : PortableT T) : Except Exn (PortableT T) :=
  match other.wrapped with
  | some w => .ok ⟨some (Prototype.clone w)⟩
  | none => .error .nullDereference

/-- The assignment `operator=(const PortableT<T>& other)`; `same` tells whether
`this == &other`, and then `other` is the wrapper itself. Returns the wrapper
after the call. -/
def assignFrom [Prototype T] (p other : PortableT T) (same : Bool) : Except Exn (PortableT T) :=
  if same then .ok p
  else
    match other.wrapped with
    | some w => .ok (p.setWrapped (some (Prototype.clone w)) true)
    | none => .error .nullDereference

end PortableT

/-! ## The scale transformer (`ScaleTransformer.cpp`) -/

/-- What `ScaleTransformer` uses of the class `IScaler` of its scalers, next to
`getName()` and `clone()`; a member that changes the scaler returns the scaler
after the call. -/
class IScaler (S : Type) (R : outParam Type) extends Prototype S where
  /-- `IScaler::transform(double)`. -/
  transform : S → R → R × S
  /-- `IScaler::configure(Searchable&)` on the property that holds one list;
  the argument is that list, the key first. -/
  configure : S → Bottle R → Bool × S
  /-- `IScaler::fromString(const std::string&)`. -/
  fromString : S → String → Bool × S

/-- The state of the base class `IFixedSizeTransformer`: the name of the
transformer and the two sizes. -/
structure IFixedSizeTransformer where
  /-- The name, set by `setName`. -/
  name : String
  /-- The size of an input vector. -/
  domainSize : Nat
  /-- The size of an output vector. -/
  codomainSize : Nat
  deriving DecidableEq, Repr

/-- Modelled from the spec: `IFixedSizeTransformer::transform`, which is not
among the sources; the fixed-size base validates the size of the input against
`domainSize` and hands back an output of `codomainSize` components for the
subclass to fill. -/
def IFixedSizeTransformer.transform {R : Type} [Zero R] (t : IFixedSizeTransformer)
    (input : Vector R) : Except Exn (Vector R) :=
  if input.length ≠ t.domainSize then .error .inputDimension
  else .ok (zeros t.codomainSize)

/-- The state of a `ScaleTransformer`: the base class and the vector
`std::vector<IScaler*> scalers`, a null pointer being `none`. -/
structure ScaleTransformer (S : Type) extends IFixedSizeTransformer where
  /-- The scalers, one slot for every dimension. -/
  scalers : List (Option S)

namespace ScaleTransformer

variable {S R : Type}

/-- `ScaleTransformer::getAt(int index)`: the pointer in the slot. -/
def getAt (t : ScaleTransformer S) (index : Int) : Except Exn (Option S) :=
  if 0 ≤ index ∧ index < (t.scalers.length : Int) then .ok (t.scalers.getD index.toNat none)
  else .error .scalerIndex

/-- `ScaleTransformer::setAt(int index, std::string type)`, on the registry
`FactoryT<std::string, IScaler>::instance()`. Returns the outcome and the
transformer after the call. -/
def setAt [Prototype S] (factory : FactoryT S) (t : ScaleTransformer S) (index : Int)
    (type : String) : Except Exn Unit × ScaleTransformer S :=
  if 0 ≤ index ∧ index < (t.scalers.length : Int) then
    match (factory.create type).1 with
    | .ok scaler => (.ok (), { t with scalers := t.scalers.set index.toNat (some scaler) })
    | .error e => (.error e, { t with scalers := t.scalers.set index.toNat none })
  else (.error .scalerIndex, t)

/-- The loop of `ScaleTransformer::setAll` over the indices still to be set. -/
def setAllLoop [Prototype S] (factory : FactoryT S) (type : String) :
    List Nat → ScaleTransformer S → Except Exn Unit × ScaleTransformer S
  | [], t => (.ok (), t)
  | i :: rest, t =>
    match t.setAt factory i type with
    | (.ok (), t1) => setAllLoop factory type rest t1
    | (.error e, t1) => (.error e, t1)

/-- `ScaleTransformer::setAll(std::string type)`. -/
def setAll [Prototype S] (factory : FactoryT S) (t : ScaleTransformer S) (type : String) :
    Except Exn Unit × ScaleTransformer S :=
  setAllLoop factory type (List.range t.scalers.length) t

/-- `ScaleTransformer::deleteAll(int size)`: the scalers are deleted and the
vector is cleared; `scalers.resize(size)` then takes the `int` as a `size_t`,
so that a negative `size` is a count beyond `max_size()` and `resize` throws
`std::length_error`, which leaves the vector empty; otherwise the vector has
`size` null pointers and `setAll("null")` fills it. -/
def deleteAll [Prototype S] (factory : FactoryT S) (t : ScaleTransformer S) (size : Int) :
    Except Exn Unit × ScaleTransformer S :=
  if size < 0 then (.error .badLength, { t with scalers := [] })
  else setAll factory { t with scalers := List.replicate size.toNat none } "null"

/-- `ScaleTransformer::reset()`; `ITransformer::reset()` changes nothing of
this state. The unsigned `getDomainSize()` is passed to `deleteAll(int)`. -/
def reset [Prototype S] (factory : FactoryT S) (t : ScaleTransformer S) :
    Except Exn Unit × ScaleTransformer S :=
  deleteAll factory t (unsignedToInt t.domainSize)

/-- `ScaleTransformer::setDomainSize(unsigned int size)`. -/
def setDomainSize [Prototype S] (factory : FactoryT S) (t : ScaleTransformer S) (size : Nat) :
    Except Exn Unit × ScaleTransformer S :=
  reset factory { t with domainSize := size, codomainSize := size }

/-- `ScaleTransformer::setCoDomainSize(unsigned int size)`. -/
def setCoDomainSize [Prototype S] (factory : FactoryT S) (t : ScaleTransformer S)
    (size : Nat) : Except Exn Unit × ScaleTransformer S :=
  setDomainSize factory t size

/-- The constructor `ScaleTransformer(unsigned int dom)`. Returns the outcome
and the state in which the constructor ends. -/
def init [Prototype S] (factory : FactoryT S) (dom : Nat) :
    Except Exn Unit × ScaleTransformer S :=
  setDomainSize factory { name := "Scaler", domainSize := dom, codomainSize := dom, scalers := [] }
    dom

/-- The loop of `ScaleTransformer::transform` over the indices still to be
transformed: `output(i) = this->getAt(i)->transform(input(i))`. -/
def transformLoop [IScaler S R] [Zero R] (input : Vector R) :
    List Nat → Vector R → ScaleTransformer S → Except Exn (Vector R) × ScaleTransformer S
  | [], output, t => (.ok output, t)
  | i :: rest, output, t =>
    match t.getAt i with
    | .error e => (.error e, t)
    | .ok none => (.error .nullDereference, t)
    | .ok (some scaler) =>
      let r := IScaler.transform scaler (input.getD i 0)
      transformLoop input rest (output.set i r.1) { t with scalers := t.scalers.set i (some r.2) }

/-- `ScaleTransformer::transform`. Returns the output, or the failure, and the
transformer after the call. -/
def transform [IScaler S R] [Zero R] (t : ScaleTransformer S) (input : Vector R) :
    Except Exn (Vector R) × ScaleTransformer S :=
  match t.toIFixedSizeTransformer.transform input with
  | .error e => (.error e, t)
  | .ok output =>
    if input.length ≠ t.scalers.length then (.error .assertion, t)
    else if output.length ≠ t.scalers.length then (.error .assertion, t)
    else transformLoop input (List.range output.length) output t

end ScaleTransformer

namespace ScaleTransformer

variable {S R : Type} [LinearOrderedField R] [FloorRing R]

/-- Modelled from the spec: `IFixedSizeTransformer::configure`, which is not
among the sources; as in the fixed-size learner base, the options `dom` and
`cod` are integers and go to the virtual `setDomainSize` and
`setCoDomainSize`, which `ScaleTransformer` overrides. Returns the flag, or the
failure, and the transformer after the call. -/
def configureSizes [Prototype S] (factory : FactoryT S) (t : ScaleTransformer S)
    (config : Searchable R) : Except Exn Bool × ScaleTransformer S :=
  let r1 : Except Exn Bool × ScaleTransformer S :=
    if (config.find "dom").isInt then
      match t.setDomainSize factory (intToUnsigned (config.find "dom").asInt) with
      | (.ok (), t1) => (.ok true, t1)
      | (.error e, t1) => (.error e, t1)
    else (.ok false, t)
  match r1 with
  | (.error e, t1) => (.error e, t1)
  | (.ok success, t1) =>
    if (config.find "cod").isInt then
      match t1.setCoDomainSize factory (intToUnsigned (config.find "cod").asInt) with
      | (.ok (), t2) => (.ok true, t2)
      | (.error e, t2) => (.error e, t2)
    else (.ok success, t1)

/-- The loop of `configure` over the list of type names: the name at
position `i` goes to the scaler at `i`. -/
def typeListLoop [Prototype S] (factory : FactoryT S) (scaleList : Bottle R) :
    List Nat → Bool → ScaleTransformer S → Except Exn Bool × ScaleTransformer S
  | [], success, t => (.ok success, t)
  | i :: rest, success, t =>
    if (scaleList.get i).isString then
      match t.setAt factory i (scaleList.get i).asString with
      | (.ok (), t1) => typeListLoop factory scaleList rest true t1
      | (.error e, t1) => (.error e, t1)
    else typeListLoop factory scaleList rest success t

/-- The first block of `configure`: `type (name name ..)`. -/
def configureTypeList [Prototype S] (factory : FactoryT S) (config : Searchable R)
    (success : Bool) (t : ScaleTransformer S) : Except Exn Bool × ScaleTransformer S :=
  match config.find "type" with
  | .list scaleList => typeListLoop factory scaleList (List.range scaleList.size) success t
  | .value _ => (.ok success, t)

/-- The second block of `configure`: `type idx name` and `type all name`. -/
def configureTypeGroup [Prototype S] (factory : FactoryT S) (config : Searchable R)
    (success : Bool) (t : ScaleTransformer S) : Except Exn Bool × ScaleTransformer S :=
  match config.findGroup "type" with
  | none => (.ok success, t)
  | some group =>
    let list := group.tail
    if (list.get 0).isInt && (list.get 1).isString then
      match t.setAt factory ((list.get 0).asInt - 1) (list.get 1).asString with
      | (.ok (), t1) => (.ok true, t1)
      | (.error e, t1) => (.error e, t1)
    else if (list.get 0).asString = "all" && (list.get 1).isString then
      match t.setAll factory (list.get 1).asString with
      | (.ok (), t1) => (.ok true, t1)
      | (.error e, t1) => (.error e, t1)
    else (.ok success, t)

/-- The call `this->getAt(i)->configure(property)`: the flag of the scaler and
the transformer after the call. -/
def configureAt [IScaler S R] (t : ScaleTransformer S) (index : Int) (property : Bottle R) :
    Except Exn Bool × ScaleTransformer S :=
  match t.getAt index with
  | .error e => (.error e, t)
  | .ok none => (.error .nullDereference, t)
  | .ok (some scaler) =>
    let r := IScaler.configure scaler property
    (.ok r.1, { t with scalers := t.scalers.set index.toNat (some r.2) })

/-- The loop of `configure` for `config all key value`. -/
def configureAllLoop [IScaler S R] (property : Bottle R) :
    List Nat → Bool → ScaleTransformer S → Except Exn Bool × ScaleTransformer S
  | [], success, t => (.ok success, t)
  | i :: rest, success, t =>
    match t.configureAt i property with
    | (.ok flag, t1) => configureAllLoop property rest (success || flag) t1
    | (.error e, t1) => (.error e, t1)

/-- The third block of `configure`: `config idx key value` and
`config all key value`. -/
def configureConfigGroup [IScaler S R] (config : Searchable R) (success : Bool)
    (t : ScaleTransformer S) : Except Exn Bool × ScaleTransformer S :=
  match config.findGroup "config" with
  | none => (.ok success, t)
  | some group =>
    let list := group.tail
    let property := list.tail
    if (list.get 0).isInt then
      t.configureAt ((list.get 0).asInt - 1) property
    else if (list.get 0).asString = "all" then
      configureAllLoop property (List.range t.scalers.length) success t
    else (.ok success, t)

/-- `ScaleTransformer::configure`, on the registry of scalers. Returns the
flag, or the failure, and the transformer after the call. -/
def configure [IScaler S R] (factory : FactoryT S) (t : ScaleTransformer S)
    (config : Searchable R) : Except Exn Bool × ScaleTransformer S :=
  match t.configureSizes factory config with
  | (.error e, t1) => (.error e, t1)
  | (.ok s0, t1) =>
    match configureTypeList factory config s0 t1 with
    | (.error e, t2) => (.error e, t2)
    | (.ok s1, t2) =>
      match configureTypeGroup factory config s1 t2 with
      | (.error e, t3) => (.error e, t3)
      | (.ok s2, t3) => configureConfigGroup config s2 t3

/-- The loop of `ScaleTransformer::readBottle` over the slots still to be
read, the last one first. -/
def readLoop [IScaler S R] (factory : FactoryT S) :
    List Nat → ScaleTransformer S → Bottle R → Except Exn Unit × ScaleTransformer S × Bottle R
  | [], t, bot => (.ok (), t, bot)
  | i :: rest, t, bot =>
    let (type, b1) := bot.pop
    match t.setAt factory i type.asString with
    | (.error e, t1) => (.error e, t1, b1)
    | (.ok (), t1) =>
      match t1.getAt i with
      | .error e => (.error e, t1, b1)
      | .ok none => (.error .nullDereference, t1, b1)
      | .ok (some scaler) =>
        let (text, b2) := b1.pop
        readLoop factory rest
          { t1 with scalers := t1.scalers.set i (some (IScaler.fromString scaler text.asString).2) }
          b2

/-- `ScaleTransformer::readBottle`. The first step is modelled from the spec:
`IFixedSizeTransformer::readBottle`, which is not among the sources, pops the
codomain size and then the domain size into the virtual setters, as the
fixed-size learner base does. -/
def readBottle [IScaler S R] (factory : FactoryT S) (t : ScaleTransformer S) (bot : Bottle R) :
    Except Exn Unit × ScaleTransformer S × Bottle R :=
  let (cod, b1) := bot.pop
  match t.setCoDomainSize factory (intToUnsigned cod.asInt) with
  | (.error e, t1) => (.error e, t1, b1)
  | (.ok (), t1) =>
    let (dom, b2) := b1.pop
    match t1.setDomainSize factory (intToUnsigned dom.asInt) with
    | (.error e, t2) => (.error e, t2, b2)
    | (.ok (), t2) => readLoop factory (List.range t2.domainSize).reverse t2 b2

end ScaleTransformer

/-- The calls that change a `ScaleTransformer`. -/
inductive TransformerCall (R : Type) where
  /-- A call of `setDomainSize(size)`. -/
  | setDomainSize (size : Nat)
  /-- A call of `setCoDomainSize(size)`. -/
  | setCoDomainSize (size : Nat)
  /-- A call of `reset()`. -/
  | reset
  /-- A call of `setAt(index, type)`. -/
  | setAt (index : Int) (type : String)
  /-- A call of `setAll(type)`. -/
  | setAll (type : String)
  /-- A call of `configure(config)`. -/
  | configure (config : Searchable R)
  /-- A call of `readBottle(bot)`. -/
  | readBottle (bot : Bottle R)

/-- The transformer after one such call, whether the call returns or throws. -/
def ScaleTransformer.call {S R : Type} [LinearOrderedField R] [FloorRing R] [IScaler S R]
    (factory : FactoryT S) (t : ScaleTransformer S) : TransformerCall R → ScaleTransformer S
  | .setDomainSize size => (t.setDomainSize factory size).2
  | .setCoDomainSize size => (t.setCoDomainSize factory size).2
  | .reset => (t.reset factory).2
  | .setAt index type => (t.setAt factory index type).2
  | .setAll type => (t.setAll factory type).2
  | .configure config => (t.configure factory config).2
  | .readBottle bot => (t.readBottle factory bot).2.1

/-- The transformer after a sequence of such calls. -/
def ScaleTransformer.calls {S R : Type} [LinearOrderedField R] [FloorRing R] [IScaler S R]
    (factory : FactoryT S) (t : ScaleTransformer S) (cs : List (TransformerCall R)) :
    ScaleTransformer S :=
  cs.foldl (ScaleTransformer.call factory) t

/-! ## An in-memory connection and exact rational numerics

Concrete collaborators on which the definitions above can be evaluated: a
connection that records what is written on it, and the numerical routines on
rational numbers. -/

/-- What a connection carries: an integer or a bottle. -/
inductive WireItem (R : Type) where
  /-- An integer written by `appendInt`. -/
  | int (i : Int)
  /-- A bottle written by `Bottle::write`. -/
  | bottle (b : Bottle R)
  deriving DecidableEq, Repr

/-- A writer that appends every item to a list. -/
def listWriter (R : Type) : WriterOps R (List (WireItem R)) where
  appendInt := fun c i => c ++ [.int i]
  convertTextMode := fun c => c
  writeBottle := fun b c => (true, c ++ [.bottle b])

/-- A reader on a validity flag and the list of the items still to be read;
an item of the wrong kind is not consumed and reads as 0, or as an empty bottle. -/
def listReader (R : Type) : ReaderOps R (Bool × List (WireItem R)) where
  isValid := fun c => c.1
  convertTextMode := fun c => c
  expectInt := fun c =>
    match c.2 with
    | .int i :: rest => (i, (c.1, rest))
    | _ => (0, c)
  readBottle := fun c =>
    match c.2 with
    | .bottle b :: rest => (true, b, (c.1, rest))
    | _ => (false, Bottle.empty, c)

/-- Modelled from the spec: `IMachineLearner::write`, which is not among the
sources; the binary write of a machine is its `writeBottle` on a new bottle,
which is then written on the connection. -/
instance {R : Type} [LinearOrderedField R] [FloorRing R] :
    Writable (LSSVMLearner R) (List (WireItem R)) where
  write := fun L c =>
    match L.writeBottle Bottle.empty with
    | .ok model => (true, c ++ [.bottle model])
    | .error _ => (false, c)

/-- Modelled from the spec: `IMachineLearner::read`, which is not among the
sources; the binary read of a machine reads a bottle from the connection and
hands it to `readBottle`. -/
instance {R : Type} [LinearOrderedField R] [FloorRing R] :
    Readable (LSSVMLearner R) (Bool × List (WireItem R)) where
  read := fun L c =>
    match c.2 with
    | .bottle model :: rest =>
      match L.readBottle model with
      | .ok (L1, _) => (true, L1, (c.1, rest))
      | .error _ => (false, L, (c.1, rest))
    | _ => (false, L, c)

/-- The determinant of a square matrix given by its rows, by expansion along
the first row; the first argument is the number of rows. -/
def detRows {R : Type} [Ring R] : Nat → List (List R) → R
  | 0, _ => 1
  | n + 1, m =>
    (List.range (n + 1)).foldl
      (fun acc j =>
        acc + (-1) ^ j * (m.headD []).getD j 0
          * detRows n ((m.drop 1).map (fun row => row.eraseIdx j))) 0

/-- The exact inverse of a square matrix, by cofactors; this is what
`yarp::math::luinv` computes up to rounding. -/
def exactInverse {R : Type} [Field R] (M : Matrix R) : Matrix R :=
  let m := (List.range M.rows).map (fun r => M.getRow r)
  let d := detRows M.rows m
  Matrix.ofFn M.rows M.cols (fun r c =>
    (-1) ^ (r + c) * detRows (M.rows - 1) ((m.eraseIdx c).map (fun row => row.eraseIdx r)) / d)

/-- Numerics on the rationals: the exact inverse, and for the exponential
the polynomial `1 + x + x^2 / 2`, which agrees with it at 0; it serves to
evaluate learners whose stored inputs coincide, where every kernel argument
is 0. -/
def rationalNumerics : Numerics ℚ where
  exp := fun x => 1 + x + x ^ 2 / 2
  luinv := exactInverse

/-- A format on the rationals: numerator and denominator of a number, the
components of a vector separated by tabs. -/
def rationalFormat : InfoFormat ℚ where
  machineInfo := fun name => "Type: " ++ name ++ "\n"
  showDouble := fun x => toString x.num ++ "/" ++ toString x.den
  kernelInfo := fun gamma => "RBF, gamma " ++ toString gamma.num ++ "/" ++ toString gamma.den
  vectorToString := fun v =>
    String.intercalate "\t" (v.map (fun x => toString x.num ++ "/" ++ toString x.den))

/-- A learner of one input and one output with `C = 1` and `gamma = 1`, as
its constructor leaves it. -/
def lssvm : LSSVMLearner ℚ := LSSVMLearner.init 1 1 1 1

/-- The same learner under the name `RLS`. -/
def renamed : LSSVMLearner ℚ := { lssvm with name := "RLS" }

/-- The registry of machines after `registerPrototype` of `lssvm`. -/
def machines : FactoryT (LSSVMLearner ℚ) := (FactoryT.empty.registerPrototype lssvm).2

/-- The learner `lssvm` after `feedSample([0], [1])` and `feedSample([0], [3])`. -/
def fed : LSSVMLearner ℚ := ((lssvm.feedSample [0] [1]).2.feedSample [0] [3]).2

/-- The learner `fed` after `train()`, see `train_fed`. -/
def trained : LSSVMLearner ℚ :=
  { fed with alphas := ⟨2, 1, [-1, 1], rfl⟩, bias := [2], LOO := [4] }

/-- The calls of `LSSVMLearner.cpp` that change a learner, `train` and
`readBottle` apart. -/
inductive UntrainedCall (R : Type) where
  /-- A call of `feedSample(input, output)`. -/
  | feedSample (input output : Vector R)
  /-- A call of `reset()`. -/
  | reset
  /-- A call of `setDomainSize(size)`. -/
  | setDomainSize (size : Nat)
  /-- A call of `setCoDomainSize(size)`. -/
  | setCoDomainSize (size : Nat)

/-- The learner after one such call; a `feedSample` that throws leaves it as it was. -/
def LSSVMLearner.call {R : Type} (L : LSSVMLearner R) : UntrainedCall R → LSSVMLearner R
  | .feedSample input output => (L.feedSample input output).2
  | .reset => L.reset
  | .setDomainSize size => L.setDomainSize size
  | .setCoDomainSize size => L.setCoDomainSize size

/-- The learner after a sequence of such calls. -/
def LSSVMLearner.calls {R : Type} (L : LSSVMLearner R) (cs : List (UntrainedCall R)) :
    LSSVMLearner R :=
  cs.foldl LSSVMLearner.call L

/-- The bottle after the components of every vector of a list are added. -/
def addVectors {R : Type} (vs : List (Vector R)) (bot : Bottle R) : Bottle R :=
  vs.foldl (fun b v => v.foldl Bottle.addDouble b) bot

/-- The bottle that `writeBottle` leaves when every stored sample has the
configured size. -/
def written {R : Type} (L : LSSVMLearner R) (bot : Bottle R) : Bottle R :=
  L.toIFixedSizeLearner.writeBottle
    ((addVectors L.outputs
      ((addVectors L.inputs
        (writeMatrix (writeVector ((bot.addDouble L.kernel.gamma).addDouble L.C) L.bias)
          L.alphas)).addInt L.inputs.length)).addInt L.outputs.length)

/-- An example of a scaler, for evaluation: it multiplies by its gain, and its
`configure` reads the option `gain`. -/
structure GainScaler where
  /-- The name of the scaler. -/
  name : String
  /-- The factor. -/
  gain : ℚ
  deriving DecidableEq, Repr

/-- The members of `GainScaler`. -/
instance : IScaler GainScaler ℚ where
  getName := fun s => s.name
  clone := fun s => s
  transform := fun s x => (s.gain * x, s)
  configure := fun s property =>
    if (property.get 0).asString = "gain" ∧
        ((property.get 1).isDouble ∨ (property.get 1).isInt) then
      (true, { s with gain := (property.get 1).asDouble })
    else (false, s)
  fromString := fun s _ => (true, s)

/-- The pass-through scaler registered as `null`. -/
def nullScaler : GainScaler := ⟨"null", 1⟩

/-- A scaler registered as `double`, of gain 2. -/
def doubleScaler : GainScaler := ⟨"double", 2⟩

/-- The registry of scalers after `nullScaler` and `doubleScaler` are registered. -/
def scalerRegistry : FactoryT GainScaler :=
  ((FactoryT.empty.registerPrototype nullScaler).2.registerPrototype doubleScaler).2

/-- A configuration that holds nothing but the given entry under `c`. -/
def configC (c : Value ℚ) : Searchable ℚ where
  find := fun key => if key = "c" then .value c else .value .null
  findGroup := fun _ => none

/-- A configuration that holds nothing but the given group. -/
def configGroup (key : String) (group : Bottle ℚ) : Searchable ℚ where
  find := fun _ => .value .null
  findGroup := fun k => if k = key then some group else none

/-- Modelled from the spec: `RBFKernel::configure`, which is not among the
sources; the kernel takes its parameter from the numeric option `gamma`. -/
def gammaConfigure (kernel : RBFKernel ℚ) (config : Searchable ℚ) : Bool × RBFKernel ℚ :=
  if (config.find "gamma").isDouble || (config.find "gamma").isInt then
    (true, ⟨(config.find "gamma").asDouble⟩)
  else (false, kernel)

/-- The learner `lssvm` with the LOO of `trained`: the state in which
`trained.readBottle` ends on the bottle written by `lssvm`, see `readBottle_stale`. -/
def stale : LSSVMLearner ℚ := { lssvm with LOO := [4] }

/-- The part of a learner that `train` reads: the samples, C, the kernel and
the codomain size, in a learner that holds nothing else. -/
def trainingData {R : Type} (L : LSSVMLearner R) : LSSVMLearner R :=
  { name := "", domainSize := 0, codomainSize := L.codomainSize, inputs := L.inputs,
    outputs := L.outputs, alphas := Matrix.empty, bias := [], LOO := [], C := L.C,
    kernel := L.kernel }

/-- The value `kernel(x, y)` of the kernel on two vectors of one size; 0 when
`evaluate` fails its assertion. -/
def RBFKernel.value {R : Type} [Ring R] (kernel : RBFKernel R) (exp : R → R)
    (x y : Vector R) : R :=
  match kernel.evaluate exp x y with
  | .ok v => v
  | .error _ => 0

/-- The matrix `K` in the words of the specification, for `n` stored inputs
`x_0 .. x_(n-1)`: `K[i][j] = kernel(x_i, x_j)` for `i, j < n` and `i ≠ j`,
`K[i][i] = kernel(x_i, x_i) + 1/C` for `i < n`, `K[i][n] = K[n][i] = 1` for
`i < n`, and `K[n][n] = 0`. -/
def augmentedKernel {R : Type} [Field R] (nm : Numerics R) (L : LSSVMLearner R) : Matrix R :=
  Matrix.ofFn (L.inputs.length + 1) (L.inputs.length + 1) (fun i j =>
    if i < L.inputs.length ∧ j < L.inputs.length then
      if i = j then L.kernel.value nm.exp (L.inputs.getD i []) (L.inputs.getD i []) + 1 / L.C
      else L.kernel.value nm.exp (L.inputs.getD i []) (L.inputs.getD j [])
    else if i = L.inputs.length ∧ j = L.inputs.length then 0
    else 1)

/-- The matrix `Y'` in the words of the specification: the stored outputs row
by row over one row of zeros. -/
def stackedOutputs {R : Type} [Zero R] (L : LSSVMLearner R) : Matrix R :=
  Matrix.ofFn (L.outputs.length + 1) L.codomainSize (fun r c =>
    if r < L.outputs.length then (L.outputs.getD r []).getD c 0 else 0)

/-- The transformer of three scalers, as its constructor leaves it on
`scalerRegistry`. -/
def threeScalers : ScaleTransformer GainScaler := (ScaleTransformer.init scalerRegistry 3).2

/-- The configuration that holds the group `config 1 gain 2.5`. -/
def gainConfig : Searchable ℚ :=
  configGroup "config" ⟨[.double (5 / 2), .string "gain", .int 1, .string "config"]⟩

/-- The transformer `threeScalers` after `configure(gainConfig)`. -/
def configured : ScaleTransformer GainScaler :=
  (threeScalers.configure scalerRegistry gainConfig).2

/-- The second transformer has the sizes, the name and the number of slots of
the first. -/
def ScaleTransformer.SameShape {S : Type} (t t1 : ScaleTransformer S) : Prop :=
  t1.scalers.length = t.scalers.length ∧ t1.toIFixedSizeTransformer = t.toIFixedSizeTransformer

/-- The sizes of the transformer agree with each other and with the number of
its slots. -/
def ScaleTransformer.Sized {S : Type} (t : ScaleTransformer S) : Prop :=
  t.scalers.length = t.domainSize ∧ t.domainSize = t.codomainSize

/-- The identity matrix of `n` rows. -/
def Matrix.identity {R : Type} [Zero R] [One R] (n : Nat) : Matrix R :=
  Matrix.ofFn n n (fun r c => if r = c then 1 else 0)

/-- The configuration that holds the group `config 0 gain 2.5`. -/
def zeroIndexConfig : Searchable ℚ :=
  configGroup "config" ⟨[.double (5 / 2), .string "gain", .int 0, .string "config"]⟩

/-- The configuration that holds the group `type 4 double`, read as a group
and as the value under the key `type`. -/
def typeFourConfig : Searchable ℚ where
  find := fun key => if key = "type" then .value (.int 4) else .value .null
  findGroup := fun key =>
    if key = "type" then some ⟨[.string "double", .int 4, .string "type"]⟩ else none

/-- The learner `lssvm` after `feedSample([0], [1])`: one stored sample. -/
def single : LSSVMLearner ℚ := (lssvm.feedSample [0] [1]).2

/-- The learner `single` after `setDomainSize(2)`. -/
def resized : LSSVMLearner ℚ := single.setDomainSize 2

/-- The learner `single` after `setCoDomainSize(2)`. -/
def widened : LSSVMLearner ℚ := single.setCoDomainSize 2

/-- The configuration that holds the group `type 1 log`, read as a group and
as the value under the key `type`; no scaler is registered as `log`. -/
def typeLogConfig : Searchable ℚ where
  find := fun key => if key = "type" then .value (.int 1) else .value .null
  findGroup := fun key =>
    if key = "type" then some ⟨[.string "log", .int 1, .string "type"]⟩ else none

/-- The sizes that a call hands to `setDomainSize` and `setCoDomainSize` are
sizes that an `int` holds: they are below 2^31 = 2147483648. -/
def TransformerCall.InRange {R : Type} [LinearOrderedField R] [FloorRing R] :
    TransformerCall R → Prop
  | .setDomainSize size => size < 2147483648
  | .setCoDomainSize size => size < 2147483648
  | .configure config =>
    ((config.find "dom").isInt = true → intToUnsigned (config.find "dom").asInt < 2147483648) ∧
    ((config.find "cod").isInt = true → intToUnsigned (config.find "cod").asInt < 2147483648)
  | .readBottle bot =>
    intToUnsigned bot.pop.1.asInt < 2147483648 ∧
    intToUnsigned bot.pop.2.pop.1.asInt < 2147483648
  | _ => True

/-- The sizes of the transformer agree with each other and with the number of
its slots, and are below 2^31 = 2147483648. -/
def ScaleTransformer.Fit {S : Type} (t : ScaleTransformer S) : Prop :=
  t.Sized ∧ t.domainSize < 2147483648

/-- The configuration that holds nothing but the integer `-1` under `dom`. -/
def negativeDomConfig : Searchable ℚ where
  find := fun key => if key = "dom" then .value (.int (-1)) else .value .null
  findGroup := fun _ => none

/-! ## The registry: lookups after an assignment -/

section Registry

variable {T : Type}

theorem FactoryT.find_assign_self (f : FactoryT T) (key : String) (value : T) :
    (f.assign key value).find key = some value := by
  simp [FactoryT.assign, FactoryT.find, List.lookup]

theorem FactoryT.lookup_filter_ne (m : List (String × T)) (key k : String) (h : key ≠ k) :
    (m.filter (fun e => e.1 != k)).lookup key = m.lookup key := by
  induction m with
  | nil => rfl
  | cons e m ih =>
    obtain ⟨k1, v1⟩ := e
    by_cases h1 : k1 = k
    · subst h1
      have : (key == k1) = false := by simpa using h
      simp [List.filter, List.lookup, this, ih]
    · have : (k1 != k) = true := by simpa using h1
      simp only [List.filter, this, List.lookup]
      cases hk : (key == k1) <;> simp [ih]

theorem FactoryT.find_assign_other (f : FactoryT T) (key k : String) (value : T)
    (h : key ≠ k) : (f.assign k value).find key = f.find key := by
  have hk : (key == k) = false := by simpa using h
  simp [FactoryT.assign, FactoryT.find, List.lookup, hk, FactoryT.lookup_filter_ne _ _ _ h]

theorem FactoryT.count_pos_iff (f : FactoryT T) (key : String) :
    0 < f.count key ↔ ∃ p, f.find key = some p := by
  unfold FactoryT.count
  cases h : f.find key <;> simp

theorem FactoryT.count_eq_zero_iff (f : FactoryT T) (key : String) :
    f.count key = 0 ↔ f.find key = none := by
  unfold FactoryT.count
  cases h : f.find key <;> simp

theorem FactoryT.create_of_find_none [Prototype T] (f : FactoryT T) (key : String)
    (h : f.find key = none) : f.create key = (.error (.unknownKey key), f) := by
  simp [FactoryT.create, (FactoryT.count_eq_zero_iff f key).2 h]

theorem FactoryT.create_of_find_some [Prototype T] (f : FactoryT T) (key : String) (p : T)
    (h : f.find key = some p) : f.create key = (.ok (Prototype.clone p), f) := by
  have hc : f.count key ≠ 0 := by
    rw [Ne, FactoryT.count_eq_zero_iff, h]; simp
  simp [FactoryT.create, hc, h]

end Registry

/-- C1: `registerPrototype(p)` fails exactly when the name of `p` is empty or
an entry of that name is present, and a failed call leaves the registry as it
was; otherwise it succeeds, the registry then maps the name of `p` to `p` and
every other key as before. For distinct non-empty names `a` and `b`,
registering `a` and then `b` into the empty registry succeeds, and registering
`a` once more fails with the duplicate-key error, before and after `b`. -/
theorem registerPrototype_contract {T : Type} [Prototype T] (f : FactoryT T) (p : T) :
    ((∃ e, (f.registerPrototype p).1 = .error e) ↔
        (Prototype.getName p = "" ∨ 0 < f.count (Prototype.getName p))) ∧
    ((∃ e, (f.registerPrototype p).1 = .error e) → (f.registerPrototype p).2 = f) ∧
    (¬ (Prototype.getName p = "" ∨ 0 < f.count (Prototype.getName p)) →
        (f.registerPrototype p).1 = .ok () ∧
        (f.registerPrototype p).2.find (Prototype.getName p) = some p ∧
        ∀ key, key ≠ Prototype.getName p →
          (f.registerPrototype p).2.find key = f.find key) ∧
    (∀ a b : T, Prototype.getName a ≠ "" → Prototype.getName b ≠ "" →
        Prototype.getName a ≠ Prototype.getName b →
        (FactoryT.empty.registerPrototype a).1 = .ok () ∧
        ((FactoryT.empty.registerPrototype a).2.registerPrototype b).1 = .ok () ∧
        ((FactoryT.empty.registerPrototype a).2.registerPrototype a).1
            = .error (.duplicateKey (Prototype.getName a)) ∧
        (((FactoryT.empty.registerPrototype a).2.registerPrototype b).2.registerPrototype a).1
            = .error (.duplicateKey (Prototype.getName a))) := by
  refine ⟨?_, ?_, ?_, ?_⟩
  · unfold FactoryT.registerPrototype
    by_cases h1 : Prototype.getName p = ""
    · simp [h1]
    · by_cases h2 : 0 < f.count (Prototype.getName p)
      · simp [h1, h2]
      · simp [h1, h2]
  · unfold FactoryT.registerPrototype
    by_cases h1 : Prototype.getName p = ""
    · simp [h1]
    · by_cases h2 : 0 < f.count (Prototype.getName p)
      · simp [h1, h2]
      · simp [h1, h2]
  · intro h
    have h1 : ¬ Prototype.getName p = "" := fun h1 => h (Or.inl h1)
    have h2 : ¬ 0 < f.count (Prototype.getName p) := fun h2 => h (Or.inr h2)
    have hr : f.registerPrototype p = (.ok (), f.assign (Prototype.getName p) p) := by
      unfold FactoryT.registerPrototype
      simp only [h1, h2, gt_iff_lt, if_false]
    rw [hr]
    exact ⟨rfl, FactoryT.find_assign_self _ _ _,
      fun key hk => FactoryT.find_assign_other _ _ _ _ hk⟩
  · intro a b ha hb hab
    have r1 : (FactoryT.empty : FactoryT T).registerPrototype a
        = (.ok (), FactoryT.empty.assign (Prototype.getName a) a) := by
      simp [FactoryT.registerPrototype, ha, FactoryT.count, FactoryT.find, FactoryT.empty]
    have cb : (FactoryT.empty.assign (Prototype.getName a) a : FactoryT T).count
        (Prototype.getName b) = 0 := by
      rw [FactoryT.count_eq_zero_iff, FactoryT.find_assign_other _ _ _ _ (Ne.symm hab)]
      rfl
    have ca : 0 < (FactoryT.empty.assign (Prototype.getName a) a : FactoryT T).count
        (Prototype.getName a) := by
      rw [FactoryT.count_pos_iff]
      exact ⟨a, FactoryT.find_assign_self _ _ _⟩
    have r2 : (FactoryT.empty.assign (Prototype.getName a) a : FactoryT T).registerPrototype b
        = (.ok (), (FactoryT.empty.assign (Prototype.getName a) a).assign
            (Prototype.getName b) b) := by
      simp [FactoryT.registerPrototype, hb, cb]
    have ca2 : 0 < ((FactoryT.empty.assign (Prototype.getName a) a).assign
        (Prototype.getName b) b : FactoryT T).count (Prototype.getName a) := by
      rw [FactoryT.count_pos_iff, FactoryT.find_assign_other _ _ _ _ hab]
      exact ⟨a, FactoryT.find_assign_self _ _ _⟩
    rw [r1]
    refine ⟨rfl, ?_, ?_, ?_⟩
    · rw [r2]
    · simp [FactoryT.registerPrototype, ha, ca]
    · rw [r2]
      simp [FactoryT.registerPrototype, ha, ca2]

/-- Witness of C1: `lssvm` and then `renamed` register into the empty registry,
and `lssvm` is refused afterwards. -/
theorem registerPrototype_contract_witness :
    (FactoryT.empty.registerPrototype lssvm).1 = .ok () ∧
    ((FactoryT.empty.registerPrototype lssvm).2.registerPrototype renamed).1 = .ok () ∧
    ((FactoryT.empty.registerPrototype lssvm).2.registerPrototype lssvm).1
        = .error (.duplicateKey "LSSVM") ∧
    (((FactoryT.empty.registerPrototype lssvm).2.registerPrototype renamed).2.registerPrototype
        lssvm).1 = .error (.duplicateKey "LSSVM") :=
  (registerPrototype_contract FactoryT.empty lssvm).2.2.2 lssvm renamed
    (by decide) (by decide) (by decide)

/-- C2: `create(key)` fails, with the unknown-key error, exactly when no entry
is registered under the key; otherwise it returns the clone of the prototype
stored under the key. The registry after the call is the registry before it,
so whatever function changes the first returned instance, a second
`create(key)` returns the instance that the first call returned. -/
theorem create_contract {T : Type} [Prototype T] (f : FactoryT T) (key : String) :
    ((∃ e, (f.create key).1 = .error e) ↔ f.count key = 0) ∧
    (f.count key = 0 → (f.create key).1 = .error (.unknownKey key)) ∧
    (∀ p, f.find key = some p → (f.create key).1 = .ok (Prototype.clone p)) ∧
    (f.create key).2 = f ∧
    (∀ (mutate : T → T) (x : T), (f.create key).1 = .ok x →
      ((f.create key).1.map mutate, ((f.create key).2.create key).1)
        = (.ok (mutate x), .ok x)) := by
  cases h : f.find key with
  | none =>
    have hc := (FactoryT.count_eq_zero_iff f key).2 h
    rw [FactoryT.create_of_find_none f key h]
    refine ⟨?_, ?_, ?_, rfl, ?_⟩
    · simp [hc]
    · intro _; rfl
    · intro p hp; exact absurd hp (by simp)
    · intro _ x hx; exact absurd hx (by simp)
  | some p =>
    have hc : f.count key ≠ 0 := by
      rw [Ne, FactoryT.count_eq_zero_iff, h]; simp
    rw [FactoryT.create_of_find_some f key p h]
    refine ⟨?_, ?_, ?_, rfl, ?_⟩
    · simp [hc]
    · intro h0; exact absurd h0 hc
    · intro q hq
      cases hq
      rfl
    · intro mutate x hx
      simp only [Except.ok.injEq] at hx
      subst hx
      rw [FactoryT.create_of_find_some f key p h]
      rfl

/-- Witness of C2: the instance created under `LSSVM` is reset and resized by
its owner; a second `create` still returns the registered learner. -/
theorem create_contract_witness :
    ((machines.create "LSSVM").1.map (fun L => L.reset.setDomainSize 7),
      ((machines.create "LSSVM").2.create "LSSVM").1)
      = (.ok (lssvm.reset.setDomainSize 7), .ok lssvm) :=
  (create_contract machines "LSSVM").2.2.2.2 (fun L => L.reset.setDomainSize 7) lssvm (by rfl)

/-! ## The wire wrapper -/

/-- C3: `PortableT::write` on an empty wrapper returns false and leaves the
connection as it was; on a wrapper that holds an instance it returns true, and
the connection is the one obtained by appending the list tag, then the integer
2, then the bottle that holds the name of the instance as its one string, and
then by the `write` of the instance itself (text mode is converted last). -/
theorem write_contract {T R W : Type} (ops : WriterOps R W) [Prototype T] [Writable T W]
    (p : PortableT T) (connection : W) :
    (p.wrapped = none → p.write ops connection = (false, connection)) ∧
    (∀ w, p.wrapped = some w →
      p.write ops connection =
        (true, ops.convertTextMode
          (Writable.write w
            (ops.writeBottle (Bottle.empty.addString (Prototype.getName w))
              (ops.appendInt (ops.appendInt connection BOTTLE_TAG_LIST) 2)).2).2)) := by
  constructor
  · intro h
    simp [PortableT.write, h]
  · intro w h
    simp [PortableT.write, h]

/-- Witness of C3 on the recording connection: after the item 7 come the tag
256, the 2, the bottle of the name and the bottle of the learner; the empty
wrapper appends nothing. -/
theorem write_contract_witness :
    PortableT.write (listWriter ℚ) (⟨some lssvm⟩ : PortableT (LSSVMLearner ℚ)) [.int 7]
      = (true, [.int 7, .int 256, .int 2, .bottle ⟨[.string "LSSVM"]⟩,
          .bottle ⟨[.int 1, .int 1, .int 0, .int 0, .int 0, .int 0, .int 0,
                    .double 1, .double 1]⟩]) ∧
    PortableT.write (listWriter ℚ) (⟨none⟩ : PortableT (LSSVMLearner ℚ)) [.int 7]
      = (false, [.int 7]) :=
  ⟨((write_contract (listWriter ℚ) (⟨some lssvm⟩ : PortableT (LSSVMLearner ℚ)) [.int 7]).2 lssvm
      rfl).trans (by rfl),
   (write_contract (listWriter ℚ) (⟨none⟩ : PortableT (LSSVMLearner ℚ)) [.int 7]).1 rfl⟩

/-- C4: `PortableT::read` returns false when the connection is not valid, and
returns false when the two header integers are not the list tag and 2. In
both cases the wrapper after the call is the wrapper before it, and the
outcome is the same for every registry: no name is looked up. -/
theorem read_rejects {T R C : Type} [LinearOrderedField R] [FloorRing R] (ops : ReaderOps R C)
    [Prototype T] [Readable T C] (p : PortableT T) (connection : C) :
    (ops.isValid connection = false →
      ∀ factory : FactoryT T, p.read ops factory connection = (.ok false, p, connection)) ∧
    (ops.isValid connection = true →
      ((ops.expectInt (ops.convertTextMode connection)).1 ≠ BOTTLE_TAG_LIST ∨
        (ops.expectInt (ops.expectInt (ops.convertTextMode connection)).2).1 ≠ 2) →
      ∀ factory : FactoryT T, p.read ops factory connection =
        (.ok false, p, (ops.expectInt (ops.expectInt (ops.convertTextMode connection)).2).2)) := by
  constructor
  · intro h factory
    simp [PortableT.read, h]
  · intro h hh factory
    simp only [PortableT.read, h]
    simp [hh]

/-- Witness of C4: an invalid connection, and a valid one whose second header
integer is 3, on a wrapper that holds `lssvm`. -/
theorem read_rejects_witness :
    (∀ factory : FactoryT (LSSVMLearner ℚ),
      PortableT.read (listReader ℚ) factory ⟨some lssvm⟩
        (false, [.int 256, .int 2, .bottle ⟨[.string "LSSVM"]⟩])
      = (.ok false, ⟨some lssvm⟩, (false, [.int 256, .int 2, .bottle ⟨[.string "LSSVM"]⟩]))) ∧
    (∀ factory : FactoryT (LSSVMLearner ℚ),
      PortableT.read (listReader ℚ) factory ⟨some lssvm⟩
        (true, [.int 256, .int 3, .bottle ⟨[.string "LSSVM"]⟩])
      = (.ok false, ⟨some lssvm⟩, (true, [.bottle ⟨[.string "LSSVM"]⟩]))) :=
  ⟨(read_rejects (listReader ℚ) ⟨some lssvm⟩
      (false, [.int 256, .int 2, .bottle ⟨[.string "LSSVM"]⟩])).1 rfl,
   (read_rejects (listReader ℚ) ⟨some lssvm⟩
      (true, [.int 256, .int 3, .bottle ⟨[.string "LSSVM"]⟩])).2 rfl (Or.inr (by decide))⟩

/-- C5, the code on a name that is not registered: on a valid connection
with the header (list tag, 2), when the name read from the connection is the
key of no registered prototype, `PortableT::read` does not return false: the
unknown-key error that `FactoryT::create` throws inside `setWrapped(name)`
leaves the call before the null test is reached, after the wrapped instance
was released and the name bottle was read. -/
theorem read_unknown_name {T R C : Type} [LinearOrderedField R] [FloorRing R]
    (ops : ReaderOps R C) [Prototype T] [Readable T C] (factory : FactoryT T)
    (p : PortableT T) (connection : C)
    (hvalid : ops.isValid connection = true)
    (hheader : (ops.expectInt (ops.convertTextMode connection)).1 = BOTTLE_TAG_LIST)
    (hlen : (ops.expectInt (ops.expectInt (ops.convertTextMode connection)).2).1 = 2)
    (hname : factory.count (((ops.readBottle
      (ops.expectInt (ops.expectInt (ops.convertTextMode connection)).2).2).2.1.get 0).asString)
        = 0) :
    p.read ops factory connection =
      (.error (.unknownKey (((ops.readBottle
          (ops.expectInt (ops.expectInt (ops.convertTextMode connection)).2).2).2.1.get 0).asString)),
        ⟨none⟩,
        (ops.readBottle (ops.expectInt (ops.expectInt (ops.convertTextMode connection)).2).2).2.2) := by
  have hw : p.wipeWrapped true = ⟨none⟩ := by
    unfold PortableT.wipeWrapped PortableT.hasWrapped
    cases h : p.wrapped with
    | none => cases p; simp_all
    | some w => simp
  simp only [PortableT.read, hvalid, hheader, hlen, PortableT.setWrappedName]
  rw [FactoryT.create_of_find_none factory _ ((FactoryT.count_eq_zero_iff _ _).1 hname)]
  simp [hw]

/-- Witness of C5: with `lssvm` registered, reading the frame of a machine
named `RLS` into a wrapper that holds `lssvm` ends in the unknown-key error,
not in false, and the wrapper is empty afterwards. -/
theorem read_unknown_name_witness :
    PortableT.read (listReader ℚ) machines ⟨some lssvm⟩
        (true, [.int 256, .int 2, .bottle ⟨[.string "RLS"]⟩])
      = (.error (.unknownKey "RLS"), ⟨none⟩, (true, [])) :=
  read_unknown_name (listReader ℚ) machines ⟨some lssvm⟩
    (true, [.int 256, .int 2, .bottle ⟨[.string "RLS"]⟩]) rfl rfl rfl rfl

/-! ## The conversions between `int` and `unsigned int` -/

/-- An unsigned size converted to `int` and back is the size. -/
theorem intToUnsigned_unsignedToInt (n : Nat) : intToUnsigned (unsignedToInt n) = n := by
  unfold intToUnsigned unsignedToInt
  split <;> split <;> omega

/-- A size below 2^31 is its own `int`. -/
theorem unsignedToInt_of_lt (n : Nat) (h : n < 2147483648) : unsignedToInt n = (n : Int) := by
  unfold unsignedToInt
  rw [if_neg (by omega)]

/-- A size from 2^31 on, below 2^32, is a negative `int`. -/
theorem unsignedToInt_of_ge (n : Nat) (h1 : 2147483648 ≤ n) (h2 : n < 4294967296) :
    unsignedToInt n = (n : Int) - 4294967296 := by
  unfold unsignedToInt
  rw [if_pos ⟨h1, h2⟩]

/-! ## The bottle round trip -/

section RoundTrip

variable {R : Type} [LinearOrderedField R] [FloorRing R]

omit [LinearOrderedField R] [FloorRing R] in
theorem Bottle.pop_addDouble (bot : Bottle R) (x : R) : (bot.addDouble x).pop = (.double x, bot) := rfl

omit [LinearOrderedField R] [FloorRing R] in
theorem Bottle.pop_addInt (bot : Bottle R) (i : Int) : (bot.addInt i).pop = (.int i, bot) := rfl

omit [FloorRing R] in
theorem popDoubles_foldl_addDouble (v : Vector R) (bot : Bottle R) :
    popDoubles v.length (v.foldl Bottle.addDouble bot) = (v, bot) := by
  induction v using List.reverseRecOn with
  | nil => rfl
  | append_singleton v x ih =>
    simp only [List.length_append, List.length_singleton, List.foldl_append, List.foldl_cons,
      List.foldl_nil, popDoubles, Bottle.pop_addDouble, ih, Value.asDouble]

omit [LinearOrderedField R] [FloorRing R] in
theorem writeComponents_take (v : Vector R) (bot : Bottle R) (k : Nat) (hk : k ≤ v.length) :
    writeComponents k v bot = .ok ((v.take k).foldl Bottle.addDouble bot) := by
  induction k with
  | zero => rfl
  | succ k ih =>
    have hlt : k < v.length := hk
    unfold writeComponents at ih ⊢
    rw [List.range_succ, List.foldlM_append, ih (Nat.le_of_lt hlt)]
    have ht : v.take (k + 1) = v.take k ++ [v[k]] := by
      rw [List.take_succ, List.getElem?_eq_getElem hlt]; rfl
    simp only [List.foldlM_cons, List.foldlM_nil, List.getElem?_eq_getElem hlt]
    rw [ht, List.foldl_append]
    rfl

omit [LinearOrderedField R] [FloorRing R] in
theorem writeComponents_eq (v : Vector R) (bot : Bottle R) :
    writeComponents v.length v bot = .ok (v.foldl Bottle.addDouble bot) := by
  rw [writeComponents_take v bot v.length (Nat.le_refl _), List.take_length]

omit [LinearOrderedField R] [FloorRing R] in
theorem writeVectors_eq (size : Nat) (vs : List (Vector R)) (bot : Bottle R)
    (h : ∀ v ∈ vs, v.length = size) :
    writeVectors size vs bot = .ok (addVectors vs bot) := by
  induction vs generalizing bot with
  | nil => rfl
  | cons v vs ih =>
    have hv : v.length = size := h v (List.mem_cons_self _ _)
    unfold writeVectors at ih ⊢
    rw [List.foldlM_cons, ← hv, writeComponents_eq]
    simp only [hv]
    have := ih (v.foldl Bottle.addDouble bot) (fun w hw => h w (List.mem_cons_of_mem _ hw))
    simpa [addVectors, bind, Except.bind] using this

omit [FloorRing R] in
theorem popVectors_addVectors (size : Nat) (vs : List (Vector R)) (bot : Bottle R)
    (h : ∀ v ∈ vs, v.length = size) :
    popVectors vs.length size (addVectors vs bot) = (vs, bot) := by
  induction vs using List.reverseRecOn generalizing bot with
  | nil => rfl
  | append_singleton vs v ih =>
    have hv : v.length = size := h v (by simp)
    have hvs : ∀ w ∈ vs, w.length = size := fun w hw => h w (by simp [hw])
    simp only [addVectors, List.length_append, List.length_singleton, List.foldl_append,
      List.foldl_cons, List.foldl_nil, popVectors]
    rw [← hv, popDoubles_foldl_addDouble]
    have := ih bot hvs
    simp only [addVectors] at this
    rw [hv, this]

theorem readVector_writeVector (v : Vector R) (bot : Bottle R) :
    readVector (writeVector bot v) = .ok (v, bot) := by
  simp [readVector, writeVector, Bottle.pop_addInt, Value.asInt, popDoubles_foldl_addDouble]

theorem readMatrix_writeMatrix (M : Matrix R) (bot : Bottle R) :
    readMatrix (writeMatrix bot M) = .ok (M, bot) := by
  obtain ⟨rows, cols, data, h⟩ := M
  have hp : popDoubles (rows * cols) (data.foldl Bottle.addDouble bot) = (data, bot) := by
    rw [← h, popDoubles_foldl_addDouble]
  simp [readMatrix, writeMatrix, Bottle.pop_addInt, Value.asInt, hp]

omit [LinearOrderedField R] [FloorRing R] in
theorem writeBottle_eq (L : LSSVMLearner R) (bot : Bottle R)
    (hin : ∀ v ∈ L.inputs, v.length = L.domainSize)
    (hout : ∀ v ∈ L.outputs, v.length = L.codomainSize) :
    L.writeBottle bot = .ok (written L bot) := by
  simp only [LSSVMLearner.writeBottle, writeVectors_eq _ _ _ hin, writeVectors_eq _ _ _ hout,
    bind, Except.bind, written]

theorem readBottle_written (L M : LSSVMLearner R) (bot : Bottle R)
    (hin : ∀ v ∈ L.inputs, v.length = L.domainSize)
    (hout : ∀ v ∈ L.outputs, v.length = L.codomainSize) :
    M.readBottle (written L bot) = .ok ({ L with name := M.name, LOO := M.LOO }, bot) := by
  simp only [LSSVMLearner.readBottle, written, IFixedSizeLearner.readBottle,
    IFixedSizeLearner.writeBottle, Bottle.pop_addInt, Value.asInt,
    IFixedSizeLearner.setCoDomainSize, IFixedSizeLearner.setDomainSize, Int.toNat_ofNat,
    intToUnsigned_unsignedToInt,
    popVectors_addVectors _ _ _ hout, popVectors_addVectors _ _ _ hin,
    readMatrix_writeMatrix, readVector_writeVector, Bottle.pop_addDouble, Value.asDouble,
    bind, Except.bind]
  rw [if_neg (by omega), if_neg (by omega)]

end RoundTrip

/-! ## The learner -/

section Learner

variable {R : Type} [LinearOrderedField R] [FloorRing R]

/-- C6: when every stored input of `L` has length `domainSize` and every
stored output has length `codomainSize`, `L.writeBottle` succeeds on any
bottle, and `readBottle` of any learner `M` on the bottle so obtained succeeds,
leaves the bottle as it was before the write, and gives `M` the sizes, inputs,
outputs, alphas, bias, C and gamma of `L`; so the learner read predicts as `L`
does on every input. -/
theorem writeBottle_readBottle_roundtrip (L M : LSSVMLearner R) (bot : Bottle R)
    (hin : ∀ v ∈ L.inputs, v.length = L.domainSize)
    (hout : ∀ v ∈ L.outputs, v.length = L.codomainSize) :
    ∃ (b : Bottle R) (M1 : LSSVMLearner R),
      L.writeBottle bot = .ok b ∧ M.readBottle b = .ok (M1, bot) ∧
      M1.domainSize = L.domainSize ∧ M1.codomainSize = L.codomainSize ∧
      M1.inputs = L.inputs ∧ M1.outputs = L.outputs ∧
      M1.alphas = L.alphas ∧ M1.bias = L.bias ∧
      M1.C = L.C ∧ M1.kernel.gamma = L.kernel.gamma ∧
      ∀ (nm : Numerics R) (x : Vector R), M1.predict nm x = L.predict nm x :=
  ⟨written L bot, { L with name := M.name, LOO := M.LOO },
    writeBottle_eq L bot hin hout, readBottle_written L M bot hin hout,
    rfl, rfl, rfl, rfl, rfl, rfl, rfl, rfl, fun _ _ => rfl⟩

/-- Witness of C6: the trained learner is written on a bottle that holds the
integer 9 and read into the learner `lssvm`. -/
theorem writeBottle_readBottle_roundtrip_witness :
    ∃ (b : Bottle ℚ) (M1 : LSSVMLearner ℚ),
      trained.writeBottle ⟨[.int 9]⟩ = .ok b ∧ lssvm.readBottle b = .ok (M1, ⟨[.int 9]⟩) ∧
      M1.domainSize = trained.domainSize ∧ M1.codomainSize = trained.codomainSize ∧
      M1.inputs = trained.inputs ∧ M1.outputs = trained.outputs ∧
      M1.alphas = trained.alphas ∧ M1.bias = trained.bias ∧
      M1.C = trained.C ∧ M1.kernel.gamma = trained.kernel.gamma ∧
      ∀ (nm : Numerics ℚ) (x : Vector ℚ), M1.predict nm x = trained.predict nm x :=
  writeBottle_readBottle_roundtrip trained lssvm ⟨[.int 9]⟩ (by decide) (by decide)

omit [LinearOrderedField R] [FloorRing R] in
/-- C8: `feedSample(input, output)` fails exactly when the size of the input
differs from `domainSize` or the size of the output differs from
`codomainSize`, and a failed call leaves the learner as it was; a successful
call appends the input to the end of `inputs` and the output to the end of
`outputs` and leaves alphas, bias, LOO, C, the kernel and both sizes as they
were. -/
theorem feedSample_contract (L : LSSVMLearner R) (input output : Vector R) :
    ((∃ e, (L.feedSample input output).1 = .error e) ↔
      (input.length ≠ L.domainSize ∨ output.length ≠ L.codomainSize)) ∧
    ((∃ e, (L.feedSample input output).1 = .error e) → (L.feedSample input output).2 = L) ∧
    (input.length = L.domainSize → output.length = L.codomainSize →
      (L.feedSample input output).1 = .ok () ∧
      (L.feedSample input output).2.inputs = L.inputs ++ [input] ∧
      (L.feedSample input output).2.outputs = L.outputs ++ [output] ∧
      (L.feedSample input output).2.alphas = L.alphas ∧
      (L.feedSample input output).2.bias = L.bias ∧
      (L.feedSample input output).2.LOO = L.LOO ∧
      (L.feedSample input output).2.C = L.C ∧
      (L.feedSample input output).2.kernel = L.kernel ∧
      (L.feedSample input output).2.domainSize = L.domainSize ∧
      (L.feedSample input output).2.codomainSize = L.codomainSize) := by
  unfold LSSVMLearner.feedSample IFixedSizeLearner.feedSample
    IFixedSizeLearner.validateDomainSizes IFixedSizeLearner.checkDomainSize
    IFixedSizeLearner.checkCoDomainSize
  by_cases h1 : input.length = L.domainSize
  · by_cases h2 : output.length = L.codomainSize
    · simp [h1, h2]
    · simp [h1, h2]
  · simp [h1]

set_option maxRecDepth 100000 in
/-- The evaluation of `train` on `fed`. -/
theorem train_fed : LSSVMLearner.train rationalNumerics fed = .ok trained := by
  with_unfolding_all rfl

/-- Witness of C8: a sample of the configured sizes is fed to `lssvm`. -/
theorem feedSample_contract_witness :
    (lssvm.feedSample [0] [1]).1 = .ok () ∧
    (lssvm.feedSample [0] [1]).2.inputs = lssvm.inputs ++ [[0]] ∧
    (lssvm.feedSample [0] [1]).2.outputs = lssvm.outputs ++ [[1]] ∧
    (lssvm.feedSample [0] [1]).2.alphas = lssvm.alphas ∧
    (lssvm.feedSample [0] [1]).2.bias = lssvm.bias ∧
    (lssvm.feedSample [0] [1]).2.LOO = lssvm.LOO ∧
    (lssvm.feedSample [0] [1]).2.C = lssvm.C ∧
    (lssvm.feedSample [0] [1]).2.kernel = lssvm.kernel ∧
    (lssvm.feedSample [0] [1]).2.domainSize = lssvm.domainSize ∧
    (lssvm.feedSample [0] [1]).2.codomainSize = lssvm.codomainSize :=
  (feedSample_contract lssvm [0] [1]).2.2 rfl rfl

/-- Counterexample to C7: `fed` is trained, written and read into the
never-trained `lssvm`; the learner read has an empty LOO, and its `getInfo`
text ends in an empty LOO line where that of the trained learner shows 4. -/
theorem getInfo_roundtrip_counterexample :
    LSSVMLearner.train rationalNumerics fed = .ok trained ∧
    trained.writeBottle Bottle.empty = .ok (written trained Bottle.empty) ∧
    lssvm.readBottle (written trained Bottle.empty)
      = .ok ({ trained with LOO := [] }, Bottle.empty) ∧
    LSSVMLearner.getInfo rationalFormat trained
      = "Type: LSSVM\nDomain size: 1\nCodomain size: 1\nC: 1/1 | Collected Samples: 2 | Training Samples: 2 | Kernel: RBF, gamma 1/1\nLOO: 4/1\n" ∧
    LSSVMLearner.getInfo rationalFormat { trained with LOO := [] }
      = "Type: LSSVM\nDomain size: 1\nCodomain size: 1\nC: 1/1 | Collected Samples: 2 | Training Samples: 2 | Kernel: RBF, gamma 1/1\nLOO: \n" ∧
    LSSVMLearner.getInfo rationalFormat { trained with LOO := [] }
      ≠ LSSVMLearner.getInfo rationalFormat trained := by
  refine ⟨train_fed, by with_unfolding_all rfl, by with_unfolding_all rfl, by with_unfolding_all rfl, by with_unfolding_all rfl, ?_⟩
  decide

/-- C7, amended: when the stored samples of `L` have the configured sizes,
writing `L` with `writeBottle` and reading the result with `readBottle` into a
learner of the same name with an empty LOO (a never-trained one) yields a
learner whose `getInfo()` is that of `L` with an empty LOO, the LOO not being
serialized; it is `L.getInfo()` when the LOO of `L` is empty. -/
theorem getInfo_roundtrip (fmt : InfoFormat R) (L M : LSSVMLearner R)
    (hin : ∀ v ∈ L.inputs, v.length = L.domainSize)
    (hout : ∀ v ∈ L.outputs, v.length = L.codomainSize)
    (hname : M.name = L.name) (hloo : M.LOO = []) :
    ∃ (b : Bottle R) (M1 : LSSVMLearner R),
      L.writeBottle Bottle.empty = .ok b ∧ M.readBottle b = .ok (M1, Bottle.empty) ∧
      M1.getInfo fmt = LSSVMLearner.getInfo fmt { L with LOO := [] } ∧
      (L.LOO = [] → M1.getInfo fmt = L.getInfo fmt) := by
  refine ⟨written L Bottle.empty, { L with name := M.name, LOO := M.LOO },
    writeBottle_eq L _ hin hout, readBottle_written L M _ hin hout, ?_, ?_⟩
  · simp [LSSVMLearner.getInfo, IFixedSizeLearner.getInfo, hname, hloo]
  · intro h
    simp [LSSVMLearner.getInfo, IFixedSizeLearner.getInfo, hname, hloo, h]

/-- Witness of the amended C7: the trained learner read into `lssvm`. -/
theorem getInfo_roundtrip_witness :
    ∃ (b : Bottle ℚ) (M1 : LSSVMLearner ℚ),
      trained.writeBottle Bottle.empty = .ok b ∧ lssvm.readBottle b = .ok (M1, Bottle.empty) ∧
      M1.getInfo rationalFormat = LSSVMLearner.getInfo rationalFormat { trained with LOO := [] } ∧
      (trained.LOO = [] → M1.getInfo rationalFormat = trained.getInfo rationalFormat) :=
  getInfo_roundtrip rationalFormat trained lssvm (by decide) (by decide) (by decide) (by decide)

/-- C9, the code at the failing input: a learner of domain size 2 that holds
no sample answers an input of size 1, which `checkDomainSize` reports as
wrong, with the zero vector; a learner that holds samples stops on the
assertion of the kernel, not on a dimension error. -/
theorem predict_accepts_wrong_size :
    (LSSVMLearner.init 2 2 1 1 : LSSVMLearner ℚ).toIFixedSizeLearner.checkDomainSize ([1] : Vector ℚ)
      = false ∧
    LSSVMLearner.predict rationalNumerics (LSSVMLearner.init 2 2 1 1) [1] = .ok ⟨[0, 0]⟩ ∧
    LSSVMLearner.predict rationalNumerics trained [1, 2] = .error .assertion := by
  refine ⟨by decide, by with_unfolding_all rfl, by with_unfolding_all rfl⟩

omit [LinearOrderedField R] [FloorRing R] in
theorem calls_untrained (L : LSSVMLearner R) (cs : List (UntrainedCall R))
    (h : L.alphas = Matrix.empty ∧ L.bias = [] ∧ L.LOO = []) :
    (L.calls cs).alphas = Matrix.empty ∧ (L.calls cs).bias = [] ∧ (L.calls cs).LOO = [] := by
  induction cs generalizing L with
  | nil => exact h
  | cons c cs ih =>
    apply ih
    cases c with
    | feedSample input output =>
      simp only [LSSVMLearner.call, LSSVMLearner.feedSample]
      split <;> exact h
    | reset => exact ⟨rfl, rfl, rfl⟩
    | setDomainSize size => exact h
    | setCoDomainSize size => exact h

omit [LinearOrderedField R] [FloorRing R] in
theorem mapM_ok_length {α β : Type} (f : α → Except Exn β) (l : List α) (k : List β)
    (h : l.mapM f = .ok k) : k.length = l.length := by
  induction l generalizing k with
  | nil =>
    have h2 : ([] : List α).mapM f = .ok [] := rfl
    rw [h2] at h
    cases h
    rfl
  | cons a l ih =>
    rw [List.mapM_cons] at h
    cases ha : f a with
    | error e => rw [ha] at h; cases h
    | ok b =>
      cases hl : l.mapM f with
      | error e => rw [ha, hl] at h; cases h
      | ok bs =>
        rw [ha, hl] at h
        cases h
        simp [ih bs hl]

omit [LinearOrderedField R] [FloorRing R] in
theorem mapM_error_of {α β : Type} (f : α → Except Exn β) (c : Exn) (l : List α) (e : Exn)
    (hf : ∀ a e, f a = .error e → e = c) (h : l.mapM f = .error e) : e = c := by
  induction l with
  | nil =>
    have h2 : ([] : List α).mapM f = .ok [] := rfl
    rw [h2] at h
    cases h
  | cons a l ih =>
    rw [List.mapM_cons] at h
    cases ha : f a with
    | error e1 =>
      rw [ha] at h
      cases h
      exact hf a _ ha
    | ok b =>
      cases hl : l.mapM f with
      | error e1 =>
        rw [ha, hl] at h
        cases h
        exact ih hl
      | ok bs => rw [ha, hl] at h; cases h

omit [FloorRing R] in
theorem predict_of_empty_alphas (nm : Numerics R) (L : LSSVMLearner R) (x : Vector R)
    (ha : L.alphas = Matrix.empty) (hn : L.inputs ≠ []) :
    L.predict nm x = .error .assertion := by
  have h0 : L.inputs.length ≠ 0 := fun h => hn (List.length_eq_zero.1 h)
  unfold LSSVMLearner.predict
  simp only
  rw [if_neg h0]
  cases hk : L.inputs.mapM (fun v => L.kernel.evaluate nm.exp v x) with
  | error e =>
    have he : e = .assertion := by
      apply mapM_error_of _ _ _ _ _ hk
      intro a e1 h1
      unfold RBFKernel.evaluate at h1
      split at h1
      · cases h1; rfl
      · cases h1
    rw [he]
    rfl
  | ok k =>
    have hlen : k.length = L.inputs.length := mapM_ok_length _ _ _ hk
    have hcols : ¬ L.alphas.transposed.cols = k.length := by
      rw [ha, hlen]
      exact fun h => h0 h.symm
    simp only [bind, Except.bind]
    unfold Matrix.mulVec
    rw [if_neg hcols]

omit [FloorRing R] in
/-- C10, the code on a learner that was fed and never trained: in every
learner reached from the constructor by calls of `feedSample`, `reset`,
`setDomainSize` and `setCoDomainSize`, so without `train()`, that holds at
least one sample, alphas is empty, and `predict(x)` returns no vector for any
input `x`: it stops on a size assertion, that of the product of the transposed
alphas, which has no column, with the kernel values, if not before. -/
theorem predict_fed_untrained (dom cod : Nat) (c gamma : R) (cs : List (UntrainedCall R))
    (nm : Numerics R) (x : Vector R)
    (hfed : ((LSSVMLearner.init dom cod c gamma).calls cs).inputs ≠ []) :
    ((LSSVMLearner.init dom cod c gamma).calls cs).alphas = Matrix.empty ∧
    ((LSSVMLearner.init dom cod c gamma).calls cs).predict nm x = .error .assertion ∧
    ((LSSVMLearner.init dom cod c gamma).calls cs).predict nm x
      ≠ .ok ⟨zeros ((LSSVMLearner.init dom cod c gamma).calls cs).codomainSize⟩ := by
  have h := calls_untrained (LSSVMLearner.init dom cod c gamma) cs ⟨rfl, rfl, rfl⟩
  have hp := predict_of_empty_alphas nm _ x h.1 hfed
  refine ⟨h.1, hp, ?_⟩
  rw [hp]
  intro h2
  cases h2

/-- Witness of C10: `lssvm` after two calls of `feedSample`, which is `fed`,
on the input `[0]` of size `domainSize`. -/
theorem predict_fed_untrained_witness :
    fed = lssvm.calls [.feedSample [0] [1], .feedSample [0] [3]] ∧
    fed.inputs = [[0], [0]] ∧
    (lssvm.calls [.feedSample [0] [1], .feedSample [0] [3]]).alphas = Matrix.empty ∧
    (lssvm.calls [.feedSample [0] [1], .feedSample [0] [3]]).predict rationalNumerics [0]
      = .error .assertion ∧
    (lssvm.calls [.feedSample [0] [1], .feedSample [0] [3]]).predict rationalNumerics [0]
      ≠ .ok ⟨zeros (lssvm.calls [.feedSample [0] [1], .feedSample [0] [3]]).codomainSize⟩ :=
  ⟨rfl, rfl,
   predict_fed_untrained 1 1 1 1 [.feedSample [0] [1], .feedSample [0] [3]] rationalNumerics [0]
     (by decide)⟩

end Learner

/-! ## The learner without samples, `reset` and `configure` -/

section LearnerState

variable {R : Type} [LinearOrderedField R] [FloorRing R]

omit [FloorRing R] in
/-- C11: a learner that holds no samples answers every input with the vector
of `codomainSize` zeros; so does a learner as constructed, for every `dom` and
`cod`, and a learner after `reset()`. -/
theorem predict_no_samples (nm : Numerics R) :
    (∀ (L : LSSVMLearner R) (x : Vector R), L.inputs = [] →
      L.predict nm x = .ok ⟨List.replicate L.codomainSize 0⟩) ∧
    (∀ (dom cod : Nat) (c gamma : R) (x : Vector R),
      (LSSVMLearner.init dom cod c gamma).predict nm x = .ok ⟨List.replicate cod 0⟩) ∧
    (∀ (L : LSSVMLearner R) (x : Vector R),
      L.reset.predict nm x = .ok ⟨List.replicate L.codomainSize 0⟩) := by
  refine ⟨?_, ?_, ?_⟩
  · intro L x h
    simp [LSSVMLearner.predict, h, zeros]
  · intro dom cod c gamma x
    simp [LSSVMLearner.predict, LSSVMLearner.init, zeros]
  · intro L x
    simp [LSSVMLearner.predict, LSSVMLearner.reset, zeros]

/-- Witness of C11: the learner constructed with `dom = 2` and `cod = 2`
returns `[0, 0]` for the input `[0.1, 0.2]`, and `fed` after `reset()` returns
`[0]`. -/
theorem predict_no_samples_witness :
    (LSSVMLearner.init 2 2 1 1).predict rationalNumerics [1 / 10, 1 / 5] = .ok ⟨[0, 0]⟩ ∧
    fed.reset.predict rationalNumerics [7] = .ok ⟨[0]⟩ :=
  ⟨(predict_no_samples rationalNumerics).2.1 2 2 1 1 [1 / 10, 1 / 5],
   (predict_no_samples rationalNumerics).1 fed.reset [7] rfl⟩

omit [LinearOrderedField R] [FloorRing R] in
/-- C12: `reset()` leaves no inputs, no outputs, the empty alphas matrix (no
row, no column), an empty LOO and an empty bias, and leaves C, the gamma of the
kernel, both sizes and the name as they were. -/
theorem reset_contract (L : LSSVMLearner R) :
    L.reset.inputs = [] ∧ L.reset.outputs = [] ∧ L.reset.alphas = Matrix.empty ∧
    L.reset.alphas.rows = 0 ∧ L.reset.alphas.cols = 0 ∧
    L.reset.LOO = [] ∧ L.reset.bias = [] ∧
    L.reset.C = L.C ∧ L.reset.kernel.gamma = L.kernel.gamma ∧
    L.reset.domainSize = L.domainSize ∧ L.reset.codomainSize = L.codomainSize ∧
    L.reset.name = L.name :=
  ⟨rfl, rfl, rfl, rfl, rfl, rfl, rfl, rfl, rfl, rfl, rfl, rfl⟩

/-- C13: when the option `c` of the configuration is a number, `configure`
leaves C as it was and returns a flag that is true exactly if `dom` or `cod`
was an integer or the kernel reports an option of its own, provided the value
of `c` is not greater than 0; when the value is greater than 0, C is that
value and the flag is true. -/
theorem configure_c (kernelConfigure : RBFKernel R → Searchable R → Bool × RBFKernel R)
    (L : LSSVMLearner R) (config : Searchable R)
    (hnum : (config.find "c").isDouble = true ∨ (config.find "c").isInt = true) :
    (¬ (config.find "c").asDouble > 0 →
      (L.configure kernelConfigure config).2.C = L.C ∧
      (L.configure kernelConfigure config).1 =
        (((config.find "dom").isInt || (config.find "cod").isInt)
          || (kernelConfigure L.kernel config).1)) ∧
    ((config.find "c").asDouble > 0 →
      (L.configure kernelConfigure config).2.C = (config.find "c").asDouble ∧
      (L.configure kernelConfigure config).1 = true) := by
  have hc : ((config.find "c").isDouble || (config.find "c").isInt) = true := by
    cases hnum with
    | inl h => simp [h]
    | inr h => simp [h]
  constructor
  · intro hpos
    constructor
    · simp only [LSSVMLearner.configure, hc, hpos, if_true, if_false]
    · simp only [LSSVMLearner.configure, hc, hpos, if_true, if_false, IFixedSizeLearner.configure]
      cases h1 : (config.find "dom").isInt <;> cases h2 : (config.find "cod").isInt <;> simp
  · intro hpos
    constructor
    · simp only [LSSVMLearner.configure, hc, hpos, if_true, LSSVMLearner.setC]
    · simp only [LSSVMLearner.configure, hc, hpos, if_true, Bool.true_or]

/-- Witness of C13: `c = -1.0` leaves C and gives false; `c = 5` sets C to 5
and gives true. -/
theorem configure_c_witness :
    ((lssvm.configure gammaConfigure (configC (.double (-1)))).2.C = lssvm.C ∧
      (lssvm.configure gammaConfigure (configC (.double (-1)))).1 = false) ∧
    ((lssvm.configure gammaConfigure (configC (.int 5))).2.C = 5 ∧
      (lssvm.configure gammaConfigure (configC (.int 5))).1 = true) :=
  ⟨(configure_c gammaConfigure lssvm (configC (.double (-1))) (Or.inl rfl)).1
      (by simp [configC, Entry.asDouble, Value.asDouble]),
   by
    have h := (configure_c gammaConfigure lssvm (configC (.int 5)) (Or.inr rfl)).2
      (by simp [configC, Entry.asDouble, Value.asDouble])
    simpa [configC, Entry.asDouble, Value.asDouble] using h⟩

end LearnerState

/-! ## Copies of the wire wrapper -/

/-- C18, the code at the failing input: copying the empty wrapper, and
assigning it to a wrapper that holds `lssvm`, call `clone()` through the null
pointer `other.wrapped`; a source that holds a learner is cloned, and the
self-assignment returns at once. -/
theorem copy_of_empty_wrapper :
    PortableT.copy (⟨none⟩ : PortableT (LSSVMLearner ℚ)) = .error .nullDereference ∧
    PortableT.assignFrom (⟨some lssvm⟩ : PortableT (LSSVMLearner ℚ)) ⟨none⟩ false
      = .error .nullDereference ∧
    PortableT.copy (⟨some trained⟩ : PortableT (LSSVMLearner ℚ)) = .ok ⟨some trained⟩ ∧
    PortableT.assignFrom (⟨some lssvm⟩ : PortableT (LSSVMLearner ℚ)) ⟨some trained⟩ false
      = .ok ⟨some trained⟩ ∧
    PortableT.assignFrom (⟨none⟩ : PortableT (LSSVMLearner ℚ)) ⟨none⟩ true = .ok ⟨none⟩ :=
  ⟨rfl, rfl, rfl, rfl, rfl⟩

/-! ## Training -/

section Training

variable {R : Type} [LinearOrderedField R] [FloorRing R]

omit [FloorRing R] in
theorem train_of_trainingData (nm : Numerics R) (L : LSSVMLearner R) (hn : L.inputs ≠ []) :
    L.train nm = (LSSVMLearner.train nm (trainingData L)).map
      (fun T => { L with alphas := T.alphas, bias := T.bias, LOO := T.LOO }) := by
  have hlen : L.inputs.length ≠ 0 := by
    intro h; exact hn (List.length_eq_zero.1 h)
  have hk : (trainingData L).kernelValues nm = L.kernelValues nm := rfl
  have ho : (trainingData L).outputRows = L.outputRows := rfl
  have hm : ∀ values, (trainingData L).kernelMatrix values = L.kernelMatrix values :=
    fun _ => rfl
  unfold LSSVMLearner.train
  rw [hk, ho]
  simp only [hm]
  have e1 : (trainingData L).inputs = L.inputs := rfl
  have e2 : (trainingData L).outputs = L.outputs := rfl
  have e3 : (trainingData L).codomainSize = L.codomainSize := rfl
  simp only [e1, e2, e3]
  by_cases h1 : L.inputs.length ≠ L.outputs.length
  · simp [h1, Except.map]
  · simp only [h1, hlen, if_false]
    cases L.kernelValues nm with
    | error e => rfl
    | ok values =>
      cases L.outputRows with
      | error e => rfl
      | ok rowsY =>
        simp only [bind, Except.bind, Except.map]
        split <;> rfl

omit [FloorRing R] in
theorem train_nil (nm : Numerics R) (L T : LSSVMLearner R) (hn : L.inputs = [])
    (h : L.train nm = .ok T) : T = L ∧ L.train nm = .ok L := by
  have h0 : L.inputs.length = 0 := by rw [hn]; rfl
  unfold LSSVMLearner.train at h ⊢
  by_cases h1 : L.inputs.length ≠ L.outputs.length
  · rw [if_pos h1] at h
    cases h
  · rw [if_neg h1, if_pos h0] at h
    rw [if_neg h1, if_pos h0]
    simp only [Except.ok.injEq] at h
    exact ⟨h.symm, rfl⟩

omit [FloorRing R] in
theorem train_idempotent (nm : Numerics R) (L T : LSSVMLearner R) (h : L.train nm = .ok T) :
    T.train nm = .ok T := by
  by_cases hn : L.inputs = []
  · obtain ⟨hT, hL⟩ := train_nil nm L T hn h
    rw [hT]
    exact hL
  · rw [train_of_trainingData nm L hn] at h
    cases hD : LSSVMLearner.train nm (trainingData L) with
    | error e => rw [hD] at h; simp [Except.map] at h
    | ok D =>
      rw [hD] at h
      simp only [Except.map, Except.ok.injEq] at h
      subst h
      rw [train_of_trainingData nm
        ({ L with alphas := D.alphas, bias := D.bias, LOO := D.LOO } : LSSVMLearner R) hn]
      have : trainingData ({ L with alphas := D.alphas, bias := D.bias, LOO := D.LOO }
          : LSSVMLearner R) = trainingData L := rfl
      rw [this, hD]
      rfl

omit [FloorRing R] in
/-- C19, amended: for a learner that holds at least one sample, `train()` is a
function of the ordered samples, C, gamma and `codomainSize` only: two
learners equal in these have equal alphas, bias and LOO after `train()`, and
`train()` fails for both or for neither. With no samples `train()` leaves
alphas, bias and LOO as they were. In both cases a second `train()` in a row
leaves the state of the first. -/
theorem train_deterministic (nm : Numerics R) (L1 L2 : LSSVMLearner R)
    (hin : L1.inputs = L2.inputs) (hout : L1.outputs = L2.outputs) (hC : L1.C = L2.C)
    (hgamma : L1.kernel.gamma = L2.kernel.gamma)
    (hcod : L1.codomainSize = L2.codomainSize) :
    (L1.inputs ≠ [] →
      (L1.train nm).map (fun T => (T.alphas, T.bias, T.LOO))
        = (L2.train nm).map (fun T => (T.alphas, T.bias, T.LOO))) ∧
    (L1.inputs = [] → ∀ T, L1.train nm = .ok T →
      T.alphas = L1.alphas ∧ T.bias = L1.bias ∧ T.LOO = L1.LOO) ∧
    (∀ T, L1.train nm = .ok T → T.train nm = .ok T) := by
  refine ⟨?_, ?_, fun T h => train_idempotent nm L1 T h⟩
  · intro hn
    have hn2 : L2.inputs ≠ [] := hin ▸ hn
    have hk : L1.kernel = L2.kernel := by
      cases h1 : L1.kernel; cases h2 : L2.kernel
      rw [h1, h2] at hgamma
      simpa using hgamma
    have hD : trainingData L1 = trainingData L2 := by
      simp only [trainingData, hin, hout, hC, hk, hcod]
    rw [train_of_trainingData nm L1 hn, train_of_trainingData nm L2 hn2, hD]
    cases LSSVMLearner.train nm (trainingData L2) <;> rfl
  · intro hn T h
    rw [(train_nil nm L1 T hn h).1]
    exact ⟨rfl, rfl, rfl⟩

theorem mapM_except_ok {α β : Type} (f : α → Except Exn β) (g : α → β) (l : List α)
    (h : ∀ a ∈ l, f a = .ok (g a)) : l.mapM f = .ok (l.map g) := by
  induction l with
  | nil => rfl
  | cons a l ih =>
    rw [List.mapM_cons, h a (List.mem_cons_self _ _),
      ih (fun b hb => h b (List.mem_cons_of_mem _ hb))]
    rfl

omit [LinearOrderedField R] [FloorRing R] in
theorem Matrix.get_ofFn [Zero R] (rows cols : Nat) (f : Nat → Nat → R) (r c : Nat)
    (hr : r < rows) (hc : c < cols) : (Matrix.ofFn rows cols f).get r c = f r c := by
  have hlt : r * cols + c < rows * cols := by
    calc r * cols + c < r * cols + cols := by omega
      _ = (r + 1) * cols := by ring
      _ ≤ rows * cols := Nat.mul_le_mul_right _ hr
  have hpos : 0 < cols := by omega
  have hdiv : (r * cols + c) / cols = r := by
    rw [Nat.add_comm, Nat.add_mul_div_right _ _ hpos, Nat.div_eq_of_lt hc, Nat.zero_add]
  have hmod : (r * cols + c) % cols = c := by
    rw [Nat.add_comm, Nat.add_mul_mod_self_right, Nat.mod_eq_of_lt hc]
  simp [Matrix.get, Matrix.ofFn, hr, hc, List.getD_eq_getElem?_getD, hlt, hdiv, hmod]

omit [LinearOrderedField R] [FloorRing R] in
theorem Matrix.ofFn_congr (rows cols : Nat) (f g : Nat → Nat → R)
    (h : ∀ r c, r < rows → c < cols → f r c = g r c) :
    Matrix.ofFn rows cols f = Matrix.ofFn rows cols g := by
  have hd : (List.range (rows * cols)).map (fun k => f (k / cols) (k % cols))
      = (List.range (rows * cols)).map (fun k => g (k / cols) (k % cols)) := by
    apply List.map_congr_left
    intro k hk
    have hk' : k < rows * cols := List.mem_range.1 hk
    have hpos : 0 < cols := by
      rcases Nat.eq_zero_or_pos cols with h0 | h0
      · rw [h0] at hk'; simp at hk'
      · exact h0
    apply h
    · exact (Nat.div_lt_iff_lt_mul hpos).2 hk'
    · exact Nat.mod_lt _ hpos
  simp only [Matrix.ofFn]
  congr 1

omit [FloorRing R] in
theorem RBFKernel.evaluate_ok (kernel : RBFKernel R) (exp : R → R) (x y : Vector R)
    (h : x.length = y.length) :
    kernel.evaluate exp x y = .ok (kernel.value exp x y) := by
  simp [RBFKernel.value, RBFKernel.evaluate, h]

omit [FloorRing R] in
theorem RBFKernel.value_comm (kernel : RBFKernel R) (exp : R → R) (x y : Vector R) :
    kernel.value exp x y = kernel.value exp y x := by
  unfold RBFKernel.value RBFKernel.evaluate
  by_cases h : x.length = y.length
  · have h2 : y.length = x.length := h.symm
    have hz : List.zipWith (fun a b => (a - b) * (a - b)) x y
        = List.zipWith (fun a b => (a - b) * (a - b)) y x := by
      rw [List.zipWith_comm]
      congr 1
      funext a b
      ring
    rw [if_neg (not_not.2 h), if_neg (not_not.2 h2), hz]
  · have h2 : ¬ y.length = x.length := fun h3 => h h3.symm
    simp [h, h2]

omit [FloorRing R] in
theorem kernelValues_ok (nm : Numerics R) (L : LSSVMLearner R)
    (hin : ∀ v ∈ L.inputs, v.length = L.domainSize) :
    L.kernelValues nm = .ok ((List.range L.inputs.length).map (fun r =>
      (List.range (r + 1)).map (fun c =>
        L.kernel.value nm.exp (L.inputs.getD r []) (L.inputs.getD c [])))) := by
  have hlen : ∀ i, i < L.inputs.length → (L.inputs.getD i []).length = L.domainSize := by
    intro i hi
    rw [List.getD_eq_getElem _ _ hi]
    exact hin _ (List.getElem_mem hi)
  unfold LSSVMLearner.kernelValues
  apply mapM_except_ok
  intro r hr
  have hr' : r < L.inputs.length := List.mem_range.1 hr
  apply mapM_except_ok
  intro c hc
  have hc' : c < r + 1 := List.mem_range.1 hc
  apply RBFKernel.evaluate_ok
  rw [hlen r hr', hlen c (by omega)]

omit [FloorRing R] in
theorem kernelMatrix_eq (nm : Numerics R) (L : LSSVMLearner R) :
    L.kernelMatrix ((List.range L.inputs.length).map (fun r =>
      (List.range (r + 1)).map (fun c =>
        L.kernel.value nm.exp (L.inputs.getD r []) (L.inputs.getD c []))))
      = augmentedKernel nm L := by
  unfold LSSVMLearner.kernelMatrix augmentedKernel
  apply Matrix.ofFn_congr
  intro r c _ _
  by_cases h : r < L.inputs.length ∧ c < L.inputs.length
  · have hmax : max r c < L.inputs.length := max_lt h.1 h.2
    have hmin : min r c < max r c + 1 := by
      have := min_le_max (a := r) (b := c)
      omega
    have hv : (((List.range L.inputs.length).map (fun r =>
        (List.range (r + 1)).map (fun c =>
          L.kernel.value nm.exp (L.inputs.getD r []) (L.inputs.getD c [])))).getD
            (max r c) []).getD (min r c) 0
        = L.kernel.value nm.exp (L.inputs.getD (max r c) []) (L.inputs.getD (min r c) []) := by
      simp [List.getD_eq_getElem?_getD, hmax, hmin]
    simp only [h, and_self, if_true]
    rw [hv]
    by_cases hrc : r = c
    · subst hrc
      simp
    · simp only [hrc, if_false]
      rcases le_total r c with hle | hle
      · rw [max_eq_right hle, min_eq_left hle, RBFKernel.value_comm]
      · rw [max_eq_left hle, min_eq_right hle]
  · simp only [h, if_false]

omit [FloorRing R] in
theorem outputRow_ok (o : List R) :
    (List.range o.length).mapM (fun c =>
      match o[c]? with
      | some y => (Except.ok y : Except Exn R)
      | none => .error .outOfBounds) = .ok o := by
  rw [mapM_except_ok _ (fun c => o.getD c 0)]
  · congr 1
    apply List.ext_getElem
    · simp
    · intro i h1 h2
      simp [List.getD_eq_getElem?_getD, h2]
  · intro c hc
    have hc' : c < o.length := List.mem_range.1 hc
    simp [List.getD_eq_getElem?_getD, hc']

omit [FloorRing R] in
theorem outputRows_ok (L : LSSVMLearner R)
    (hout : ∀ v ∈ L.outputs, v.length = L.codomainSize) :
    L.outputRows = .ok L.outputs := by
  unfold LSSVMLearner.outputRows
  rw [mapM_except_ok _ (fun o => o)]
  · simp
  · intro o ho
    rw [← hout o ho]
    exact outputRow_ok o

omit [FloorRing R] in
theorem augmentedKernel_get (nm : Numerics R) (L : LSSVMLearner R) (i j : Nat)
    (hi : i < L.inputs.length + 1) (hj : j < L.inputs.length + 1) :
    (augmentedKernel nm L).get i j =
      if i < L.inputs.length ∧ j < L.inputs.length then
        if i = j then
          L.kernel.value nm.exp (L.inputs.getD i []) (L.inputs.getD i []) + 1 / L.C
        else L.kernel.value nm.exp (L.inputs.getD i []) (L.inputs.getD j [])
      else if i = L.inputs.length ∧ j = L.inputs.length then 0
      else 1 := by
  unfold augmentedKernel
  rw [Matrix.get_ofFn _ _ _ _ _ hi hj]

omit [FloorRing R] in
theorem augmentedKernel_symm (nm : Numerics R) (L : LSSVMLearner R) (i j : Nat) :
    (augmentedKernel nm L).get i j = (augmentedKernel nm L).get j i := by
  by_cases hi : i < L.inputs.length + 1
  · by_cases hj : j < L.inputs.length + 1
    · rw [augmentedKernel_get nm L i j hi hj, augmentedKernel_get nm L j i hj hi]
      by_cases h : i < L.inputs.length ∧ j < L.inputs.length
      · have h' : j < L.inputs.length ∧ i < L.inputs.length := ⟨h.2, h.1⟩
        simp only [h, h', and_self, if_true]
        by_cases hij : i = j
        · subst hij; rfl
        · have hji : ¬ j = i := fun e => hij e.symm
          simp only [hij, hji, if_false]
          exact RBFKernel.value_comm _ _ _ _
      · have h' : ¬ (j < L.inputs.length ∧ i < L.inputs.length) := fun e => h ⟨e.2, e.1⟩
        simp only [h, h', if_false]
        by_cases hc : i = L.inputs.length ∧ j = L.inputs.length
        · have hc' : j = L.inputs.length ∧ i = L.inputs.length := ⟨hc.2, hc.1⟩
          simp only [hc, hc', and_self, if_true]
        · have hc' : ¬ (j = L.inputs.length ∧ i = L.inputs.length) := fun e => hc ⟨e.2, e.1⟩
          simp only [hc, hc', if_false]
    · have e1 : (augmentedKernel nm L).cols = L.inputs.length + 1 := rfl
      have e2 : (augmentedKernel nm L).rows = L.inputs.length + 1 := rfl
      simp [Matrix.get, e1, e2, hj]
  · have e1 : (augmentedKernel nm L).cols = L.inputs.length + 1 := rfl
    have e2 : (augmentedKernel nm L).rows = L.inputs.length + 1 := rfl
    simp [Matrix.get, e1, e2, hi]

omit [FloorRing R] in
theorem train_eq_of_sizes (nm : Numerics R) (L : LSSVMLearner R)
    (hn : L.inputs ≠ []) (hlen : L.inputs.length = L.outputs.length)
    (hin : ∀ v ∈ L.inputs, v.length = L.domainSize)
    (hout : ∀ v ∈ L.outputs, v.length = L.codomainSize) :
    L.train nm = (Matrix.mul (nm.luinv (augmentedKernel nm L)) (stackedOutputs L)).map
      (fun P => { L with
        alphas := P.topRows (P.rows - 1), bias := P.getRow (P.rows - 1),
        LOO := LSSVMLearner.looOf L.codomainSize (P.topRows (P.rows - 1))
          (nm.luinv (augmentedKernel nm L)) }) := by
  have h0 : L.inputs.length ≠ 0 := fun h => hn (List.length_eq_zero.1 h)
  unfold LSSVMLearner.train
  rw [if_neg (not_not.2 hlen), if_neg h0, kernelValues_ok nm L hin, outputRows_ok L hout]
  simp only [bind, Except.bind, kernelMatrix_eq]
  cases h : (nm.luinv (augmentedKernel nm L)).mul (stackedOutputs L) with
  | error e =>
    have h' := h
    unfold stackedOutputs at h'
    rw [h']
    rfl
  | ok P =>
    have h' := h
    unfold stackedOutputs at h'
    rw [h']
    rfl

omit [FloorRing R] in
/-- C20: for a learner with n >= 1 samples of the configured sizes and
C > 0, and an inverse of the shape of its argument, `train()` succeeds; the
rows of alphas over the bias are the rows of `luinv(K) * Y'`, where `K` is the
matrix of the specification and `Y'` the outputs over a zero row; alphas has n
rows, as many as there are inputs, and `codomainSize` columns; `K` is
symmetric and has the entries that the specification gives. -/
theorem train_solves_system (nm : Numerics R) (L : LSSVMLearner R)
    (hn : L.inputs ≠ []) (hlen : L.inputs.length = L.outputs.length)
    (hin : ∀ v ∈ L.inputs, v.length = L.domainSize)
    (hout : ∀ v ∈ L.outputs, v.length = L.codomainSize)
    (_hC : 0 < L.C)
    (hrows : (nm.luinv (augmentedKernel nm L)).rows = L.inputs.length + 1)
    (hcols : (nm.luinv (augmentedKernel nm L)).cols = L.inputs.length + 1) :
    ∃ (T : LSSVMLearner R) (P : Matrix R),
      L.train nm = .ok T ∧
      Matrix.mul (nm.luinv (augmentedKernel nm L)) (stackedOutputs L) = .ok P ∧
      P.rows = L.inputs.length + 1 ∧ P.cols = L.codomainSize ∧
      T.inputs = L.inputs ∧
      T.alphas.rows = T.inputs.length ∧ T.alphas.cols = L.codomainSize ∧
      T.bias.length = L.codomainSize ∧
      (∀ i c, i < L.inputs.length → c < L.codomainSize → T.alphas.get i c = P.get i c) ∧
      (∀ c, c < L.codomainSize → T.bias.getD c 0 = P.get L.inputs.length c) ∧
      (∀ i j, (augmentedKernel nm L).get i j = (augmentedKernel nm L).get j i) ∧
      (∀ i j, i < L.inputs.length → j < L.inputs.length → i ≠ j →
        (augmentedKernel nm L).get i j
          = L.kernel.value nm.exp (L.inputs.getD i []) (L.inputs.getD j [])) ∧
      (∀ i, i < L.inputs.length →
        (augmentedKernel nm L).get i i
          = L.kernel.value nm.exp (L.inputs.getD i []) (L.inputs.getD i []) + 1 / L.C ∧
        (augmentedKernel nm L).get i L.inputs.length = 1 ∧
        (augmentedKernel nm L).get L.inputs.length i = 1) ∧
      (augmentedKernel nm L).get L.inputs.length L.inputs.length = 0 := by
  have hmul : ∃ P, Matrix.mul (nm.luinv (augmentedKernel nm L)) (stackedOutputs L) = .ok P ∧
      P.rows = L.inputs.length + 1 ∧ P.cols = L.codomainSize := by
    have hY : (stackedOutputs L).rows = L.inputs.length + 1 := by
      rw [hlen]; rfl
    have hcond : (nm.luinv (augmentedKernel nm L)).cols = (stackedOutputs L).rows := by
      rw [hcols, hY]
    cases hm : Matrix.mul (nm.luinv (augmentedKernel nm L)) (stackedOutputs L) with
    | error e =>
      unfold Matrix.mul at hm
      rw [if_pos hcond] at hm
      cases hm
    | ok P =>
      unfold Matrix.mul at hm
      rw [if_pos hcond] at hm
      simp only [Except.ok.injEq] at hm
      subst hm
      exact ⟨_, rfl, hrows, rfl⟩
  obtain ⟨P, hP, hPr, hPc⟩ := hmul
  refine ⟨{ L with
      alphas := P.topRows (P.rows - 1), bias := P.getRow (P.rows - 1),
      LOO := LSSVMLearner.looOf L.codomainSize (P.topRows (P.rows - 1))
        (nm.luinv (augmentedKernel nm L)) }, P, ?_, hP, hPr, hPc, ?_⟩
  · rw [train_eq_of_sizes nm L hn hlen hin hout, hP]
    rfl
  have hsub : P.rows - 1 = L.inputs.length := by omega
  refine ⟨rfl, ?_, ?_, ?_, ?_, ?_, augmentedKernel_symm nm L, ?_, ?_, ?_⟩
  · show P.rows - 1 = L.inputs.length
    exact hsub
  · show P.cols = L.codomainSize
    exact hPc
  · show (P.getRow (P.rows - 1)).length = L.codomainSize
    simp [Matrix.getRow, hPc]
  · intro i c hi hc
    show (P.topRows (P.rows - 1)).get i c = P.get i c
    unfold Matrix.topRows
    rw [Matrix.get_ofFn _ _ _ _ _ (by omega) (by omega)]
  · intro c hc
    show (P.getRow (P.rows - 1)).getD c 0 = P.get L.inputs.length c
    have hc' : c < P.cols := by omega
    simp [Matrix.getRow, List.getD_eq_getElem?_getD, hc', hsub]
  · intro i j hi hj hij
    rw [augmentedKernel_get nm L i j (by omega) (by omega)]
    simp [hi, hj, hij]
  · intro i hi
    refine ⟨?_, ?_, ?_⟩
    · rw [augmentedKernel_get nm L i i (by omega) (by omega)]
      simp [hi]
    · rw [augmentedKernel_get nm L i _ (by omega) (by omega)]
      have : ¬ i = L.inputs.length := by omega
      simp [this]
    · rw [augmentedKernel_get nm L _ i (by omega) (by omega)]
      have : ¬ i = L.inputs.length := by omega
      simp [this]
  · rw [augmentedKernel_get nm L _ _ (by omega) (by omega)]
    simp

set_option maxRecDepth 100000 in
/-- Witness of C20: the learner `fed` with the exact rational inverse. -/
theorem train_solves_system_witness :
    ∃ (T : LSSVMLearner ℚ) (P : Matrix ℚ),
      fed.train rationalNumerics = .ok T ∧
      Matrix.mul (rationalNumerics.luinv (augmentedKernel rationalNumerics fed))
        (stackedOutputs fed) = .ok P ∧
      P.rows = fed.inputs.length + 1 ∧ P.cols = fed.codomainSize ∧
      T.inputs = fed.inputs ∧
      T.alphas.rows = T.inputs.length ∧ T.alphas.cols = fed.codomainSize ∧
      T.bias.length = fed.codomainSize ∧
      (∀ i c, i < fed.inputs.length → c < fed.codomainSize → T.alphas.get i c = P.get i c) ∧
      (∀ c, c < fed.codomainSize → T.bias.getD c 0 = P.get fed.inputs.length c) ∧
      (∀ i j, (augmentedKernel rationalNumerics fed).get i j
        = (augmentedKernel rationalNumerics fed).get j i) ∧
      (∀ i j, i < fed.inputs.length → j < fed.inputs.length → i ≠ j →
        (augmentedKernel rationalNumerics fed).get i j
          = fed.kernel.value rationalNumerics.exp (fed.inputs.getD i []) (fed.inputs.getD j [])) ∧
      (∀ i, i < fed.inputs.length →
        (augmentedKernel rationalNumerics fed).get i i
          = fed.kernel.value rationalNumerics.exp (fed.inputs.getD i []) (fed.inputs.getD i [])
            + 1 / fed.C ∧
        (augmentedKernel rationalNumerics fed).get i fed.inputs.length = 1 ∧
        (augmentedKernel rationalNumerics fed).get fed.inputs.length i = 1) ∧
      (augmentedKernel rationalNumerics fed).get fed.inputs.length fed.inputs.length = 0 :=
  train_solves_system rationalNumerics fed (by decide) (by decide) (by decide) (by decide)
    (by with_unfolding_all decide) rfl rfl

/-- The evaluation of `readBottle` of the trained learner on the bottle that
`lssvm` writes. -/
theorem readBottle_stale :
    lssvm.writeBottle Bottle.empty = .ok (written lssvm Bottle.empty) ∧
    trained.readBottle (written lssvm Bottle.empty) = .ok (stale, Bottle.empty) := by
  constructor <;> with_unfolding_all rfl

/-- Witness of the amended C19: `fed` and `trained` hold the same samples. -/
theorem train_deterministic_witness :
    (fed.train rationalNumerics).map (fun T => (T.alphas, T.bias, T.LOO))
      = (trained.train rationalNumerics).map (fun T => (T.alphas, T.bias, T.LOO)) ∧
    trained.train rationalNumerics = .ok trained :=
  ⟨(train_deterministic rationalNumerics fed trained rfl rfl rfl rfl rfl).1 (by decide),
   (train_deterministic rationalNumerics fed trained rfl rfl rfl rfl rfl).2.2 trained train_fed⟩

/-- Counterexample to C19: `stale`, the trained learner after it read the
bottle of `lssvm`, and `lssvm` hold the same samples (none), C, gamma and
`codomainSize`; `train()` returns at once on both, and their LOO differ. -/
theorem train_deterministic_counterexample :
    trained.readBottle (written lssvm Bottle.empty) = .ok (stale, Bottle.empty) ∧
    stale.inputs = lssvm.inputs ∧ stale.outputs = lssvm.outputs ∧ stale.C = lssvm.C ∧
    stale.kernel.gamma = lssvm.kernel.gamma ∧ stale.codomainSize = lssvm.codomainSize ∧
    stale.train rationalNumerics = .ok stale ∧ lssvm.train rationalNumerics = .ok lssvm ∧
    stale.LOO = [4] ∧ lssvm.LOO = [] ∧
    (stale.train rationalNumerics).map (fun T => T.LOO)
      ≠ (lssvm.train rationalNumerics).map (fun T => T.LOO) := by
  have h1 : stale.train rationalNumerics = .ok stale := by with_unfolding_all rfl
  have h2 : lssvm.train rationalNumerics = .ok lssvm := by with_unfolding_all rfl
  refine ⟨readBottle_stale.2, rfl, rfl, rfl, rfl, rfl, h1, h2, rfl, rfl, ?_⟩
  rw [h1, h2]
  intro h
  have h3 : stale.LOO = lssvm.LOO := by
    simpa [Except.map] using h
  exact absurd h3 (by decide)

end Training

/-! ## The scale transformer -/

section Shape

variable {S R : Type} [LinearOrderedField R] [FloorRing R]

theorem SameShape.refl (t : ScaleTransformer S) : t.SameShape t := ⟨rfl, rfl⟩

theorem SameShape.trans {t t1 t2 : ScaleTransformer S} (h1 : t.SameShape t1)
    (h2 : t1.SameShape t2) : t.SameShape t2 :=
  ⟨h2.1.trans h1.1, h2.2.trans h1.2⟩

theorem SameShape.set (t : ScaleTransformer S) (i : Nat) (v : Option S) :
    t.SameShape { t with scalers := t.scalers.set i v } :=
  ⟨by simp, rfl⟩

theorem setAt_shape [Prototype S] (factory : FactoryT S) (t : ScaleTransformer S) (index : Int)
    (type : String) : t.SameShape (t.setAt factory index type).2 := by
  unfold ScaleTransformer.setAt
  split
  · split
    · exact SameShape.set t _ _
    · exact SameShape.set t _ _
  · exact SameShape.refl t

theorem setAllLoop_shape [Prototype S] (factory : FactoryT S) (type : String) (is : List Nat)
    (t : ScaleTransformer S) : t.SameShape (ScaleTransformer.setAllLoop factory type is t).2 := by
  induction is generalizing t with
  | nil => exact SameShape.refl t
  | cons i rest ih =>
    unfold ScaleTransformer.setAllLoop
    have h := setAt_shape factory t i type
    split
    · rename_i t1 heq
      rw [heq] at h
      exact SameShape.trans h (ih t1)
    · rename_i e t1 heq
      rw [heq] at h
      exact h

theorem setAll_shape [Prototype S] (factory : FactoryT S) (t : ScaleTransformer S)
    (type : String) : t.SameShape (t.setAll factory type).2 :=
  setAllLoop_shape factory type _ t

theorem Sized.of_shape {t t1 : ScaleTransformer S} (h : t.Sized) (hs : t.SameShape t1) :
    t1.Sized := by
  unfold ScaleTransformer.Sized at h ⊢
  have h1 : t1.domainSize = t.domainSize := by
    have := hs.2; rw [this]
  have h2 : t1.codomainSize = t.codomainSize := by
    have := hs.2; rw [this]
  rw [hs.1, h1, h2]
  exact h

theorem Fit.of_same_shape {t t1 : ScaleTransformer S} (h : t.Fit) (hs : t.SameShape t1) :
    t1.Fit := by
  refine ⟨Sized.of_shape h.1 hs, ?_⟩
  have h1 : t1.domainSize = t.domainSize := by
    have := hs.2; rw [this]
  rw [h1]
  exact h.2

theorem deleteAll_fit [Prototype S] (factory : FactoryT S) (t : ScaleTransformer S)
    (h : t.domainSize = t.codomainSize) (hd : t.domainSize < 2147483648) :
    (t.deleteAll factory (unsignedToInt t.domainSize)).2.Fit := by
  unfold ScaleTransformer.deleteAll
  rw [unsignedToInt_of_lt _ hd, if_neg (by omega)]
  apply Fit.of_same_shape _ (setAll_shape factory _ "null")
  exact ⟨⟨by simp, h⟩, hd⟩

theorem setDomainSize_fit [Prototype S] (factory : FactoryT S) (t : ScaleTransformer S)
    (size : Nat) (hsize : size < 2147483648) : (t.setDomainSize factory size).2.Fit := by
  unfold ScaleTransformer.setDomainSize ScaleTransformer.reset
  exact deleteAll_fit factory _ rfl hsize

theorem reset_fit [Prototype S] (factory : FactoryT S) (t : ScaleTransformer S)
    (h : t.Fit) : (t.reset factory).2.Fit := by
  unfold ScaleTransformer.reset
  exact deleteAll_fit factory t h.1.2 h.2

theorem setDomainSize_match_fit [Prototype S] (factory : FactoryT S)
    (t : ScaleTransformer S) (size : Nat) (hsize : size < 2147483648) :
    (match t.setDomainSize factory size with
      | (.ok (), t1) => ((.ok true, t1) : Except Exn Bool × ScaleTransformer S)
      | (.error e, t1) => (.error e, t1)).2.Fit := by
  have h := setDomainSize_fit factory t size hsize
  split
  · rename_i t1 heq
    rw [heq] at h
    exact h
  · rename_i e t1 heq
    rw [heq] at h
    exact h

theorem configureSizes_fit [Prototype S] (factory : FactoryT S) (t : ScaleTransformer S)
    (config : Searchable R) (h : t.Fit)
    (hdom : (config.find "dom").isInt = true →
      intToUnsigned (config.find "dom").asInt < 2147483648)
    (hcod : (config.find "cod").isInt = true →
      intToUnsigned (config.find "cod").asInt < 2147483648) :
    (t.configureSizes factory config).2.Fit := by
  unfold ScaleTransformer.configureSizes ScaleTransformer.setCoDomainSize
  cases hd : (config.find "dom").isInt <;> cases hc : (config.find "cod").isInt <;>
    simp only [Bool.false_eq_true, if_false, if_true]
  · exact h
  · exact setDomainSize_match_fit factory t _ (hcod hc)
  · have h1 := setDomainSize_fit factory t _ (hdom hd)
    rcases hr : t.setDomainSize factory (intToUnsigned (config.find "dom").asInt)
      with ⟨_ | _, t1⟩ <;> (rw [hr] at h1; exact h1)
  · have h1 := setDomainSize_fit factory t _ (hdom hd)
    rcases hr : t.setDomainSize factory (intToUnsigned (config.find "dom").asInt)
      with ⟨_ | _, t1⟩
    · rw [hr] at h1; exact h1
    · exact setDomainSize_match_fit factory t1 _ (hcod hc)

omit [LinearOrderedField R] [FloorRing R] in
theorem typeListLoop_shape [Prototype S] (factory : FactoryT S) (scaleList : Bottle R)
    (is : List Nat) (success : Bool) (t : ScaleTransformer S) :
    t.SameShape (ScaleTransformer.typeListLoop factory scaleList is success t).2 := by
  induction is generalizing t success with
  | nil => exact SameShape.refl t
  | cons i rest ih =>
    unfold ScaleTransformer.typeListLoop
    split
    · have h := setAt_shape factory t i (scaleList.get i).asString
      split
      · rename_i t1 heq
        rw [heq] at h
        exact SameShape.trans h (ih true t1)
      · rename_i e t1 heq
        rw [heq] at h
        exact h
    · exact ih success t

omit [LinearOrderedField R] [FloorRing R] in
theorem configureTypeList_shape [Prototype S] (factory : FactoryT S) (config : Searchable R)
    (success : Bool) (t : ScaleTransformer S) :
    t.SameShape (ScaleTransformer.configureTypeList factory config success t).2 := by
  unfold ScaleTransformer.configureTypeList
  split
  · exact typeListLoop_shape factory _ _ _ _
  · exact SameShape.refl t

theorem configureTypeGroup_shape [Prototype S] (factory : FactoryT S) (config : Searchable R)
    (success : Bool) (t : ScaleTransformer S) :
    t.SameShape (ScaleTransformer.configureTypeGroup factory config success t).2 := by
  unfold ScaleTransformer.configureTypeGroup
  split
  · exact SameShape.refl t
  · rename_i group _
    dsimp only
    split
    · have h := setAt_shape factory t ((group.tail.get 0).asInt - 1) (group.tail.get 1).asString
      split
      · rename_i t1 heq
        rw [heq] at h
        exact h
      · rename_i e t1 heq
        rw [heq] at h
        exact h
    · split
      · have h := setAll_shape factory t (group.tail.get 1).asString
        split
        · rename_i t1 heq
          rw [heq] at h
          exact h
        · rename_i e t1 heq
          rw [heq] at h
          exact h
      · exact SameShape.refl t

omit [LinearOrderedField R] [FloorRing R] in
theorem configureAt_shape [IScaler S R] (t : ScaleTransformer S) (index : Int)
    (property : Bottle R) : t.SameShape (t.configureAt index property).2 := by
  unfold ScaleTransformer.configureAt
  split
  · exact SameShape.refl t
  · exact SameShape.refl t
  · exact SameShape.set t _ _

omit [LinearOrderedField R] [FloorRing R] in
theorem configureAllLoop_shape [IScaler S R] (property : Bottle R) (is : List Nat)
    (success : Bool) (t : ScaleTransformer S) :
    t.SameShape (ScaleTransformer.configureAllLoop property is success t).2 := by
  induction is generalizing t success with
  | nil => exact SameShape.refl t
  | cons i rest ih =>
    unfold ScaleTransformer.configureAllLoop
    have h := configureAt_shape t i property
    split
    · rename_i flag t1 heq
      rw [heq] at h
      exact SameShape.trans h (ih _ t1)
    · rename_i e t1 heq
      rw [heq] at h
      exact h

theorem configureConfigGroup_shape [IScaler S R] (config : Searchable R) (success : Bool)
    (t : ScaleTransformer S) :
    t.SameShape (ScaleTransformer.configureConfigGroup config success t).2 := by
  unfold ScaleTransformer.configureConfigGroup
  split
  · exact SameShape.refl t
  · dsimp only
    split
    · exact configureAt_shape t _ _
    · split
      · exact configureAllLoop_shape _ _ _ _
      · exact SameShape.refl t

theorem configure_fit [IScaler S R] (factory : FactoryT S) (t : ScaleTransformer S)
    (config : Searchable R) (h : t.Fit)
    (hdom : (config.find "dom").isInt = true →
      intToUnsigned (config.find "dom").asInt < 2147483648)
    (hcod : (config.find "cod").isInt = true →
      intToUnsigned (config.find "cod").asInt < 2147483648) :
    (t.configure factory config).2.Fit := by
  unfold ScaleTransformer.configure
  have h0 := configureSizes_fit factory t config h hdom hcod
  split
  · rename_i e t1 heq
    rw [heq] at h0
    exact h0
  · rename_i s0 t1 heq
    rw [heq] at h0
    have h1 := Fit.of_same_shape h0 (configureTypeList_shape factory config s0 t1)
    split
    · rename_i e t2 heq1
      rw [heq1] at h1
      exact h1
    · rename_i s1 t2 heq1
      rw [heq1] at h1
      have h2 := Fit.of_same_shape h1 (configureTypeGroup_shape factory config s1 t2)
      split
      · rename_i e t3 heq2
        rw [heq2] at h2
        exact h2
      · rename_i s2 t3 heq2
        rw [heq2] at h2
        exact Fit.of_same_shape h2 (configureConfigGroup_shape config s2 t3)

omit [LinearOrderedField R] [FloorRing R] in
theorem readLoop_shape [IScaler S R] (factory : FactoryT S) (is : List Nat)
    (t : ScaleTransformer S) (bot : Bottle R) :
    t.SameShape (ScaleTransformer.readLoop factory is t bot).2.1 := by
  induction is generalizing t bot with
  | nil => exact SameShape.refl t
  | cons i rest ih =>
    unfold ScaleTransformer.readLoop
    simp only
    have h := setAt_shape factory t i bot.pop.1.asString
    split
    · rename_i e t1 heq
      rw [heq] at h
      exact h
    · rename_i t1 heq
      rw [heq] at h
      split
      · exact h
      · exact h
      · exact SameShape.trans h (SameShape.trans (SameShape.set t1 _ _) (ih _ _))

theorem readBottle_fit [IScaler S R] (factory : FactoryT S) (t : ScaleTransformer S)
    (bot : Bottle R) (hcod : intToUnsigned bot.pop.1.asInt < 2147483648)
    (hdom : intToUnsigned bot.pop.2.pop.1.asInt < 2147483648) :
    (t.readBottle factory bot).2.1.Fit := by
  unfold ScaleTransformer.readBottle ScaleTransformer.setCoDomainSize
  simp only
  have h1 := setDomainSize_fit factory t _ hcod
  split
  · rename_i e t1 heq
    rw [heq] at h1
    exact h1
  · rename_i t1 heq
    have h2 := setDomainSize_fit factory t1 _ hdom
    split
    · rename_i e t2 heq2
      rw [heq2] at h2
      exact h2
    · rename_i t2 heq2
      rw [heq2] at h2
      exact Fit.of_same_shape h2 (readLoop_shape factory _ t2 _)

theorem call_fit [IScaler S R] (factory : FactoryT S) (t : ScaleTransformer S)
    (c : TransformerCall R) (h : t.Fit) (hc : c.InRange) : (t.call factory c).Fit := by
  cases c with
  | setDomainSize size => exact setDomainSize_fit factory t size hc
  | setCoDomainSize size => exact setDomainSize_fit factory t size hc
  | reset => exact reset_fit factory t h
  | setAt index type => exact Fit.of_same_shape h (setAt_shape factory t index type)
  | setAll type => exact Fit.of_same_shape h (setAll_shape factory t type)
  | configure config => exact configure_fit factory t config h hc.1 hc.2
  | readBottle bot => exact readBottle_fit factory t bot hc.1 hc.2

/-- In every state reached from the constructor by calls of `setDomainSize`,
`setCoDomainSize`, `reset`, `setAt`, `setAll`, `configure` and `readBottle`
that hand only sizes below 2^31 to the size setters, whether the calls return
or throw, the number of scaler slots is `domainSize`, and `domainSize` is
`codomainSize`. -/
theorem calls_fit [IScaler S R] (factory : FactoryT S) (t : ScaleTransformer S)
    (cs : List (TransformerCall R)) (h : t.Fit) (hcs : ∀ c ∈ cs, c.InRange) :
    (t.calls factory cs).Fit := by
  induction cs generalizing t with
  | nil => exact h
  | cons c cs ih =>
    exact ih _ (call_fit factory t c h (hcs c (List.mem_cons_self _ _)))
      (fun c1 hc1 => hcs c1 (List.mem_cons_of_mem _ hc1))

end Shape

/-- C14, the code at the failing input: from the transformer of three scalers,
`setDomainSize(3000000000)` sets both sizes and then throws in `deleteAll(int)`,
which receives the size as a negative `int`, after the scalers were deleted: the
state reached has no slot and both sizes 3000000000. `configure` with `dom -1`
reaches `setDomainSize(4294967295)` and ends the same way. In the states
reached by calls that hand only sizes below 2^31 to the size setters, the
number of slots is `domainSize` and `domainSize` is `codomainSize`. -/
theorem scaleTransformer_sizes :
    threeScalers = (ScaleTransformer.init scalerRegistry 3).2 ∧
    threeScalers.scalers.length = 3 ∧ threeScalers.domainSize = 3 ∧
    threeScalers.codomainSize = 3 ∧
    (threeScalers.setDomainSize scalerRegistry 3000000000).1 = .error .badLength ∧
    (threeScalers.calls scalerRegistry [.setDomainSize 3000000000]).scalers.length = 0 ∧
    (threeScalers.calls scalerRegistry [.setDomainSize 3000000000]).domainSize = 3000000000 ∧
    (threeScalers.calls scalerRegistry [.setDomainSize 3000000000]).codomainSize
      = 3000000000 ∧
    (threeScalers.configure scalerRegistry negativeDomConfig).1 = .error .badLength ∧
    (threeScalers.calls scalerRegistry [.configure negativeDomConfig]).scalers.length = 0 ∧
    (threeScalers.calls scalerRegistry [.configure negativeDomConfig]).domainSize
      = 4294967295 ∧
    (∀ (factory : FactoryT GainScaler) (dom : Nat) (cs : List (TransformerCall ℚ)),
      dom < 2147483648 → (∀ c ∈ cs, c.InRange) →
      ((ScaleTransformer.init factory dom).2.calls factory cs).scalers.length
        = ((ScaleTransformer.init factory dom).2.calls factory cs).domainSize ∧
      ((ScaleTransformer.init factory dom).2.calls factory cs).domainSize
        = ((ScaleTransformer.init factory dom).2.calls factory cs).codomainSize) := by
  refine ⟨rfl, rfl, rfl, rfl, ?_, ?_, ?_, ?_, ?_, ?_, ?_, ?_⟩
  · with_unfolding_all rfl
  · with_unfolding_all rfl
  · with_unfolding_all rfl
  · with_unfolding_all rfl
  · with_unfolding_all rfl
  · with_unfolding_all rfl
  · with_unfolding_all rfl
  · intro factory dom cs hdom hcs
    exact (calls_fit factory _ cs (setDomainSize_fit factory _ dom hdom) hcs).1

section Slots

variable {S R : Type} [LinearOrderedField R] [FloorRing R]

theorem setAt_of_registered [Prototype S] (factory : FactoryT S) (t : ScaleTransformer S)
    (i : Nat) (type : String) (p : S) (hp : factory.find type = some p)
    (hi : i < t.scalers.length) :
    t.setAt factory i type
      = (.ok (), { t with scalers := t.scalers.set i (some (Prototype.clone p)) }) := by
  unfold ScaleTransformer.setAt
  have h : (0 : Int) ≤ (i : Int) ∧ (i : Int) < (t.scalers.length : Int) := by
    constructor <;> omega
  rw [if_pos h, FactoryT.create_of_find_some factory type p hp]
  simp

theorem setAllLoop_of_registered [Prototype S] (factory : FactoryT S) (type : String) (p : S)
    (hp : factory.find type = some p) (base : IFixedSizeTransformer)
    (post : List (Option S)) (pre : List (Option S)) :
    ScaleTransformer.setAllLoop factory type (List.range' pre.length post.length)
        { toIFixedSizeTransformer := base, scalers := pre ++ post }
      = (.ok (), { toIFixedSizeTransformer := base,
                   scalers := pre ++ List.replicate post.length (some (Prototype.clone p)) }) := by
  induction post generalizing pre with
  | nil => simp [ScaleTransformer.setAllLoop]
  | cons a post ih =>
    have hlt : pre.length < (pre ++ a :: post).length := by simp
    simp only [List.length_cons, List.range'_succ, ScaleTransformer.setAllLoop]
    rw [setAt_of_registered factory _ pre.length type p hp hlt]
    simp only
    have hset : (pre ++ a :: post).set pre.length (some (Prototype.clone p))
        = (pre ++ [some (Prototype.clone p)]) ++ post := by
      simp [List.set_append]
    rw [hset]
    have := ih (pre ++ [some (Prototype.clone p)])
    simp only [List.length_append, List.length_singleton] at this
    rw [this]
    simp [List.replicate_succ]

theorem setAll_of_registered [Prototype S] (factory : FactoryT S) (type : String) (p : S)
    (hp : factory.find type = some p) (t : ScaleTransformer S) :
    t.setAll factory type
      = (.ok (), { t with scalers := List.replicate t.scalers.length (some (Prototype.clone p)) }) := by
  unfold ScaleTransformer.setAll
  have := setAllLoop_of_registered factory type p hp t.toIFixedSizeTransformer t.scalers []
  simp only [List.length_nil, List.nil_append] at this
  rw [List.range_eq_range']
  exact this

/-- C15, the code on both ranges of `k`: with a prototype registered as
`null`, `setDomainSize(k)`, and likewise `setCoDomainSize(k)`, for `k` below
2^31 returns and leaves `domainSize = codomainSize = k` and `k` slots, each a
clone of that prototype, whatever scalers and sizes the transformer had
before; for `k` from 2^31 on, which `deleteAll(int)` receives as a negative
`int`, it throws after both sizes were set to `k` and the scalers were deleted,
and leaves no slot. -/
theorem setDomainSize_rebuilds [Prototype S] (factory : FactoryT S) (t : ScaleTransformer S)
    (k : Nat) (p : S) (hp : factory.find "null" = some p) :
    (k < 2147483648 →
      t.setDomainSize factory k
        = (.ok (), { name := t.name, domainSize := k, codomainSize := k,
                     scalers := List.replicate k (some (Prototype.clone p)) }) ∧
      t.setCoDomainSize factory k
        = (.ok (), { name := t.name, domainSize := k, codomainSize := k,
                     scalers := List.replicate k (some (Prototype.clone p)) })) ∧
    (2147483648 ≤ k → k < 4294967296 →
      t.setDomainSize factory k
        = (.error .badLength, { name := t.name, domainSize := k, codomainSize := k,
                                scalers := [] }) ∧
      t.setCoDomainSize factory k
        = (.error .badLength, { name := t.name, domainSize := k, codomainSize := k,
                                scalers := [] })) := by
  constructor
  · intro hk
    have h : t.setDomainSize factory k
        = (.ok (), { name := t.name, domainSize := k, codomainSize := k,
                     scalers := List.replicate k (some (Prototype.clone p)) }) := by
      unfold ScaleTransformer.setDomainSize ScaleTransformer.reset ScaleTransformer.deleteAll
      simp only
      rw [unsignedToInt_of_lt k hk, if_neg (by omega), setAll_of_registered factory "null" p hp]
      simp
    exact ⟨h, h⟩
  · intro h1 h2
    have h : t.setDomainSize factory k
        = (.error .badLength, { name := t.name, domainSize := k, codomainSize := k,
                                scalers := [] }) := by
      unfold ScaleTransformer.setDomainSize ScaleTransformer.reset ScaleTransformer.deleteAll
      simp only
      rw [unsignedToInt_of_ge k h1 h2, if_pos (by omega)]
    exact ⟨h, h⟩

omit [LinearOrderedField R] [FloorRing R] in
theorem getD_append_length {α : Type} (pre l : List α) (a d : α) :
    (pre ++ a :: l).getD pre.length d = a := by
  induction pre with
  | nil => rfl
  | cons b pre ih => simpa using ih

omit [LinearOrderedField R] [FloorRing R] in
theorem set_append_length {α : Type} (pre l : List α) (a b : α) :
    (pre ++ a :: l).set pre.length b = pre ++ b :: l := by
  induction pre with
  | nil => rfl
  | cons c pre ih => simp [ih]

omit [FloorRing R] in
theorem transformLoop_eq [IScaler S R] (base : IFixedSizeTransformer) (post : List S)
    (pre : List (Option S)) (done rest tail : Vector R) (xs : Vector R)
    (hd : done.length = pre.length) (hr : rest.length = post.length)
    (hx : xs.length = post.length) (skipped : Vector R) (hs : skipped.length = pre.length) :
    ScaleTransformer.transformLoop (skipped ++ xs) (List.range' pre.length post.length)
        (done ++ rest ++ tail)
        { toIFixedSizeTransformer := base, scalers := pre ++ post.map some }
      = (.ok (done ++ List.zipWith (fun s x => (IScaler.transform s x).1) post xs ++ tail),
         { toIFixedSizeTransformer := base,
           scalers := pre ++ (List.zipWith (fun s x => (IScaler.transform s x).2) post xs).map
             some }) := by
  induction post generalizing pre done rest xs skipped with
  | nil =>
    have : rest = [] := List.length_eq_zero.1 hr
    subst this
    simp [ScaleTransformer.transformLoop]
  | cons a post ih =>
    cases xs with
    | nil => simp at hx
    | cons x xs =>
      cases rest with
      | nil => simp at hr
      | cons y rest =>
        simp only [List.length_cons, List.range'_succ, ScaleTransformer.transformLoop]
        have hget : ScaleTransformer.getAt
            ({ toIFixedSizeTransformer := base, scalers := pre ++ (a :: post).map some }
              : ScaleTransformer S) (pre.length : Int) = .ok (some a) := by
          unfold ScaleTransformer.getAt
          have hc : (0 : Int) ≤ (pre.length : Int) ∧
              (pre.length : Int) < ((pre ++ (a :: post).map some).length : Int) := by
            constructor
            · omega
            · simp
          rw [if_pos hc, Int.toNat_ofNat, List.map_cons, getD_append_length]
        rw [hget]
        simp only
        have hin : (skipped ++ x :: xs).getD pre.length 0 = x := by
          rw [← hs, getD_append_length]
        rw [hin]
        have hout : (done ++ y :: rest ++ tail).set pre.length (IScaler.transform a x).1
            = (done ++ [(IScaler.transform a x).1]) ++ rest ++ tail := by
          rw [← hd, List.append_assoc, List.cons_append, set_append_length]
          simp
        have hsc : (pre ++ (a :: post).map some).set pre.length
              (some (IScaler.transform a x).2)
            = (pre ++ [some (IScaler.transform a x).2]) ++ post.map some := by
          rw [List.map_cons, set_append_length]
          simp
        rw [hout, hsc]
        have hskip : skipped ++ x :: xs = (skipped ++ [x]) ++ xs := by simp
        rw [hskip]
        have := ih (pre ++ [some (IScaler.transform a x).2])
          (done ++ [(IScaler.transform a x).1]) rest xs
          (by simp [hd]) (by simpa using hr) (by simpa using hx) (skipped ++ [x])
          (by simp [hs])
        simp only [List.length_append, List.length_singleton] at this
        rw [this]
        simp

omit [FloorRing R] in
theorem transform_eq [IScaler S R] (t : ScaleTransformer S) (ss : List S) (input : Vector R)
    (hs : t.scalers = ss.map some) (hdom : t.domainSize = ss.length)
    (hcod : t.codomainSize = ss.length) (hin : input.length = ss.length) :
    t.transform input
      = (.ok (List.zipWith (fun s x => (IScaler.transform s x).1) ss input),
         { t with scalers :=
            (List.zipWith (fun s x => (IScaler.transform s x).2) ss input).map some }) := by
  obtain ⟨base, scalers⟩ := t
  simp only at hs hdom hcod
  subst hs
  unfold ScaleTransformer.transform IFixedSizeTransformer.transform
  have h1 : ¬ input.length ≠ base.domainSize := by rw [hdom, hin]; simp
  rw [if_neg h1]
  simp only
  have h2 : ¬ input.length ≠ (ss.map some).length := by simp [hin]
  have h3 : ¬ (zeros base.codomainSize : Vector R).length ≠ (ss.map some).length := by
    simp [zeros, hcod]
  rw [if_neg h2, if_neg h3]
  have hlen : (zeros base.codomainSize : Vector R).length = ss.length := by simp [zeros, hcod]
  rw [hlen, List.range_eq_range']
  have := transformLoop_eq base ss [] [] (zeros base.codomainSize) [] input rfl hlen hin [] rfl
  simpa using this

omit [FloorRing R] in
/-- C16: when every slot holds a scaler and the sizes are the scaler count
`k`, `transform` of an input of length `k` returns a vector of length `k` whose
component `i` is `scalers[i].transform(input[i])`, so that two inputs with the
same component `i` give the same component `i`; an input of another length
gives no result, in every state. -/
theorem transform_componentwise [IScaler S R] (t : ScaleTransformer S) (input : Vector R) :
    (∀ ss : List S, t.scalers = ss.map some → t.domainSize = ss.length →
      t.codomainSize = ss.length → input.length = ss.length →
      ∃ output : Vector R, (t.transform input).1 = .ok output ∧
        output.length = ss.length ∧
        (∀ (i : Nat) (hi : i < ss.length) (hx : i < input.length),
          output[i]? = some (IScaler.transform ss[i] input[i]).1) ∧
        (∀ (other : Vector R), other.length = ss.length →
          ∃ output2 : Vector R, (t.transform other).1 = .ok output2 ∧
            ∀ i : Nat, other[i]? = input[i]? → output2[i]? = output[i]?)) ∧
    (input.length ≠ t.scalers.length → ∃ e, (t.transform input).1 = .error e) := by
  constructor
  · intro ss hs hdom hcod hin
    refine ⟨_, by rw [transform_eq t ss input hs hdom hcod hin], ?_, ?_, ?_⟩
    · simp [hin]
    · intro i hi hx
      simp [List.getElem?_zipWith, List.getElem?_eq_getElem hi, List.getElem?_eq_getElem hx]
    · intro other ho
      refine ⟨_, by rw [transform_eq t ss other hs hdom hcod ho], ?_⟩
      intro i hi
      simp only [List.getElem?_zipWith, hi]
  · intro hne
    unfold ScaleTransformer.transform IFixedSizeTransformer.transform
    by_cases h1 : input.length ≠ t.domainSize
    · rw [if_pos h1]
      exact ⟨_, rfl⟩
    · rw [if_neg h1]
      simp only
      rw [if_pos hne]
      exact ⟨_, rfl⟩

/-- C17: for a configuration that holds the group `config idx key value`
and no `dom`, `cod` or `type`, with `1 <= idx <= k` and a scaler `s` in slot
`idx - 1`, `configure` returns the flag of `s.configure` on the property
`(key value)`, and leaves that scaler, so configured, in slot `idx - 1`; every
other slot, the number of slots, both sizes and the name are unchanged, and no
slot is created anew. -/
theorem configure_config_index [IScaler S R] (factory : FactoryT S) (t : ScaleTransformer S)
    (config : Searchable R) (idx : Int) (key : String) (value : Value R) (s : S)
    (hdom : (config.find "dom").isInt = false) (hcod : (config.find "cod").isInt = false)
    (htype : (config.find "type").isList = false) (hgroup : config.findGroup "type" = none)
    (hconfig : config.findGroup "config"
      = some ⟨[value, .string key, .int idx, .string "config"]⟩)
    (h1 : 1 ≤ idx) (hk : idx ≤ t.scalers.length)
    (hslot : t.scalers[(idx - 1).toNat]? = some (some s)) :
    t.configure factory config
      = (.ok (IScaler.configure s ⟨[value, .string key]⟩).1,
         { t with scalers :=
              t.scalers.set (idx - 1).toNat (some (IScaler.configure s ⟨[value, .string key]⟩).2) }) ∧
    (∀ j : Nat, j ≠ (idx - 1).toNat →
      (t.configure factory config).2.scalers[j]? = t.scalers[j]?) ∧
    (t.configure factory config).2.scalers[(idx - 1).toNat]?
      = some (some (IScaler.configure s ⟨[value, .string key]⟩).2) ∧
    (t.configure factory config).2.scalers.length = t.scalers.length ∧
    (t.configure factory config).2.domainSize = t.domainSize ∧
    (t.configure factory config).2.codomainSize = t.codomainSize ∧
    (t.configure factory config).2.name = t.name := by
  have hlt : (idx - 1).toNat < t.scalers.length := by omega
  have hmain : t.configure factory config
      = (.ok (IScaler.configure s ⟨[value, .string key]⟩).1,
         { t with scalers :=
              t.scalers.set (idx - 1).toNat (some (IScaler.configure s ⟨[value, .string key]⟩).2) }) := by
    have h0 : t.configureSizes factory config = (.ok false, t) := by
      simp [ScaleTransformer.configureSizes, hdom, hcod]
    have hl : ScaleTransformer.configureTypeList factory config false t = (.ok false, t) := by
      unfold ScaleTransformer.configureTypeList
      cases hf : config.find "type" with
      | value v => rfl
      | list b => rw [hf] at htype; simp [Entry.isList] at htype
    have hg : ScaleTransformer.configureTypeGroup factory config false t = (.ok false, t) := by
      simp [ScaleTransformer.configureTypeGroup, hgroup]
    have hget : t.getAt (idx - 1) = .ok (some s) := by
      unfold ScaleTransformer.getAt
      have hc : 0 ≤ idx - 1 ∧ idx - 1 < (t.scalers.length : Int) := by
        constructor <;> omega
      rw [if_pos hc, List.getD_eq_getElem?_getD, hslot]
      rfl
    have hc : ScaleTransformer.configureConfigGroup config false t
        = (.ok (IScaler.configure s ⟨[value, .string key]⟩).1,
           { t with scalers :=
              t.scalers.set (idx - 1).toNat (some (IScaler.configure s ⟨[value, .string key]⟩).2) }) := by
      unfold ScaleTransformer.configureConfigGroup
      rw [hconfig]
      have e0 : (Bottle.tail (⟨[value, .string key, .int idx, .string "config"]⟩ : Bottle R)).get 0
          = .int idx := rfl
      have e1 : (Bottle.tail (Bottle.tail
          (⟨[value, .string key, .int idx, .string "config"]⟩ : Bottle R)))
          = ⟨[value, .string key]⟩ := rfl
      simp only [e0, e1, Value.isInt, if_true, Value.asInt, ScaleTransformer.configureAt, hget]
    unfold ScaleTransformer.configure
    rw [h0]
    simp only
    rw [hl]
    simp only
    rw [hg]
    simp only
    exact hc
  refine ⟨hmain, ?_, ?_, ?_, ?_, ?_, ?_⟩
  · intro j hj
    rw [hmain]
    simp only
    rw [List.getElem?_set_ne (Ne.symm hj)]
  · rw [hmain]
    simp only
    rw [List.getElem?_set_self hlt]
  · rw [hmain]; simp
  · rw [hmain]
  · rw [hmain]
  · rw [hmain]

/-- Witness of C15: the configured transformer is rebuilt at its own size 3,
and is left without scalers by `setDomainSize(3000000000)`. -/
theorem setDomainSize_rebuilds_witness :
    (configured.setDomainSize scalerRegistry 3
        = (.ok (), { name := configured.name, domainSize := 3, codomainSize := 3,
                     scalers := List.replicate 3 (some (Prototype.clone nullScaler)) }) ∧
      configured.setCoDomainSize scalerRegistry 3
        = (.ok (), { name := configured.name, domainSize := 3, codomainSize := 3,
                     scalers := List.replicate 3 (some (Prototype.clone nullScaler)) })) ∧
    (configured.setDomainSize scalerRegistry 3000000000
        = (.error .badLength, { name := configured.name, domainSize := 3000000000,
                                codomainSize := 3000000000, scalers := [] }) ∧
      configured.setCoDomainSize scalerRegistry 3000000000
        = (.error .badLength, { name := configured.name, domainSize := 3000000000,
                                codomainSize := 3000000000, scalers := [] })) :=
  ⟨(setDomainSize_rebuilds scalerRegistry configured 3 nullScaler rfl).1 (by decide),
   (setDomainSize_rebuilds scalerRegistry configured 3000000000 nullScaler rfl).2
     (by decide) (by decide)⟩

/-- Witness of C16: the configured transformer, whose first scaler has gain
2.5, on the input `[1, 2, 3]`, and on an input of length 2. -/
theorem transform_componentwise_witness :
    (∃ output : Vector ℚ, (configured.transform [1, 2, 3]).1 = .ok output ∧
      output.length = [(⟨"null", 5 / 2⟩ : GainScaler), nullScaler, nullScaler].length ∧
      (∀ (i : Nat) (_ : i < [(⟨"null", 5 / 2⟩ : GainScaler), nullScaler, nullScaler].length)
          (hx : i < ([1, 2, 3] : Vector ℚ).length),
        output[i]? = some (IScaler.transform
          ([(⟨"null", 5 / 2⟩ : GainScaler), nullScaler, nullScaler][i]) (([1, 2, 3] : Vector ℚ)[i])).1) ∧
      (∀ (other : Vector ℚ),
        other.length = [(⟨"null", 5 / 2⟩ : GainScaler), nullScaler, nullScaler].length →
        ∃ output2 : Vector ℚ, (configured.transform other).1 = .ok output2 ∧
          ∀ i : Nat, other[i]? = ([1, 2, 3] : Vector ℚ)[i]? → output2[i]? = output[i]?)) ∧
    (∃ e, (configured.transform [1, 2]).1 = .error e) :=
  ⟨(transform_componentwise configured [1, 2, 3]).1
      [⟨"null", 5 / 2⟩, nullScaler, nullScaler] (by with_unfolding_all rfl) rfl rfl rfl,
   (transform_componentwise configured [1, 2]).2 (by decide)⟩

/-- Witness of C17: on the three scalers, `config 1 gain 2.5` changes the
scaler in slot 0 and nothing else. -/
theorem configure_config_index_witness :
    threeScalers.configure scalerRegistry gainConfig
      = (.ok true, { threeScalers with
          scalers := [some ⟨"null", 5 / 2⟩, some nullScaler, some nullScaler] }) :=
  ((configure_config_index scalerRegistry threeScalers gainConfig 1 "gain" (.double (5 / 2))
    nullScaler rfl rfl rfl rfl rfl (by decide) (by decide) (by rfl)).1).trans
    (by with_unfolding_all rfl)

end Slots

/-! ## The codec of the sizes and `setWrapped` by name -/

section Codec

variable {R : Type} [LinearOrderedField R] [FloorRing R]

/-- C24: `writeBottle` of the fixed-size base adds `domainSize` and then
`codomainSize`, each converted to `int`: the size itself when it is below 2^31,
and 2^32 less from there on. `readBottle` takes the value added last as
`codomainSize` and the one before it as `domainSize`, each converted to
`unsigned int`: the integer itself when it is not negative, and 2^32 more when
it is. So `readBottle` after `writeBottle` restores both sizes in any learner
and leaves the bottle as it was before the write. -/
theorem sizes_writeBottle_readBottle (l l2 : IFixedSizeLearner) (bot : Bottle R) :
    (l.writeBottle bot).items
      = .int (unsignedToInt l.codomainSize) :: .int (unsignedToInt l.domainSize) :: bot.items ∧
    (∀ n : Nat, n < 2147483648 → unsignedToInt n = (n : Int)) ∧
    (∀ n : Nat, 2147483648 ≤ n → n < 4294967296 → unsignedToInt n = (n : Int) - 4294967296) ∧
    (l.domainSize < 2147483648 → l.codomainSize < 2147483648 →
      (l.writeBottle bot).items = .int l.codomainSize :: .int l.domainSize :: bot.items) ∧
    (∀ (a b : Value R) (rest : List (Value R)),
      l2.readBottle (⟨a :: b :: rest⟩ : Bottle R)
        = ({ l2 with codomainSize := intToUnsigned a.asInt,
                     domainSize := intToUnsigned b.asInt }, ⟨rest⟩)) ∧
    (∀ i : Int, 0 ≤ i → intToUnsigned i = i.toNat) ∧
    (∀ i : Int, -2147483648 ≤ i → i < 0 → (intToUnsigned i : Int) = i + 4294967296) ∧
    l2.readBottle (l.writeBottle bot)
      = ({ l2 with domainSize := l.domainSize, codomainSize := l.codomainSize }, bot) ∧
    (l2.readBottle (l.writeBottle bot)).1.domainSize = l.domainSize ∧
    (l2.readBottle (l.writeBottle bot)).1.codomainSize = l.codomainSize ∧
    (l2.readBottle (l.writeBottle bot)).2 = bot := by
  have h : l2.readBottle (l.writeBottle bot)
      = ({ l2 with domainSize := l.domainSize, codomainSize := l.codomainSize }, bot) := by
    simp [IFixedSizeLearner.readBottle, IFixedSizeLearner.writeBottle, Bottle.addInt, Bottle.pop,
      Value.asInt, IFixedSizeLearner.setDomainSize, IFixedSizeLearner.setCoDomainSize,
      intToUnsigned_unsignedToInt]
  refine ⟨rfl, unsignedToInt_of_lt, unsignedToInt_of_ge, ?_, fun a b rest => rfl, ?_, ?_, h,
    ?_, ?_, ?_⟩
  · intro hd hc
    show (Value.int (unsignedToInt l.codomainSize) :: Value.int (unsignedToInt l.domainSize)
      :: bot.items : List (Value R)) = _
    rw [unsignedToInt_of_lt _ hd, unsignedToInt_of_lt _ hc]
  · intro i hi
    unfold intToUnsigned
    rw [if_neg (by omega)]
  · intro i h1 h2
    unfold intToUnsigned
    rw [if_pos h2]
    omega
  · rw [h]
  · rw [h]
  · rw [h]

/-- Witness of C24: a learner of sizes 3000000000 and 2 writes the integers
-1294967296 and 2; the integers -1 and 5 are read as the sizes 4294967295 and
5; and what the first learner writes is read back as its sizes. -/
theorem sizes_writeBottle_readBottle_witness :
    (IFixedSizeLearner.writeBottle ⟨⟨"LSSVM"⟩, 3000000000, 2⟩ (⟨[.int 9]⟩ : Bottle ℚ)).items
      = [.int 2, .int (-1294967296), .int 9] ∧
    IFixedSizeLearner.readBottle ⟨⟨"LSSVM"⟩, 1, 1⟩ (⟨[.int (-1), .int 5, .int 9]⟩ : Bottle ℚ)
      = (⟨⟨"LSSVM"⟩, 5, 4294967295⟩, ⟨[.int 9]⟩) ∧
    IFixedSizeLearner.readBottle ⟨⟨"LSSVM"⟩, 1, 1⟩
        (IFixedSizeLearner.writeBottle ⟨⟨"LSSVM"⟩, 3000000000, 2⟩ (⟨[.int 9]⟩ : Bottle ℚ))
      = (⟨⟨"LSSVM"⟩, 3000000000, 2⟩, ⟨[.int 9]⟩) :=
  ⟨(sizes_writeBottle_readBottle ⟨⟨"LSSVM"⟩, 3000000000, 2⟩ ⟨⟨"LSSVM"⟩, 1, 1⟩ ⟨[.int 9]⟩).1,
   (sizes_writeBottle_readBottle ⟨⟨"LSSVM"⟩, 3000000000, 2⟩ ⟨⟨"LSSVM"⟩, 1, 1⟩
      (⟨[.int 9]⟩ : Bottle ℚ)).2.2.2.2.1 (.int (-1)) (.int 5) [.int 9],
   (sizes_writeBottle_readBottle ⟨⟨"LSSVM"⟩, 3000000000, 2⟩ ⟨⟨"LSSVM"⟩, 1, 1⟩
      ⟨[.int 9]⟩).2.2.2.2.2.2.2.1⟩

end Codec

section Wrapper

variable {T : Type}

/-- C30: `setWrapped(name, wipe)` with the name of a registered prototype
leaves the wrapper with a clone of that prototype; with a name that is not
registered it fails with the unknown-key error of the registry, and the wrapper
is then empty when `wipe` is true and is the wrapper before the call when
`wipe` is false. -/
theorem setWrappedName_contract [Prototype T] (factory : FactoryT T) (p : PortableT T)
    (name : String) (wipe : Bool) :
    (∀ prototype, factory.find name = some prototype →
      p.setWrappedName factory name wipe = (.ok (), ⟨some (Prototype.clone prototype)⟩)) ∧
    (factory.find name = none →
      (p.setWrappedName factory name wipe).1 = .error (.unknownKey name) ∧
      (wipe = true → (p.setWrappedName factory name wipe).2 = ⟨none⟩) ∧
      (wipe = false → (p.setWrappedName factory name wipe).2 = p)) := by
  constructor
  · intro prototype h
    unfold PortableT.setWrappedName
    rw [FactoryT.create_of_find_some factory name prototype h]
  · intro h
    unfold PortableT.setWrappedName
    rw [FactoryT.create_of_find_none factory name h]
    refine ⟨rfl, ?_, ?_⟩
    · intro hw
      subst hw
      cases hp : p.wrapped with
      | none =>
        cases p
        simp only at hp
        subst hp
        rfl
      | some w => simp [PortableT.wipeWrapped, PortableT.hasWrapped, hp]
    · intro hw
      subst hw
      simp [PortableT.wipeWrapped]

end Wrapper

/-- Witness of C30: a wrapper that holds `trained`, on the registry `machines`
in which `LSSVM` is registered and `RLS` is not. -/
theorem setWrappedName_contract_witness :
    (⟨some trained⟩ : PortableT (LSSVMLearner ℚ)).setWrappedName machines "LSSVM" true
      = (.ok (), ⟨some (Prototype.clone lssvm)⟩) ∧
    ((⟨some trained⟩ : PortableT (LSSVMLearner ℚ)).setWrappedName machines "RLS" true).1
      = .error (.unknownKey "RLS") ∧
    ((⟨some trained⟩ : PortableT (LSSVMLearner ℚ)).setWrappedName machines "RLS" true).2
      = ⟨none⟩ ∧
    ((⟨some trained⟩ : PortableT (LSSVMLearner ℚ)).setWrappedName machines "RLS" false).2
      = ⟨some trained⟩ :=
  ⟨(setWrappedName_contract machines ⟨some trained⟩ "LSSVM" true).1 lssvm rfl,
   ((setWrappedName_contract machines ⟨some trained⟩ "RLS" true).2 rfl).1,
   ((setWrappedName_contract machines ⟨some trained⟩ "RLS" true).2 rfl).2.1 rfl,
   ((setWrappedName_contract machines ⟨some trained⟩ "RLS" false).2 rfl).2.2 rfl⟩

/-! ## The kernel -/

section Kernel

variable {R : Type} [LinearOrderedField R] [FloorRing R]

omit [FloorRing R] in
theorem foldl_add_eq_sum (n : Nat) (f : Nat → R) :
    ((List.range n).map f).foldl (· + ·) 0 = ∑ i ∈ Finset.range n, f i := by
  induction n with
  | zero => rfl
  | succ n ih =>
    rw [List.range_succ, List.map_append, List.foldl_append, ih, Finset.sum_range_succ]
    rfl

omit [LinearOrderedField R] [FloorRing R] in
theorem zipWith_eq_map_range {β : Type} (f : R → R → β) (v1 v2 : List R) (d : R)
    (h : v1.length = v2.length) :
    List.zipWith f v1 v2 = (List.range v1.length).map (fun i => f (v1.getD i d) (v2.getD i d)) := by
  apply List.ext_getElem
  · simp [h]
  · intro i h1 h2
    simp only [List.length_zipWith, lt_min_iff] at h1
    simp [List.getD_eq_getElem?_getD, h1.1, h1.2]

omit [FloorRing R] in
theorem RBFKernel.value_eq (kernel : RBFKernel R) (exp : R → R) (v1 v2 : Vector R)
    (h : v1.length = v2.length) :
    kernel.value exp v1 v2
      = exp (-kernel.gamma * ∑ i ∈ Finset.range v1.length, (v1.getD i 0 - v2.getD i 0) ^ 2) := by
  unfold RBFKernel.value RBFKernel.evaluate
  rw [if_neg (not_not.2 h)]
  simp only
  rw [zipWith_eq_map_range _ v1 v2 0 h, foldl_add_eq_sum]
  congr 1
  have : ∀ i, (v1.getD i 0 - v2.getD i 0) * (v1.getD i 0 - v2.getD i 0)
      = (v1.getD i 0 - v2.getD i 0) ^ 2 := fun i => by ring
  simp only [this]
  ring

omit [FloorRing R] in
/-- C23: on two vectors of one length `evaluate` returns
`exp(-gamma * sum_i (v1[i] - v2[i])^2)`; it gives the same outcome when its
arguments are exchanged; and `evaluate(v, v)` is 1 for every `v`, the
exponential of 0 being 1. -/
theorem evaluate_rbf (kernel : RBFKernel R) (exp : R → R) (v1 v2 : Vector R) :
    (v1.length = v2.length →
      kernel.evaluate exp v1 v2
        = .ok (exp (-kernel.gamma
            * ∑ i ∈ Finset.range v1.length, (v1.getD i 0 - v2.getD i 0) ^ 2))) ∧
    kernel.evaluate exp v1 v2 = kernel.evaluate exp v2 v1 ∧
    (exp 0 = 1 → kernel.evaluate exp v1 v1 = .ok 1) := by
  refine ⟨?_, ?_, ?_⟩
  · intro h
    rw [RBFKernel.evaluate_ok kernel exp v1 v2 h, RBFKernel.value_eq kernel exp v1 v2 h]
  · by_cases h : v1.length = v2.length
    · rw [RBFKernel.evaluate_ok kernel exp v1 v2 h, RBFKernel.evaluate_ok kernel exp v2 v1 h.symm,
        RBFKernel.value_comm]
    · have h2 : ¬ v2.length = v1.length := fun e => h e.symm
      unfold RBFKernel.evaluate
      rw [if_pos h, if_pos h2]
  · intro h0
    rw [RBFKernel.evaluate_ok kernel exp v1 v1 rfl, RBFKernel.value_eq kernel exp v1 v1 rfl]
    simp [h0]

/-- Witness of C23: the kernel of gamma 2 on `[1, 2]` and itself, and on
`[1, 2]` and `[0, 2]`. -/
theorem evaluate_rbf_witness :
    (⟨2⟩ : RBFKernel ℚ).evaluate rationalNumerics.exp [1, 2] [1, 2] = .ok 1 ∧
    (⟨2⟩ : RBFKernel ℚ).evaluate rationalNumerics.exp [1, 2] [0, 2]
      = .ok (rationalNumerics.exp (-2 * ∑ i ∈ Finset.range 2,
          (([1, 2] : Vector ℚ).getD i 0 - ([0, 2] : Vector ℚ).getD i 0) ^ 2)) :=
  ⟨(evaluate_rbf ⟨2⟩ rationalNumerics.exp [1, 2] [1, 2]).2.2 (by simp [rationalNumerics]),
   (evaluate_rbf ⟨2⟩ rationalNumerics.exp [1, 2] [0, 2]).1 rfl⟩

end Kernel

/-! ## Index bounds of the scale transformer -/

section Bounds

variable {S R : Type} [LinearOrderedField R] [FloorRing R]

/-- C25: `getAt(i)` fails, with the out-of-bounds error, exactly when `i < 0`
or `i` is at least the scaler count, and returns the slot otherwise; so does
`setAt(i, type)` for a registered `type`. `configure` with the group
`type idx name`, and with the group `config idx key value`, for an `idx`
outside `1 .. k`, ends in that error and leaves the transformer as it was. -/
theorem scaler_index_bounds [IScaler S R] (factory : FactoryT S) (t : ScaleTransformer S) :
    (∀ i : Int,
      (t.getAt i = .error .scalerIndex ↔ (i < 0 ∨ (t.scalers.length : Int) ≤ i)) ∧
      ((0 ≤ i ∧ i < (t.scalers.length : Int)) → t.getAt i = .ok (t.scalers.getD i.toNat none))) ∧
    (∀ (i : Int) (type : String) (p : S), factory.find type = some p →
      ((t.setAt factory i type).1 = .error .scalerIndex
        ↔ (i < 0 ∨ (t.scalers.length : Int) ≤ i)) ∧
      ((0 ≤ i ∧ i < (t.scalers.length : Int)) → (t.setAt factory i type).1 = .ok ())) ∧
    (∀ (config : Searchable R) (idx : Int) (name : String),
      (config.find "dom").isInt = false → (config.find "cod").isInt = false →
      (config.find "type").isList = false →
      config.findGroup "type" = some ⟨[.string name, .int idx, .string "type"]⟩ →
      (idx < 1 ∨ (t.scalers.length : Int) < idx) →
      t.configure factory config = (.error .scalerIndex, t)) ∧
    (∀ (config : Searchable R) (idx : Int) (key : String) (value : Value R),
      (config.find "dom").isInt = false → (config.find "cod").isInt = false →
      (config.find "type").isList = false → config.findGroup "type" = none →
      config.findGroup "config" = some ⟨[value, .string key, .int idx, .string "config"]⟩ →
      (idx < 1 ∨ (t.scalers.length : Int) < idx) →
      t.configure factory config = (.error .scalerIndex, t)) := by
  have hsizes : ∀ config : Searchable R, (config.find "dom").isInt = false →
      (config.find "cod").isInt = false → t.configureSizes factory config = (.ok false, t) := by
    intro config hdom hcod
    simp [ScaleTransformer.configureSizes, hdom, hcod]
  have hlist : ∀ config : Searchable R, (config.find "type").isList = false →
      ScaleTransformer.configureTypeList factory config false t = (.ok false, t) := by
    intro config htype
    unfold ScaleTransformer.configureTypeList
    cases hf : config.find "type" with
    | value v => rfl
    | list b => rw [hf] at htype; simp [Entry.isList] at htype
  refine ⟨?_, ?_, ?_, ?_⟩
  · intro i
    constructor
    · constructor
      · intro h
        by_contra hc
        have hin : 0 ≤ i ∧ i < (t.scalers.length : Int) := by omega
        unfold ScaleTransformer.getAt at h
        rw [if_pos hin] at h
        cases h
      · intro h
        have hout : ¬ (0 ≤ i ∧ i < (t.scalers.length : Int)) := by omega
        unfold ScaleTransformer.getAt
        rw [if_neg hout]
    · intro hin
      unfold ScaleTransformer.getAt
      rw [if_pos hin]
  · intro i type p hp
    have hcreate := FactoryT.create_of_find_some factory type p hp
    constructor
    · constructor
      · intro h
        by_contra hc
        have hin : 0 ≤ i ∧ i < (t.scalers.length : Int) := by omega
        unfold ScaleTransformer.setAt at h
        rw [if_pos hin, hcreate] at h
        cases h
      · intro h
        have hout : ¬ (0 ≤ i ∧ i < (t.scalers.length : Int)) := by omega
        unfold ScaleTransformer.setAt
        rw [if_neg hout]
    · intro hin
      unfold ScaleTransformer.setAt
      rw [if_pos hin, hcreate]
  · intro config idx name hdom hcod htype hgroup hidx
    have hout : ¬ (0 ≤ idx - 1 ∧ idx - 1 < (t.scalers.length : Int)) := by omega
    have hset : t.setAt factory (idx - 1) name = (.error .scalerIndex, t) := by
      unfold ScaleTransformer.setAt
      rw [if_neg hout]
    have hg : ScaleTransformer.configureTypeGroup factory config false t
        = (.error .scalerIndex, t) := by
      unfold ScaleTransformer.configureTypeGroup
      rw [hgroup]
      have e0 : (Bottle.tail (⟨[.string name, .int idx, .string "type"]⟩ : Bottle R)).get 0
          = .int idx := rfl
      have e1 : (Bottle.tail (⟨[.string name, .int idx, .string "type"]⟩ : Bottle R)).get 1
          = .string name := rfl
      simp only [e0, e1, Value.isInt, Value.isString, Bool.and_self, if_true, Value.asInt,
        Value.asString, hset]
    unfold ScaleTransformer.configure
    rw [hsizes config hdom hcod]
    simp only
    rw [hlist config htype]
    simp only
    rw [hg]
  · intro config idx key value hdom hcod htype hgroup hconfig hidx
    have hout : ¬ (0 ≤ idx - 1 ∧ idx - 1 < (t.scalers.length : Int)) := by omega
    have hget : t.getAt (idx - 1) = .error .scalerIndex := by
      unfold ScaleTransformer.getAt
      rw [if_neg hout]
    have hg : ScaleTransformer.configureTypeGroup factory config false t = (.ok false, t) := by
      simp [ScaleTransformer.configureTypeGroup, hgroup]
    have hc : ScaleTransformer.configureConfigGroup config false t
        = (.error .scalerIndex, t) := by
      unfold ScaleTransformer.configureConfigGroup
      rw [hconfig]
      have e0 : (Bottle.tail (⟨[value, .string key, .int idx, .string "config"]⟩ : Bottle R)).get 0
          = .int idx := rfl
      simp only [e0, Value.isInt, if_true, Value.asInt, ScaleTransformer.configureAt, hget]
    unfold ScaleTransformer.configure
    rw [hsizes config hdom hcod]
    simp only
    rw [hlist config htype]
    simp only
    rw [hg]
    simp only
    exact hc

end Bounds

/-- Witness of C25: the transformer of three scalers at the indices 3, -1 and
2, and `configure` with `type 4 double` and with `config 0 gain 2.5`. -/
theorem scaler_index_bounds_witness :
    threeScalers.getAt 3 = .error .scalerIndex ∧
    threeScalers.getAt (-1) = .error .scalerIndex ∧
    threeScalers.getAt 2 = .ok (some nullScaler) ∧
    (threeScalers.setAt scalerRegistry 3 "double").1 = .error .scalerIndex ∧
    (threeScalers.setAt scalerRegistry 2 "double").1 = .ok () ∧
    threeScalers.configure scalerRegistry typeFourConfig = (.error .scalerIndex, threeScalers) ∧
    threeScalers.configure scalerRegistry zeroIndexConfig = (.error .scalerIndex, threeScalers) :=
  ⟨((scaler_index_bounds scalerRegistry threeScalers).1 3).1.2 (Or.inr (by decide)),
   ((scaler_index_bounds scalerRegistry threeScalers).1 (-1)).1.2 (Or.inl (by decide)),
   ((scaler_index_bounds scalerRegistry threeScalers).1 2).2 ⟨by decide, by decide⟩,
   ((scaler_index_bounds scalerRegistry threeScalers).2.1 3 "double" doubleScaler rfl).1.2
     (Or.inr (by decide)),
   ((scaler_index_bounds scalerRegistry threeScalers).2.1 2 "double" doubleScaler rfl).2
     ⟨by decide, by decide⟩,
   (scaler_index_bounds scalerRegistry threeScalers).2.2.1 typeFourConfig 4 "double" rfl rfl rfl rfl
     (Or.inr (by decide)),
   (scaler_index_bounds scalerRegistry threeScalers).2.2.2 zeroIndexConfig 0 "gain" (.double (5 / 2))
     rfl rfl rfl rfl rfl (Or.inl (by decide))⟩

/-! ## The leave-one-out error, the prediction and the solved system -/

section LeaveOneOut

variable {R : Type} [LinearOrderedField R] [FloorRing R]

omit [FloorRing R] in
theorem product_ok (nm : Numerics R) (L : LSSVMLearner R)
    (hlen : L.inputs.length = L.outputs.length)
    (hrows : (nm.luinv (augmentedKernel nm L)).rows = L.inputs.length + 1)
    (hcols : (nm.luinv (augmentedKernel nm L)).cols = L.inputs.length + 1) :
    Matrix.mul (nm.luinv (augmentedKernel nm L)) (stackedOutputs L)
      = .ok (Matrix.ofFn (L.inputs.length + 1) L.codomainSize (fun r c =>
          ∑ k ∈ Finset.range (L.inputs.length + 1),
            (nm.luinv (augmentedKernel nm L)).get r k * (stackedOutputs L).get k c)) := by
  have hY : (stackedOutputs L).rows = L.inputs.length + 1 := by
    rw [hlen]; rfl
  have hcond : (nm.luinv (augmentedKernel nm L)).cols = (stackedOutputs L).rows := by
    rw [hcols, hY]
  unfold Matrix.mul
  rw [if_pos hcond, hrows]
  congr 1
  have hc : (stackedOutputs L).cols = L.codomainSize := rfl
  rw [hc]
  apply Matrix.ofFn_congr
  intro r c _ _
  rw [foldl_add_eq_sum, hcols]

omit [FloorRing R] in
theorem train_ok (nm : Numerics R) (L : LSSVMLearner R)
    (hn : L.inputs ≠ []) (hlen : L.inputs.length = L.outputs.length)
    (hin : ∀ v ∈ L.inputs, v.length = L.domainSize)
    (hout : ∀ v ∈ L.outputs, v.length = L.codomainSize)
    (hrows : (nm.luinv (augmentedKernel nm L)).rows = L.inputs.length + 1)
    (hcols : (nm.luinv (augmentedKernel nm L)).cols = L.inputs.length + 1) :
    ∃ T : LSSVMLearner R, L.train nm = .ok T ∧
      T.toIFixedSizeLearner = L.toIFixedSizeLearner ∧
      T.inputs = L.inputs ∧ T.outputs = L.outputs ∧ T.C = L.C ∧ T.kernel = L.kernel ∧
      T.alphas.rows = L.inputs.length ∧ T.alphas.cols = L.codomainSize ∧
      T.bias.length = L.codomainSize ∧
      T.LOO = LSSVMLearner.looOf L.codomainSize T.alphas (nm.luinv (augmentedKernel nm L)) ∧
      (∀ i c, i < L.inputs.length → c < L.codomainSize →
        T.alphas.get i c = ∑ k ∈ Finset.range (L.inputs.length + 1),
          (nm.luinv (augmentedKernel nm L)).get i k * (stackedOutputs L).get k c) ∧
      (∀ c, c < L.codomainSize →
        T.bias.getD c 0 = ∑ k ∈ Finset.range (L.inputs.length + 1),
          (nm.luinv (augmentedKernel nm L)).get L.inputs.length k
            * (stackedOutputs L).get k c) := by
  obtain ⟨P, hP, hPr, hPc, hPget⟩ : ∃ P : Matrix R,
      Matrix.mul (nm.luinv (augmentedKernel nm L)) (stackedOutputs L) = .ok P ∧
      P.rows = L.inputs.length + 1 ∧ P.cols = L.codomainSize ∧
      ∀ r c, r < L.inputs.length + 1 → c < L.codomainSize →
        P.get r c = ∑ k ∈ Finset.range (L.inputs.length + 1),
          (nm.luinv (augmentedKernel nm L)).get r k * (stackedOutputs L).get k c :=
    ⟨_, product_ok nm L hlen hrows hcols, rfl, rfl,
      fun r c hr hc => Matrix.get_ofFn _ _ _ r c hr hc⟩
  have hsub : P.rows - 1 = L.inputs.length := by omega
  refine ⟨{ L with
      alphas := P.topRows (P.rows - 1), bias := P.getRow (P.rows - 1),
      LOO := LSSVMLearner.looOf L.codomainSize (P.topRows (P.rows - 1))
        (nm.luinv (augmentedKernel nm L)) }, ?_, rfl, rfl, rfl, rfl, rfl, ?_, ?_, ?_, rfl, ?_, ?_⟩
  · rw [train_eq_of_sizes nm L hn hlen hin hout, hP]
    rfl
  · show P.rows - 1 = L.inputs.length
    exact hsub
  · show P.cols = L.codomainSize
    exact hPc
  · show (P.getRow (P.rows - 1)).length = L.codomainSize
    simp [Matrix.getRow, hPc]
  · intro i c hi hc
    show (P.topRows (P.rows - 1)).get i c = _
    unfold Matrix.topRows
    rw [Matrix.get_ofFn _ _ _ _ _ (by omega) (by omega), hPget i c (by omega) hc]
  · intro c hc
    show (P.getRow (P.rows - 1)).getD c 0 = _
    have hc2 : c < P.cols := by omega
    rw [← hPget L.inputs.length c (by omega) hc]
    simp [Matrix.getRow, List.getD_eq_getElem?_getD, hc2, hsub]

end LeaveOneOut

section Prediction

variable {R : Type} [LinearOrderedField R] [FloorRing R]

omit [FloorRing R] in
theorem predict_eq (nm : Numerics R) (L : LSSVMLearner R) (x : Vector R)
    (hn : L.inputs ≠ []) (hrows : L.alphas.rows = L.inputs.length)
    (hx : ∀ v ∈ L.inputs, v.length = x.length) (hb : L.bias.length = L.alphas.cols) :
    L.predict nm x = .ok ⟨(List.range L.alphas.cols).map (fun c =>
      (∑ i ∈ Finset.range L.inputs.length,
        L.alphas.get i c * L.kernel.value nm.exp (L.inputs.getD i []) x) + L.bias.getD c 0)⟩ := by
  have h0 : L.inputs.length ≠ 0 := fun h => hn (List.length_eq_zero.1 h)
  have hk : L.inputs.mapM (fun v => L.kernel.evaluate nm.exp v x)
      = .ok (L.inputs.map (fun v => L.kernel.value nm.exp v x)) := by
    apply mapM_except_ok
    intro v hv
    exact RBFKernel.evaluate_ok _ _ _ _ (hx v hv)
  have hcols : L.alphas.transposed.cols
      = (L.inputs.map (fun v => L.kernel.value nm.exp v x)).length := by
    simp [Matrix.transposed, Matrix.ofFn, hrows]
  unfold LSSVMLearner.predict
  simp only
  rw [if_neg h0, hk]
  simp only [bind, Except.bind]
  unfold Matrix.mulVec
  rw [if_pos hcols]
  simp only
  unfold Vector.add
  have hlen : ((List.range L.alphas.transposed.rows).map (fun r =>
      ((List.range L.alphas.transposed.cols).map (fun c =>
        L.alphas.transposed.get r c
          * (L.inputs.map (fun v => L.kernel.value nm.exp v x)).getD c 0)).foldl
        (· + ·) 0)).length = L.bias.length := by
    simp [Matrix.transposed, Matrix.ofFn, hb]
  rw [if_pos hlen]
  show Except.ok _ = Except.ok _
  congr 2
  apply List.ext_getElem
  · simp [Matrix.transposed, Matrix.ofFn, hb]
  · intro c h1 h2
    have hc : c < L.alphas.cols := by simpa using h2
    have hcb : c < L.bias.length := by omega
    have e1 : L.alphas.transposed.rows = L.alphas.cols := rfl
    have e2 : L.alphas.transposed.cols = L.alphas.rows := rfl
    simp only [List.getElem_zipWith, List.getElem_map, List.getElem_range, e1, e2]
    rw [foldl_add_eq_sum, List.getD_eq_getElem _ _ hcb]
    congr 1
    rw [hrows]
    apply Finset.sum_congr rfl
    intro i hi
    have hi' : i < L.inputs.length := Finset.mem_range.1 hi
    unfold Matrix.transposed
    rw [Matrix.get_ofFn _ _ _ _ _ hc (by omega)]
    congr 1
    simp [List.getD_eq_getElem?_getD, hi']

omit [FloorRing R] in
/-- C22: for a learner with n >= 1 stored inputs of the length of `x`, an
alphas matrix of n rows and a bias of as many components as alphas has
columns, `predict(x)` returns a vector of that many components; its component
`c` is the sum over `i < n` of `alphas[i][c] * kernel(inputs[i], x)`, plus
`bias[c]`. -/
theorem predict_kernel_expansion (nm : Numerics R) (L : LSSVMLearner R) (x : Vector R)
    (hn : L.inputs ≠ []) (hrows : L.alphas.rows = L.inputs.length)
    (hx : ∀ v ∈ L.inputs, v.length = x.length) (hb : L.bias.length = L.alphas.cols) :
    ∃ p : Prediction R, L.predict nm x = .ok p ∧
      p.prediction.length = L.alphas.cols ∧
      ∀ c, c < L.alphas.cols →
        p.prediction.getD c 0
          = (∑ i ∈ Finset.range L.inputs.length,
              L.alphas.get i c * L.kernel.value nm.exp (L.inputs.getD i []) x)
            + L.bias.getD c 0 := by
  refine ⟨_, predict_eq nm L x hn hrows hx hb, by simp, ?_⟩
  intro c hc
  simp [List.getD_eq_getElem?_getD, hc]

/-- Witness of C22: the trained learner on the input `[0]`. -/
theorem predict_kernel_expansion_witness :
    ∃ p : Prediction ℚ, trained.predict rationalNumerics [0] = .ok p ∧
      p.prediction.length = trained.alphas.cols ∧
      ∀ c, c < trained.alphas.cols →
        p.prediction.getD c 0
          = (∑ i ∈ Finset.range trained.inputs.length,
              trained.alphas.get i c
                * trained.kernel.value rationalNumerics.exp (trained.inputs.getD i []) [0])
            + trained.bias.getD c 0 :=
  predict_kernel_expansion rationalNumerics trained [0] (by decide) rfl (by decide) rfl

end Prediction

section Interpolation

variable {R : Type} [LinearOrderedField R] [FloorRing R]

omit [FloorRing R] in
theorem inverse_entries (n : Nat) (K Kinv : Matrix R) (hr : K.rows = n + 1) (hc : K.cols = n + 1)
    (hinv : Matrix.mul K Kinv = .ok (Matrix.identity (n + 1))) :
    Kinv.rows = n + 1 ∧ Kinv.cols = n + 1 ∧
    ∀ i j, i < n + 1 → j < n + 1 →
      ∑ k ∈ Finset.range (n + 1), K.get i k * Kinv.get k j = if i = j then 1 else 0 := by
  unfold Matrix.mul at hinv
  by_cases hcond : K.cols = Kinv.rows
  · rw [if_pos hcond] at hinv
    simp only [Except.ok.injEq] at hinv
    have hcols : Kinv.cols = n + 1 := congrArg Matrix.cols hinv
    refine ⟨by omega, hcols, ?_⟩
    intro i j hi hj
    have hget := congrArg (fun M => M.get i j) hinv
    simp only at hget
    rw [Matrix.get_ofFn _ _ _ _ _ (by omega) (by omega)] at hget
    unfold Matrix.identity at hget
    rw [Matrix.get_ofFn _ _ _ _ _ hi hj, foldl_add_eq_sum, hc] at hget
    exact hget
  · rw [if_neg hcond] at hinv
    cases hinv

omit [FloorRing R] in
theorem solved_system (nm : Numerics R) (L : LSSVMLearner R)
    (hinv : Matrix.mul (augmentedKernel nm L) (nm.luinv (augmentedKernel nm L))
      = .ok (Matrix.identity (L.inputs.length + 1)))
    (i c : Nat) (hi : i < L.inputs.length + 1) :
    ∑ r ∈ Finset.range (L.inputs.length + 1), (augmentedKernel nm L).get i r *
        ∑ k ∈ Finset.range (L.inputs.length + 1),
          (nm.luinv (augmentedKernel nm L)).get r k * (stackedOutputs L).get k c
      = (stackedOutputs L).get i c := by
  obtain ⟨_, _, hent⟩ := inverse_entries L.inputs.length _ _ rfl rfl hinv
  calc ∑ r ∈ Finset.range (L.inputs.length + 1), (augmentedKernel nm L).get i r *
        ∑ k ∈ Finset.range (L.inputs.length + 1),
          (nm.luinv (augmentedKernel nm L)).get r k * (stackedOutputs L).get k c
      = ∑ r ∈ Finset.range (L.inputs.length + 1), ∑ k ∈ Finset.range (L.inputs.length + 1),
          (augmentedKernel nm L).get i r * (nm.luinv (augmentedKernel nm L)).get r k
            * (stackedOutputs L).get k c := by
        apply Finset.sum_congr rfl
        intro r _
        rw [Finset.mul_sum]
        apply Finset.sum_congr rfl
        intro k _
        ring
    _ = ∑ k ∈ Finset.range (L.inputs.length + 1), ∑ r ∈ Finset.range (L.inputs.length + 1),
          (augmentedKernel nm L).get i r * (nm.luinv (augmentedKernel nm L)).get r k
            * (stackedOutputs L).get k c := Finset.sum_comm
    _ = ∑ k ∈ Finset.range (L.inputs.length + 1),
          (if i = k then 1 else 0) * (stackedOutputs L).get k c := by
        apply Finset.sum_congr rfl
        intro k hk
        rw [← Finset.sum_mul, hent i k hi (Finset.mem_range.1 hk)]
    _ = (stackedOutputs L).get i c := by
        simp [Finset.sum_ite_eq, Finset.mem_range, hi]

omit [FloorRing R] in
/-- C26: for a learner with n >= 1 samples of the configured sizes and
C > 0, when `luinv` returns an inverse of the augmented matrix `K`,
`train()` succeeds, and afterwards the prediction for the stored input `i` has
the components `outputs[i][c] - alphas[i][c] / C`, and the dual coefficients of
every output dimension sum to zero. -/
theorem train_interpolates (nm : Numerics R) (L : LSSVMLearner R)
    (hn : L.inputs ≠ []) (hlen : L.inputs.length = L.outputs.length)
    (hin : ∀ v ∈ L.inputs, v.length = L.domainSize)
    (hout : ∀ v ∈ L.outputs, v.length = L.codomainSize)
    (_hC : 0 < L.C)
    (hinv : Matrix.mul (augmentedKernel nm L) (nm.luinv (augmentedKernel nm L))
      = .ok (Matrix.identity (L.inputs.length + 1))) :
    ∃ T : LSSVMLearner R, L.train nm = .ok T ∧
      (∀ i, i < L.inputs.length →
        ∃ p : Prediction R, T.predict nm (L.inputs.getD i []) = .ok p ∧
          p.prediction.length = L.codomainSize ∧
          ∀ c, c < L.codomainSize →
            p.prediction.getD c 0 = (L.outputs.getD i []).getD c 0 - T.alphas.get i c / L.C) ∧
      (∀ c, c < L.codomainSize → ∑ j ∈ Finset.range L.inputs.length, T.alphas.get j c = 0) := by
  obtain ⟨hKr, hKc, _⟩ := inverse_entries L.inputs.length _ _ rfl rfl hinv
  obtain ⟨T, hT, hbase, hTin, _, hTC, hTk, hTr, hTc, hTb, _, hTa, hTbias⟩ :=
    train_ok nm L hn hlen hin hout hKr hKc
  have hsys : ∀ i c, i < L.inputs.length + 1 → c < L.codomainSize →
      (∑ r ∈ Finset.range L.inputs.length, (augmentedKernel nm L).get i r * T.alphas.get r c)
        + (augmentedKernel nm L).get i L.inputs.length * T.bias.getD c 0
        = (stackedOutputs L).get i c := by
    intro i c hi hc
    rw [← solved_system nm L hinv i c hi, Finset.sum_range_succ, hTbias c hc]
    congr 1
    apply Finset.sum_congr rfl
    intro r hr
    rw [hTa r c (Finset.mem_range.1 hr) hc]
  refine ⟨T, hT, ?_, ?_⟩
  · intro i hi
    have hxi : (L.inputs.getD i []).length = L.domainSize := by
      rw [List.getD_eq_getElem _ _ hi]
      exact hin _ (List.getElem_mem hi)
    have hp := predict_eq nm T (L.inputs.getD i []) (by rw [hTin]; exact hn)
      (by rw [hTr, hTin]) (by rw [hTin]; intro v hv; rw [hin v hv, hxi]) (by rw [hTb, hTc])
    refine ⟨_, hp, by simp [hTc], ?_⟩
    intro c hc
    have hs := hsys i c (by omega) hc
    have hY : (stackedOutputs L).get i c = (L.outputs.getD i []).getD c 0 := by
      unfold stackedOutputs
      rw [Matrix.get_ofFn _ _ _ _ _ (by omega) hc, if_pos (by omega)]
    have hKn : (augmentedKernel nm L).get i L.inputs.length = 1 := by
      rw [augmentedKernel_get nm L i _ (by omega) (by omega)]
      have : ¬ i = L.inputs.length := by omega
      simp [this]
    have hKsum : ∑ r ∈ Finset.range L.inputs.length,
          (augmentedKernel nm L).get i r * T.alphas.get r c
        = (∑ r ∈ Finset.range L.inputs.length,
            T.alphas.get r c * L.kernel.value nm.exp (L.inputs.getD r []) (L.inputs.getD i []))
          + T.alphas.get i c / L.C := by
      have hterm : ∀ r ∈ Finset.range L.inputs.length,
          (augmentedKernel nm L).get i r * T.alphas.get r c
            = T.alphas.get r c * L.kernel.value nm.exp (L.inputs.getD r []) (L.inputs.getD i [])
              + (if i = r then T.alphas.get r c / L.C else 0) := by
        intro r hr
        have hr' : r < L.inputs.length := Finset.mem_range.1 hr
        rw [augmentedKernel_get nm L i r (by omega) (by omega)]
        simp only [hi, hr', and_self, if_true]
        by_cases hir : i = r
        · subst hir
          simp only [if_true]
          ring
        · simp only [hir, if_false]
          rw [RBFKernel.value_comm]
          ring
      rw [Finset.sum_congr rfl hterm, Finset.sum_add_distrib]
      congr 1
      simp [Finset.sum_ite_eq, Finset.mem_range, hi]
    rw [hKsum, hKn, hY] at hs
    rw [List.getD_eq_getElem?_getD]
    simp only [List.getElem?_map, List.getElem?_range (show c < T.alphas.cols by omega),
      Option.map_some', Option.getD_some, hTin, hTk]
    linarith
  · intro c hc
    have hs := hsys L.inputs.length c (by omega) hc
    have hY : (stackedOutputs L).get L.inputs.length c = 0 := by
      unfold stackedOutputs
      rw [Matrix.get_ofFn _ _ _ _ _ (by omega) hc, if_neg (by omega)]
    have hKn : (augmentedKernel nm L).get L.inputs.length L.inputs.length = 0 := by
      rw [augmentedKernel_get nm L _ _ (by omega) (by omega)]
      simp
    have hKsum : ∑ r ∈ Finset.range L.inputs.length,
          (augmentedKernel nm L).get L.inputs.length r * T.alphas.get r c
        = ∑ r ∈ Finset.range L.inputs.length, T.alphas.get r c := by
      apply Finset.sum_congr rfl
      intro r hr
      have hr' : r < L.inputs.length := Finset.mem_range.1 hr
      rw [augmentedKernel_get nm L _ r (by omega) (by omega)]
      have h1 : ¬ (L.inputs.length < L.inputs.length ∧ r < L.inputs.length) := by omega
      have h2 : ¬ r = L.inputs.length := by omega
      simp [h2]
    rw [hKsum, hKn, hY, zero_mul, add_zero] at hs
    exact hs

set_option maxRecDepth 100000 in
theorem fed_kernel :
    augmentedKernel rationalNumerics fed = ⟨3, 3, [2, 1, 1, 1, 2, 1, 1, 1, 0], rfl⟩ := by
  with_unfolding_all rfl

set_option maxRecDepth 100000 in
theorem fed_inverse_value :
    rationalNumerics.luinv ⟨3, 3, [2, 1, 1, 1, 2, 1, 1, 1, 0], rfl⟩
      = ⟨3, 3, [1 / 2, -1 / 2, 1 / 2, -1 / 2, 1 / 2, 1 / 2, 1 / 2, 1 / 2, -3 / 2], rfl⟩ := by
  with_unfolding_all rfl

set_option maxRecDepth 100000 in
theorem fed_product :
    Matrix.mul (⟨3, 3, [2, 1, 1, 1, 2, 1, 1, 1, 0], rfl⟩ : Matrix ℚ)
      ⟨3, 3, [1 / 2, -1 / 2, 1 / 2, -1 / 2, 1 / 2, 1 / 2, 1 / 2, 1 / 2, -3 / 2], rfl⟩
      = .ok (Matrix.identity 3) := by
  unfold Matrix.mul Matrix.identity
  rw [if_pos rfl]
  congr 1
  apply Matrix.ofFn_congr
  intro r c hr hc
  have hr' : r < 3 := hr
  have hc' : c < 3 := hc
  interval_cases r <;> interval_cases c <;> with_unfolding_all rfl

set_option maxRecDepth 100000 in
/-- Witness of C26: the learner `fed` with the exact rational inverse. -/
theorem train_interpolates_witness :
    ∃ T : LSSVMLearner ℚ, fed.train rationalNumerics = .ok T ∧
      (∀ i, i < fed.inputs.length →
        ∃ p : Prediction ℚ, T.predict rationalNumerics (fed.inputs.getD i []) = .ok p ∧
          p.prediction.length = fed.codomainSize ∧
          ∀ c, c < fed.codomainSize →
            p.prediction.getD c 0 = (fed.outputs.getD i []).getD c 0 - T.alphas.get i c / fed.C) ∧
      (∀ c, c < fed.codomainSize → ∑ j ∈ Finset.range fed.inputs.length, T.alphas.get j c = 0) :=
  train_interpolates rationalNumerics fed (by decide) (by decide) (by decide) (by decide)
    (by with_unfolding_all decide) (by rw [fed_kernel, fed_inverse_value]; exact fed_product)

end Interpolation

/-! ## A single sample, sizes changed after samples, and a failed `setAt` -/

section Divisor

variable {R : Type} [LinearOrderedField R] [FloorRing R]

omit [FloorRing R] in
/-- C27, the code on a single sample: for every learner that holds one sample
of the configured sizes, every C and every `luinv` that returns an inverse of
the augmented matrix `K`, `train()` succeeds with the LOO computed from
`Kinv = luinv(K)`, and the divisor `Kinv[0][0]` of that computation is 0, as is
the coefficient `alphas[0][c]` that it divides. -/
theorem single_sample_divisor (nm : Numerics R) (L : LSSVMLearner R) (x y : Vector R)
    (hx : L.inputs = [x]) (hy : L.outputs = [y])
    (hin : x.length = L.domainSize) (hout : y.length = L.codomainSize)
    (_hC : 0 < L.C)
    (hinv : Matrix.mul (augmentedKernel nm L) (nm.luinv (augmentedKernel nm L))
      = .ok (Matrix.identity 2)) :
    (nm.luinv (augmentedKernel nm L)).get 0 0 = 0 ∧
    ∃ T : LSSVMLearner R, L.train nm = .ok T ∧ T.alphas.rows = 1 ∧
      T.LOO = LSSVMLearner.looOf L.codomainSize T.alphas (nm.luinv (augmentedKernel nm L)) ∧
      ∀ c, c < L.codomainSize → T.alphas.get 0 c = 0 := by
  have hlen1 : L.inputs.length = 1 := by rw [hx]; rfl
  have hlen2 : L.outputs.length = 1 := by rw [hy]; rfl
  have hinv' : Matrix.mul (augmentedKernel nm L) (nm.luinv (augmentedKernel nm L))
      = .ok (Matrix.identity (L.inputs.length + 1)) := by rw [hlen1]; exact hinv
  obtain ⟨hKr, hKc, hent⟩ := inverse_entries L.inputs.length _ _ rfl rfl hinv'
  have h00 : (nm.luinv (augmentedKernel nm L)).get 0 0 = 0 := by
    have h := hent 1 0 (by omega) (by omega)
    rw [hlen1] at h
    rw [Finset.sum_range_succ, Finset.sum_range_one,
      augmentedKernel_get nm L 1 0 (by omega) (by omega),
      augmentedKernel_get nm L 1 1 (by omega) (by omega)] at h
    simpa [hlen1] using h
  obtain ⟨T, hT, _, _, _, _, _, hTr, _, _, hloo, hTa, _⟩ :=
    train_ok nm L (by rw [hx]; simp) (by rw [hlen1, hlen2])
      (by rw [hx]; intro v hv; rw [List.mem_singleton.1 hv]; exact hin)
      (by rw [hy]; intro v hv; rw [List.mem_singleton.1 hv]; exact hout) hKr hKc
  refine ⟨h00, T, hT, by rw [hTr, hlen1], hloo, ?_⟩
  intro c hc
  have hY : (stackedOutputs L).get 1 c = 0 := by
    unfold stackedOutputs
    rw [Matrix.get_ofFn _ _ _ _ _ (by omega) hc, if_neg (by omega)]
  rw [hTa 0 c (by omega) hc, hlen1, Finset.sum_range_succ, Finset.sum_range_one, h00, hY]
  ring

end Divisor

set_option maxRecDepth 100000 in
theorem single_kernel :
    augmentedKernel rationalNumerics single = ⟨2, 2, [2, 1, 1, 0], rfl⟩ := by
  with_unfolding_all rfl

set_option maxRecDepth 100000 in
theorem single_inverse_value :
    rationalNumerics.luinv ⟨2, 2, [2, 1, 1, 0], rfl⟩ = ⟨2, 2, [0, 1, 1, -2], rfl⟩ := by
  with_unfolding_all rfl

set_option maxRecDepth 100000 in
theorem single_product :
    Matrix.mul (⟨2, 2, [2, 1, 1, 0], rfl⟩ : Matrix ℚ) ⟨2, 2, [0, 1, 1, -2], rfl⟩
      = .ok (Matrix.identity 2) := by
  unfold Matrix.mul Matrix.identity
  rw [if_pos rfl]
  congr 1
  apply Matrix.ofFn_congr
  intro r c hr hc
  have hr' : r < 2 := hr
  have hc' : c < 2 := hc
  interval_cases r <;> interval_cases c <;> with_unfolding_all rfl

set_option maxRecDepth 100000 in
/-- Witness of C27: the learner `single`, with C = 1 and the exact rational
inverse `[[0, 1], [1, -2]]` of `K = [[2, 1], [1, 0]]`. -/
theorem single_sample_divisor_witness :
    (rationalNumerics.luinv (augmentedKernel rationalNumerics single)).get 0 0 = 0 ∧
    ∃ T : LSSVMLearner ℚ, single.train rationalNumerics = .ok T ∧ T.alphas.rows = 1 ∧
      T.LOO = LSSVMLearner.looOf single.codomainSize T.alphas
        (rationalNumerics.luinv (augmentedKernel rationalNumerics single)) ∧
      ∀ c, c < single.codomainSize → T.alphas.get 0 c = 0 :=
  single_sample_divisor rationalNumerics single [0] [1] rfl rfl rfl rfl
    (by with_unfolding_all decide)
    (by rw [single_kernel, single_inverse_value]; exact single_product)

set_option maxRecDepth 100000 in
/-- C28, the code at the failing input: after `feedSample([0], [1])` and
`setDomainSize(2)` the stored input still has one component, and `writeBottle`
reads its component 1; after `setCoDomainSize(2)` instead, the stored output
still has one component, and `train` reads its component 1. -/
theorem samples_keep_their_size :
    (lssvm.feedSample [0] [1]).1 = .ok () ∧
    resized.domainSize = 2 ∧ resized.inputs = [[0]] ∧ resized.outputs = [[1]] ∧
    resized.writeBottle Bottle.empty = .error .outOfBounds ∧
    widened.codomainSize = 2 ∧ widened.inputs = [[0]] ∧ widened.outputs = [[1]] ∧
    widened.train rationalNumerics = .error .outOfBounds ∧
    widened.writeBottle Bottle.empty = .error .outOfBounds := by
  refine ⟨rfl, rfl, rfl, rfl, ?_, rfl, rfl, rfl, ?_, ?_⟩ <;> with_unfolding_all rfl

/-- C29, the code at the failing input: `setAt(0, log)`, with no scaler
registered as `log`, fails with the unknown-key error and leaves a null pointer
in slot 0 of the three scalers; `transform` then calls through the null
pointer. `setAll(log)` and `configure` with `type 1 log` end in the same
state. -/
theorem failed_setAt_leaves_null :
    threeScalers.scalers = [some nullScaler, some nullScaler, some nullScaler] ∧
    (threeScalers.setAt scalerRegistry 0 "log").1 = .error (.unknownKey "log") ∧
    (threeScalers.setAt scalerRegistry 0 "log").2.scalers
      = [none, some nullScaler, some nullScaler] ∧
    ((threeScalers.setAt scalerRegistry 0 "log").2.transform [1, 2, 3]).1
      = .error .nullDereference ∧
    (threeScalers.setAll scalerRegistry "log").1 = .error (.unknownKey "log") ∧
    (threeScalers.setAll scalerRegistry "log").2.scalers
      = [none, some nullScaler, some nullScaler] ∧
    (threeScalers.configure scalerRegistry typeLogConfig).1 = .error (.unknownKey "log") ∧
    (threeScalers.configure scalerRegistry typeLogConfig).2.scalers
      = [none, some nullScaler, some nullScaler] := by
  refine ⟨rfl, rfl, rfl, ?_, rfl, rfl, ?_, ?_⟩ <;> with_unfolding_all rfl

end iCub.learningmachine
